import Mathlib

/-!
# Prayer-time computation (`praytimes/praytimes.go`)

A shallow embedding of the Go package `praytimes` and the properties of it that the
specification states.

## Two readings of `float64`

The package is embedded twice, function by function and under the same names.

* Over `F64`, in `Praytimes`: a `float64` is a finite value, carried as an exact rational,
  or `NaN`, and arithmetic on finite values is exact.  `NaN` propagates through arithmetic
  and `math.Floor`, and every ordered comparison and every `==` with a `NaN` operand is
  false, as in Go.  Infinities are not part of this reading: the only division of the
  package whose divisor is not a non-zero constant is `beg/mid` in `computeTime`; its
  quotient is consumed by `math.Acos` alone, which answers `NaN` both for an infinite
  argument and for a `NaN` one, so a zero divisor is given the quotient `NaN`.  This
  reading serves the properties that hold however a result is rounded: which entries an
  operation reads and writes, in which order and under which test, which expression an
  entry is the value of, and the order of two values.
* Over `B64`, in `Praytimes.IEEE`: every operation returns the IEEE 754 binary64 value
  nearest to the exact result, with overflow to the infinities.  This reading serves the
  evaluation of the code at concrete inputs, where the rounding of a result decides.

## What stands outside the package

The transcendental functions of Go's package `math` and the zone lookup of package `time`
are not part of the repository.  They are the fields of `Host`; the special cases that the
Go documentation fixes for them (`NaN` in, `NaN` out; `Asin` and `Acos` outside `[-1, 1]`
are `NaN`) are part of the embedding.  For evaluation, a host is given by the table of its
values at the arguments that a run reaches.
-/

namespace Praytimes

/-! ## float64 -/

/-- A `float64`: a finite value (an exact rational) or `NaN`. -/
inductive F64 where
  | fin (q : ℚ)
  | nan
deriving DecidableEq

namespace F64

/-- Go `x + y`. -/
def add : F64 → F64 → F64
  | fin a, fin b => fin (a + b)
  | _, _ => nan

/-- Go `x - y`. -/
def sub : F64 → F64 → F64
  | fin a, fin b => fin (a - b)
  | _, _ => nan

/-- Go `x * y`. -/
def mul : F64 → F64 → F64
  | fin a, fin b => fin (a * b)
  | _, _ => nan

/-- Go `x / y`; a zero divisor yields `NaN` (see the header). -/
def div : F64 → F64 → F64
  | fin a, fin b => if b = 0 then nan else fin (a / b)
  | _, _ => nan

/-- Go unary `-x`. -/
def neg : F64 → F64
  | fin a => fin (-a)
  | nan => nan

instance : Add F64 := ⟨add⟩
instance : Sub F64 := ⟨sub⟩
instance : Mul F64 := ⟨mul⟩
instance : Div F64 := ⟨div⟩
instance : Neg F64 := ⟨neg⟩

/-- Go `math.Floor`. -/
def floor : F64 → F64
  | fin a => fin (⌊a⌋ : ℤ)
  | nan => nan

/-- Go `math.Abs`. -/
def abs : F64 → F64
  | fin a => fin |a|
  | nan => nan

/-- Go `x < y`. -/
def lt : F64 → F64 → Bool
  | fin a, fin b => decide (a < b)
  | _, _ => false

/-- Go `x <= y`. -/
def le : F64 → F64 → Bool
  | fin a, fin b => decide (a ≤ b)
  | _, _ => false

/-- Go `x > y`. -/
def gt : F64 → F64 → Bool
  | fin a, fin b => decide (a > b)
  | _, _ => false

/-- Go `x == y`. -/
def eq : F64 → F64 → Bool
  | fin a, fin b => decide (a = b)
  | _, _ => false

/-- Go `float64(n)` for an `int` n. -/
def ofInt (n : ℤ) : F64 := fin (n : ℚ)

/-- The value is finite (neither `NaN` nor, outside the model, an infinity). -/
def isFinite : F64 → Bool
  | fin _ => true
  | nan => false

end F64

open F64

/-! ## The host: packages `math` and `time` -/

/-- A calendar date as `cfg.Date.Year()`, `.Month()` and `.Day()` report it. -/
structure GoDate where
  Year : ℤ
  Month : ℤ
  Day : ℤ

/-- What the package takes from Go's standard library: the values of `math.Sin`,
`math.Cos`, `math.Tan`, `math.Asin`, `math.Acos`, `math.Atan` and `math.Atan2` at finite
arguments, and the zone offset in seconds east of UTC that
`cfg.Date.In(loc).Zone()` reports for the location named `cfg.TimeZone`.  For a name that
`time.LoadLocation` does not know, `computeTimes` drops the error and `t.In(nil)` panics:
there is no result, and the value of `zoneOffset` at such a name stands for nothing. -/
structure Host where
  sin : ℚ → ℚ
  cos : ℚ → ℚ
  tan : ℚ → ℚ
  asin : ℚ → ℚ
  acos : ℚ → ℚ
  atan : ℚ → ℚ
  atan2 : ℚ → ℚ → ℚ
  zoneOffset : GoDate → String → ℤ

/-- The `float64` nearest to π, which the constant `math.Pi` becomes in a `float64`
expression: 884279719003555 / 2^48. -/
def Pi : F64 := fin (884279719003555 / 281474976710656)

/-- Go `math.Sin`. -/
def Host.Sin (H : Host) : F64 → F64
  | fin x => fin (H.sin x)
  | nan => nan

/-- Go `math.Cos`. -/
def Host.Cos (H : Host) : F64 → F64
  | fin x => fin (H.cos x)
  | nan => nan

/-- Go `math.Tan`. -/
def Host.Tan (H : Host) : F64 → F64
  | fin x => fin (H.tan x)
  | nan => nan

/-- Go `math.Asin`: `NaN` outside `[-1, 1]`. -/
def Host.Asin (H : Host) : F64 → F64
  | fin x => if x < -1 ∨ x > 1 then nan else fin (H.asin x)
  | nan => nan

/-- Go `math.Acos`: `NaN` outside `[-1, 1]`. -/
def Host.Acos (H : Host) : F64 → F64
  | fin x => if x < -1 ∨ x > 1 then nan else fin (H.acos x)
  | nan => nan

/-- Go `math.Atan`. -/
def Host.Atan (H : Host) : F64 → F64
  | fin x => fin (H.atan x)
  | nan => nan

/-- Go `math.Atan2`. -/
def Host.Atan2 (H : Host) : F64 → F64 → F64
  | fin y, fin x => fin (H.atan2 y x)
  | _, _ => nan

/-! ## Slices -/

/-- A Go `[]float64`. -/
abbrev Slice := List F64

/-- Go `s[i]` as a value.  An index outside the slice panics in Go; the nine-element
slices of this package are never indexed outside `0..8`. -/
def Slice.idx (s : Slice) (i : ℕ) : F64 := s.getD i nan

/-- Go `s[i] = v`. -/
def Slice.put (s : Slice) (i : ℕ) (v : F64) : Slice := s.set i v

/-! ## Constants and tables -/

def ConventionJafari : Fin 8 := 0
def ConventionKarachi : Fin 8 := 1
def ConventionISNA : Fin 8 := 2
def ConventionMWL : Fin 8 := 3
def ConventionMakkah : Fin 8 := 4
def ConventionEgypt : Fin 8 := 5
def ConventionTehran : Fin 8 := 6
def ConventionCustom : Fin 8 := 7

def AngleFajr : ℕ := 0
def AngleDhuhr : ℕ := 1
def AngleMaghrib : ℕ := 2
def AngleNAN : ℕ := 3
def AngleIsha : ℕ := 4

def HighlatMethodNone : ℤ := 0
def HighlatMethodNightMiddle : ℤ := 1
def HighlatMethodOneSeventh : ℤ := 2
def HighlatMethodAngleBased : ℤ := 3

/-- The rows of `sunAngle`, one per convention. -/
def sunAngleRows : List (List ℚ) :=
  [ [16, 0, 4, 0, 14],      -- Jafari
    [18, 1, 0, 0, 18],      -- Karachi
    [15, 1, 0, 0, 15],      -- ISNA
    [18, 1, 0, 0, 17],      -- MWL
    [18.5, 1, 0, 1, 90],    -- Makkah
    [19.5, 1, 0, 0, 17.5],  -- Egypt
    [17.7, 0, 4.5, 0, 14],  -- Tehran
    [18, 1, 0, 0, 17] ]     -- Custom

/-- Go `sunAngle[c][j]`.  The table is `[8][5]float64`: a convention outside `0..7` makes
the first lookup of `computeTimes` panic, so no result is produced for it; the type of
the convention records that. -/
def sunAngle (c : Fin 8) (j : ℕ) : F64 := fin ((sunAngleRows.getD c.val []).getD j 0)

def TimeImsak : ℕ := 0
def TimeFajr : ℕ := 1
def TimeSunrise : ℕ := 2
def TimeDhuhr : ℕ := 3
def TimeAsr : ℕ := 4
def TimeSunset : ℕ := 5
def TimeMaghrib : ℕ := 6
def TimeIsha : ℕ := 7
def TimeMidnight : ℕ := 8

def AsrFactorStandard : ℤ := 1
def AsrFactorHanafi : ℤ := 2

def defaultTimes : Slice := [fin 5, fin 5, fin 6, fin 12, fin 13, fin 18, fin 18, fin 18, fin 18]

/-- Hours and minutes data structure. -/
structure HoursMinutes where
  Hours : F64
  Minutes : F64
deriving DecidableEq

/-- Prayer times data structure. -/
structure PrayTimes where
  Imsak : HoursMinutes
  Fajr : HoursMinutes
  Sunrise : HoursMinutes
  Dhuhr : HoursMinutes
  Asr : HoursMinutes
  Sunset : HoursMinutes
  Maghrib : HoursMinutes
  Isha : HoursMinutes
  Midnight : HoursMinutes
deriving DecidableEq

/-- Configuration data structure.  `Offsets` is a `[9]float64`. -/
structure Config where
  Convention : Fin 8
  ImsakMinutes : ℤ
  DhuhrMinutes : ℤ
  AsrFactor : ℤ
  HighLatMethod : ℤ
  Latitude : F64
  Longitude : F64
  Date : GoDate
  TimeZone : String
  Offsets : Fin 9 → F64

/-- Go `offsets[t]` on a `[9]float64` (an index outside `0..8` panics in Go). -/
def offsetAt (offsets : Fin 9 → F64) (t : ℕ) : F64 :=
  if h : t < 9 then offsets ⟨t, h⟩ else nan

/-! ## Trigonometric functions -/

/-- Range reduce angle in degree. -/
def fixAngle (a : F64) : F64 :=
  let a := a - (fin 360 * F64.floor (a / fin 360))
  if F64.lt a (fin 0) then a + fin 360 else a

/-- Range reduce hours to 0..23. -/
def fixHour (a : F64) : F64 :=
  let a := a - fin 24 * F64.floor (a / fin 24)
  if F64.lt a (fin 0) then a + fin 24 else a

def radiansToDegrees (alpha : F64) : F64 := (alpha * fin 180) / Pi

def degreesToRadians (alpha : F64) : F64 := (alpha * Pi) / fin 180

def degreeToSin (H : Host) (d : F64) : F64 := H.Sin (degreesToRadians d)

def degreeToCos (H : Host) (d : F64) : F64 := H.Cos (degreesToRadians d)

def degreeToTan (H : Host) (d : F64) : F64 := H.Tan (degreesToRadians d)

def degreeArcsin (H : Host) (x : F64) : F64 := radiansToDegrees (H.Asin x)

def degreeArccos (H : Host) (x : F64) : F64 := radiansToDegrees (H.Acos x)

def degreeArctan (H : Host) (x : F64) : F64 := radiansToDegrees (H.Atan x)

def degreeArctan2 (H : Host) (y x : F64) : F64 := radiansToDegrees (H.Atan2 y x)

def degreeArccot (H : Host) (x : F64) : F64 := radiansToDegrees (H.Atan2 (fin 1) x)

/-! ## Julian date -/

/-- Calculate julian date from a calendar date. -/
def julianDate (year month day : F64) : F64 :=
  let ym : F64 × F64 :=
    if F64.le month (fin 2) then (year - fin 1, month + fin 12) else (year, month)
  let year := ym.1
  let month := ym.2
  let A := F64.floor (year / fin 100)
  let B := fin 2 - A + F64.floor (A / fin 4)
  let y := F64.floor (fin 365.25 * (year + fin 4716))
  let m := F64.floor (fin 30.6001 * (month + fin 1))
  (y + m + day + B) - fin 1524

/-! ## Calculation functions -/

/-- Compute declination angle of sun and equation of time: the pair `(d, EqT)`. -/
def sunPosition (H : Host) (jd : F64) : F64 × F64 :=
  let D := jd - fin 2451545
  let g := fixAngle (fin 357.529 + fin 0.98560028 * D)
  let q := fixAngle (fin 280.459 + fin 0.98564736 * D)
  let L := fixAngle (q + (fin 1.915 * degreeToSin H g) + (fin 0.020 * degreeToSin H (fin 2 * g)))
  let e := fin 23.439 - (fin 0.00000036 * D)
  let d := degreeArcsin H (degreeToSin H e * degreeToSin H L)
  let RA := (degreeArctan2 H (degreeToCos H e * degreeToSin H L) (degreeToCos H L)) / fin 15
  let RA := fixHour RA
  let EqT := q / fin 15 - RA
  (d, EqT)

/-- Compute equation of time. -/
def equationOfTime (H : Host) (jd : F64) : F64 := (sunPosition H jd).2

/-- Compute declination angle of sun. -/
def sunDeclination (H : Host) (jd : F64) : F64 := (sunPosition H jd).1

/-- Compute midday (Dhuhr, Zawal) time. -/
def computeMidday (H : Host) (t jDay : F64) : F64 :=
  let T := equationOfTime H (jDay + t)
  fixHour (fin 12 - T)

/-- Compute time for the given angle G. -/
def computeTime (H : Host) (G t jDay latitude : F64) : F64 :=
  let D := sunDeclination H (jDay + t)
  let Z := computeMidday H t jDay
  let beg := -degreeToSin H G - degreeToSin H D * degreeToSin H latitude
  let mid := degreeToCos H D * degreeToCos H latitude
  let V := degreeArccos H (beg / mid) / fin 15
  if F64.gt G (fin 90) then Z + -V else Z + V

/-- Compute the time of Asr (Standard: factor=1, Hanafi: factor=2). -/
def computeAsr (H : Host) (factor : ℤ) (t jDay latitude : F64) : F64 :=
  let D := sunDeclination H (jDay + t)
  let G := -degreeArccot H (F64.ofInt factor + degreeToTan H (F64.abs (latitude - D)))
  computeTime H G t jDay latitude

/-! ## Compute prayer times -/

/-- Night portion used for adjusting times in higher latitudes. -/
def nightPortion (cfg : Config) (angle : F64) : F64 :=
  if cfg.HighLatMethod = HighlatMethodAngleBased then angle / fin 60
  else if cfg.HighLatMethod = HighlatMethodNightMiddle then fin 0.5
  else if cfg.HighLatMethod = HighlatMethodOneSeventh then fin 0.14286
  else fin 0

def dayPortion (time : F64) : F64 := time / fin 24

/-- Compute difference between two times. -/
def timeDiff (time1 time2 : F64) : F64 := fixHour (time2 - time1)

/-- Adjust fajr, maghrib and isha for locations in higher latitudes. -/
def adjustHighLatTime (cfg : Config) (timeName : ℕ) (time : F64) (times : Slice) : F64 :=
  let nightTime := timeDiff (times.idx TimeSunset) (times.idx TimeSunrise)
  if timeName = TimeFajr then
    let fajrDiff := nightPortion cfg (sunAngle cfg.Convention AngleFajr) * nightTime
    if F64.lt (times.idx TimeFajr) (fin 1)
        || F64.gt (timeDiff (times.idx TimeFajr) (times.idx TimeSunrise)) fajrDiff then
      times.idx TimeSunrise - fajrDiff
    else time
  else if timeName = TimeMaghrib then
    let maghribAngle :=
      if F64.eq (sunAngle cfg.Convention AngleDhuhr) (fin 0) then
        sunAngle cfg.Convention AngleMaghrib
      else fin 4
    let maghribDiff := nightPortion cfg maghribAngle * nightTime
    if F64.lt (times.idx TimeMaghrib) (fin 1)
        || F64.gt (timeDiff (times.idx TimeSunset) (times.idx TimeMaghrib)) maghribDiff then
      times.idx TimeSunset + maghribDiff
    else time
  else if timeName = TimeIsha then
    let ishaAngle :=
      if F64.eq (sunAngle cfg.Convention AngleNAN) (fin 0) then
        sunAngle cfg.Convention AngleIsha
      else fin 18
    let ishaDiff := nightPortion cfg ishaAngle * nightTime
    if F64.lt (times.idx TimeIsha) (fin 1)
        || F64.gt (timeDiff (times.idx TimeSunset) (times.idx TimeIsha)) ishaDiff then
      times.idx TimeSunset + ishaDiff
    else time
  else time

/-- One pass of the loop of `adjustTimes`, at index `i`. -/
def adjustTimes.step (cfg : Config) (tzOffset longitude : F64) (computedTimes : Slice)
    (i : ℕ) : Slice :=
  let computedTimes := computedTimes.put i (computedTimes.idx i + (tzOffset - longitude / fin 15))
  if cfg.HighLatMethod ≠ HighlatMethodNone then
    computedTimes.put i (adjustHighLatTime cfg i (computedTimes.idx i) computedTimes)
  else computedTimes

def adjustTimes (cfg : Config) (computedTimes : Slice) (tzOffset longitude : F64) : Slice :=
  let computedTimes :=
    (List.range computedTimes.length).foldl (adjustTimes.step cfg tzOffset longitude)
      computedTimes
  -- Imsak 10 minutes before fajr
  let computedTimes := computedTimes.put TimeImsak
    (computedTimes.idx TimeFajr - F64.ofInt cfg.ImsakMinutes / fin 60)
  -- Add dhuhr minutes if any
  let computedTimes := computedTimes.put TimeDhuhr
    (computedTimes.idx TimeDhuhr + F64.ofInt cfg.DhuhrMinutes / fin 60)
  let computedTimes :=
    if F64.eq (sunAngle cfg.Convention AngleDhuhr) (fin 1) then
      computedTimes.put TimeMaghrib
        (computedTimes.idx TimeSunset + sunAngle cfg.Convention AngleMaghrib / fin 60)
    else computedTimes
  let computedTimes :=
    if F64.eq (sunAngle cfg.Convention AngleNAN) (fin 1) then
      computedTimes.put TimeIsha
        (computedTimes.idx TimeMaghrib + sunAngle cfg.Convention AngleIsha / fin 60)
    else computedTimes
  computedTimes

def tuneTimes (computedTimes : Slice) (offsets : Fin 9 → F64) : Slice :=
  (List.range computedTimes.length).foldl
    (fun computedTimes t =>
      computedTimes.put t (computedTimes.idx t + offsetAt offsets t / fin 60))
    computedTimes

def convertToHoursMinutes (time : F64) : F64 × F64 :=
  let time := fixHour (time + fin (0.5 / 60)) -- add 0.5 minutes to round
  let hours := F64.floor time
  let minutes := F64.floor ((time - hours) * fin 60)
  (hours, minutes)

/-- Line 329 of `computeTimes`: `tzOffset := float64(offset / 60 / 60)`, for the zone
offset of `offset` seconds.  The two divisions are Go `int` divisions, which truncate
toward zero, and happen before the conversion to `float64`. -/
def tzOffset (offset : ℤ) : F64 := F64.ofInt ((offset.tdiv 60).tdiv 60)

/-- Lines 349–359 of `computeTimes`: from the solved times to the working array that is
formatted, through `adjustTimes`, `tuneTimes` and the midnight assignment. -/
def computeTimes.finish (cfg : Config) (tzOff : F64) (computedTimes : Slice) : Slice :=
  let computedTimes := adjustTimes cfg computedTimes tzOff cfg.Longitude
  let computedTimes := tuneTimes computedTimes cfg.Offsets
  -- Add midnight time
  if cfg.Convention = ConventionJafari then
    computedTimes.put TimeMidnight (computedTimes.idx TimeSunset +
      timeDiff (computedTimes.idx TimeSunset) (computedTimes.idx TimeFajr) / fin 2)
  else
    computedTimes.put TimeMidnight (computedTimes.idx TimeSunset +
      timeDiff (computedTimes.idx TimeSunset) (computedTimes.idx TimeSunrise) / fin 2)

/-- Lines 331–347 of `computeTimes`: the nine-element slice of solved times. -/
def computeTimes.solved (H : Host) (cfg : Config) : Slice :=
  let t := cfg.Date
  let jDay := julianDate (F64.ofInt t.Year) (F64.ofInt t.Month) (F64.ofInt t.Day)
  let lonDiff := cfg.Longitude / fin (15 * 24)
  let jDay := jDay - lonDiff
  let fajrTime := computeTime H (fin 180 - sunAngle cfg.Convention AngleFajr)
    (dayPortion (defaultTimes.idx TimeFajr)) jDay cfg.Latitude
  let sunriseTime := computeTime H (fin (180 - 0.833))
    (dayPortion (defaultTimes.idx TimeSunrise)) jDay cfg.Latitude
  let dhuhrTime := computeMidday H (dayPortion (defaultTimes.idx TimeDhuhr)) jDay
  let asrTime := computeAsr H cfg.AsrFactor (dayPortion (defaultTimes.idx TimeAsr)) jDay
    cfg.Latitude
  let sunsetTime := computeTime H (fin 0.833)
    (dayPortion (defaultTimes.idx TimeSunset)) jDay cfg.Latitude
  let maghribTime := computeTime H (sunAngle cfg.Convention AngleMaghrib)
    (dayPortion (defaultTimes.idx TimeMaghrib)) jDay cfg.Latitude
  let ishaTime := computeTime H (sunAngle cfg.Convention AngleIsha)
    (dayPortion (defaultTimes.idx TimeIsha)) jDay cfg.Latitude
  [fajrTime, fajrTime, sunriseTime, dhuhrTime, asrTime, sunsetTime, maghribTime, ishaTime,
    ishaTime]

/-- Lines 326–359 of `computeTimes`: the working array `computedTimes` as it stands when
the formatting of lines 361–400 starts. -/
def computeTimes.working (H : Host) (cfg : Config) : Slice :=
  let t := cfg.Date
  let offset := H.zoneOffset t cfg.TimeZone
  let tzOff := tzOffset offset
  computeTimes.finish cfg tzOff (computeTimes.solved H cfg)

/-- Lines 361–400 of `computeTimes`: every entry of the working array goes through
`convertToHoursMinutes` into its field. -/
def computeTimes.format (computedTimes : Slice) : PrayTimes :=
  let hm (i : ℕ) : HoursMinutes :=
    let hoursMinutes := convertToHoursMinutes (computedTimes.idx i)
    { Hours := hoursMinutes.1, Minutes := hoursMinutes.2 }
  { Imsak := hm TimeImsak
    Fajr := hm TimeFajr
    Sunrise := hm TimeSunrise
    Dhuhr := hm TimeDhuhr
    Asr := hm TimeAsr
    Sunset := hm TimeSunset
    Maghrib := hm TimeMaghrib
    Isha := hm TimeIsha
    Midnight := hm TimeMidnight }

def computeTimes (H : Host) (cfg : Config) : PrayTimes :=
  computeTimes.format (computeTimes.working H cfg)

/-- Customised configuration. -/
def Custom (H : Host) (convention : Fin 8) (dhuhrMinutes asrFactor highLatMethod : ℤ)
    (latitude longitude : F64) (date : GoDate) (timeZone : String)
    (offsets : Fin 9 → F64) : PrayTimes :=
  computeTimes H
    { Convention := convention
      ImsakMinutes := 10
      DhuhrMinutes := dhuhrMinutes
      AsrFactor := asrFactor
      HighLatMethod := highLatMethod
      Latitude := latitude
      Longitude := longitude
      Date := date
      TimeZone := timeZone
      Offsets := offsets }

/-! ## Vocabulary of the properties -/

/-- Line 349 of `computeTimes`: the slice that `adjustTimes` returns. -/
def computeTimes.adjusted (H : Host) (cfg : Config) : Slice :=
  adjustTimes cfg (computeTimes.solved H cfg) (tzOffset (H.zoneOffset cfg.Date cfg.TimeZone))
    cfg.Longitude

/-- Lines 331–333 of `computeTimes`: the Julian date, moved by the longitude. -/
def computeTimes.jDay (cfg : Config) : F64 :=
  julianDate (F64.ofInt cfg.Date.Year) (F64.ofInt cfg.Date.Month) (F64.ofInt cfg.Date.Day)
    - cfg.Longitude / fin (15 * 24)

/-- Line 490 of `tuneTimes`: the tuned value of entry `i` of the slice `A`. -/
def tuned (A : Slice) (offsets : Fin 9 → F64) (i : ℕ) : F64 :=
  A.idx i + offsetAt offsets i / fin 60

/-- The argument `beg/mid` that `computeTime` hands to the arccos (lines 306–310). -/
def computeTime.arg (H : Host) (G t jDay latitude : F64) : F64 :=
  let D := sunDeclination H (jDay + t)
  let beg := -degreeToSin H G - degreeToSin H D * degreeToSin H latitude
  let mid := degreeToCos H D * degreeToCos H latitude
  beg / mid

/-- The clock value `fixHour(time + 0.5/60)` that `convertToHoursMinutes` splits into hours
and minutes, for a finite `time`. -/
def clockOf (t : ℚ) : ℚ := t + 0.5 / 60 - 24 * (⌊(t + 0.5 / 60) / 24⌋ : ℤ)

/-- An (hour, minute) pair of integers on the 24-hour clock. -/
def HoursMinutes.onClock (x : HoursMinutes) : Prop :=
  ∃ h m : ℤ, x.Hours = fin h ∧ x.Minutes = fin m ∧ 0 ≤ h ∧ h ≤ 23 ∧ 0 ≤ m ∧ m ≤ 59

/-- All nine fields are on the 24-hour clock. -/
def PrayTimes.onClock (p : PrayTimes) : Prop :=
  p.Imsak.onClock ∧ p.Fajr.onClock ∧ p.Sunrise.onClock ∧ p.Dhuhr.onClock ∧ p.Asr.onClock ∧
    p.Sunset.onClock ∧ p.Maghrib.onClock ∧ p.Isha.onClock ∧ p.Midnight.onClock

/-- The Gregorian leap-year rule. -/
def isLeapYear (y : ℤ) : Bool := (y % 4 = 0 ∧ y % 100 ≠ 0) ∨ y % 400 = 0

/-- The Gregorian month lengths. -/
def daysInMonth (y m : ℤ) : ℤ :=
  if m = 2 then (if isLeapYear y then 29 else 28)
  else if m = 4 ∨ m = 6 ∨ m = 9 ∨ m = 11 then 30
  else 31

/-- A valid Gregorian calendar date of year 1 or later. -/
def validDate (d : GoDate) : Prop :=
  1 ≤ d.Year ∧ 1 ≤ d.Month ∧ d.Month ≤ 12 ∧ 1 ≤ d.Day ∧ d.Day ≤ daysInMonth d.Year d.Month

/-- The day after a date in the Gregorian calendar. -/
def nextDate (d : GoDate) : GoDate :=
  if d.Day < daysInMonth d.Year d.Month then { d with Day := d.Day + 1 }
  else if d.Month < 12 then { Year := d.Year, Month := d.Month + 1, Day := 1 }
  else { Year := d.Year + 1, Month := 1, Day := 1 }

/-- The call of line 331:
`julianDate(float64(t.Year()), float64(t.Month()), float64(t.Day()))`. -/
def julianDateOf (d : GoDate) : F64 :=
  julianDate (F64.ofInt d.Year) (F64.ofInt d.Month) (F64.ofInt d.Day)

/-- The value of `julianDate` at integer arguments, in integer arithmetic. -/
def julianDay (Y M D : ℤ) : ℤ :=
  let Y1 := if M ≤ 2 then Y - 1 else Y
  let M1 := if M ≤ 2 then M + 12 else M
  (1461 * (Y1 + 4716) / 4 + 306001 * (M1 + 1) / 10000 + D + (2 - Y1 / 100 + Y1 / 100 / 4)) - 1524

/-- A configuration for worked examples: convention MWL, no high-latitude method, longitude
0, all tuning offsets 0. -/
def exampleConfig : Config :=
  { Convention := ConventionMWL
    ImsakMinutes := 10
    DhuhrMinutes := 0
    AsrFactor := AsrFactorStandard
    HighLatMethod := HighlatMethodNone
    Latitude := fin 0
    Longitude := fin 0
    Date := { Year := 2000, Month := 1, Day := 1 }
    TimeZone := "UTC"
    Offsets := fun _ => fin 0 }

/-- Solved times for worked examples: Fajr 5h, Sunrise 6h, Dhuhr 12h, Asr 15h, Sunset and
Maghrib 18h, Isha 19h. -/
def exampleSolved : Slice :=
  [fin 5, fin 5, fin 6, fin 12, fin 15, fin 18, fin 18, fin 19, fin 19]

/-- The configuration that `Custom` builds for the reference fixture of
`praytimes_test.go`: Jafari, standard Asr, angle-based high-latitude method, Sydney,
14 October 1981, all tuning offsets 0. -/
def fixtureConfig : Config :=
  { Convention := ConventionJafari
    ImsakMinutes := 10
    DhuhrMinutes := 0
    AsrFactor := AsrFactorStandard
    HighLatMethod := HighlatMethodAngleBased
    Latitude := fin (-33.8688)
    Longitude := fin 151.2093
    Date := { Year := 1981, Month := 10, Day := 14 }
    TimeZone := "Australia/Sydney"
    Offsets := fun _ => fin 0 }

/-- The nine solved times of the reference fixture as `float64` evaluation of the solver
gives them, rounded to four decimals. -/
def fixtureSolved : Slice :=
  [fin 4.0645, fin 4.0645, fin 5.3319, fin 11.7668, fin 15.3840, fin 18.2103, fin 18.4700,
    fin 19.3081, fin 19.3081]

/-- Solved times of a polar day: Dhuhr is 12h and no other event has a solution. -/
def polarSolved : Slice := [nan, nan, nan, fin 12, nan, nan, nan, nan, nan]

/-- The value of `math.Pi` as a rational number: `Pi = fin piValue`. -/
def piValue : ℚ := 884279719003555 / 281474976710656

/-- The divisor `mid` of `computeTime` (line 309): `beg / mid` is the argument of the
arccos, `computeTime.arg`. -/
def computeTime.mid (H : Host) (t jDay latitude : F64) : F64 :=
  let D := sunDeclination H (jDay + t)
  degreeToCos H D * degreeToCos H latitude

/-- The obliquity `e` of `sunPosition` (line 280) at a finite Julian date. -/
def obliquity (jd : ℚ) : ℚ := 23.439 - 0.00000036 * (jd - 2451545)

/-- The adjustment pass in the order in which section 4.7 of the specification lists its
steps: (1) `tzOffset - longitude/15` is added to every entry; (2) then the high-latitude
corrector of section 4.6 is applied to each entry, when the mode is not none; (3) Imsak;
(4) Dhuhr; (5) Maghrib; (6) Isha. -/
def adjustTimesSpec (cfg : Config) (computedTimes : Slice) (tzOffset longitude : F64) : Slice :=
  let computedTimes : Slice :=
    computedTimes.map (fun x => x + (tzOffset - longitude / fin 15))
  let computedTimes : Slice :=
    if cfg.HighLatMethod ≠ HighlatMethodNone then
      (List.range computedTimes.length).foldl
        (fun (ts : Slice) i => ts.put i (adjustHighLatTime cfg i (ts.idx i) ts)) computedTimes
    else computedTimes
  let computedTimes := computedTimes.put TimeImsak
    (computedTimes.idx TimeFajr - F64.ofInt cfg.ImsakMinutes / fin 60)
  let computedTimes := computedTimes.put TimeDhuhr
    (computedTimes.idx TimeDhuhr + F64.ofInt cfg.DhuhrMinutes / fin 60)
  let computedTimes :=
    if F64.eq (sunAngle cfg.Convention AngleDhuhr) (fin 1) then
      computedTimes.put TimeMaghrib
        (computedTimes.idx TimeSunset + sunAngle cfg.Convention AngleMaghrib / fin 60)
    else computedTimes
  let computedTimes :=
    if F64.eq (sunAngle cfg.Convention AngleNAN) (fin 1) then
      computedTimes.put TimeIsha
        (computedTimes.idx TimeMaghrib + sunAngle cfg.Convention AngleIsha / fin 60)
    else computedTimes
  computedTimes

/-- The configuration that `Custom` builds for Paris on 1 June 2017: MWL, standard Asr,
angle-based high-latitude method, all tuning offsets 0. -/
def parisConfig : Config :=
  { Convention := ConventionMWL
    ImsakMinutes := 10
    DhuhrMinutes := 0
    AsrFactor := AsrFactorStandard
    HighLatMethod := HighlatMethodAngleBased
    Latitude := fin 48.8566
    Longitude := fin 2.3522
    Date := { Year := 2017, Month := 6, Day := 1 }
    TimeZone := "Europe/Paris"
    Offsets := fun _ => fin 0 }

/-- The nine solved times of `parisConfig` as `float64` evaluation of the solver gives
them, rounded to four decimals. -/
def parisSolved : Slice :=
  [fin 0.8575, fin 0.8575, fin 4.0103, fin 11.9659, fin 16.2140, fin 19.9282, fin 19.8243,
    fin 22.7221, fin 22.7221]

/-- The configuration that `Custom` hands to `computeTimes` (lines 163–176): the
arguments of the call, with `ImsakMinutes` set to 10. -/
def Custom.config (convention : Fin 8) (dhuhrMinutes asrFactor highLatMethod : ℤ)
    (latitude longitude : F64) (date : GoDate) (timeZone : String)
    (offsets : Fin 9 → F64) : Config :=
  { Convention := convention
    ImsakMinutes := 10
    DhuhrMinutes := dhuhrMinutes
    AsrFactor := asrFactor
    HighLatMethod := highLatMethod
    Latitude := latitude
    Longitude := longitude
    Date := date
    TimeZone := timeZone
    Offsets := offsets }

/-! ## Hosts for worked examples -/

/-- The triangle wave of period 4 through `(0, 0)`, `(1, 1)`, `(2, 0)` and `(3, -1)`:
the sine of the taxicab metric, with the angle in quarter turns. -/
def triangle (y : ℚ) : ℚ := 1 - |y - 1 - 4 * (⌊(y + 1) / 4⌋ : ℤ)|

/-- The angle of the point `(x, y)` in quarter turns for the taxicab metric, in
`(-2, 2]`. -/
def diamondAngle (y x : ℚ) : ℚ :=
  if 0 ≤ y then (if 0 ≤ x then y / (x + y) else 1 - x / (y - x))
  else (if x < 0 then -2 + y / (x + y) else y / (x - y))

/-- A host for worked examples with the circular functions of the taxicab metric, which
are piecewise linear and rational at rational arguments: the sine and the cosine are
triangle waves of period `2π`, the tangent is their quotient, the arcsine is `y * π/2`,
the arccosine `(1 - y) * π/2`, the arctangent `y / (1 + |y|) * π/2`, and the two-argument
arctangent is the taxicab angle of the point; every zone offset is 0. -/
def linearHost : Host :=
  { sin := fun x => triangle (2 * x / piValue)
    cos := fun x => triangle (2 * x / piValue + 1)
    tan := fun x => triangle (2 * x / piValue) / triangle (2 * x / piValue + 1)
    asin := fun y => y * piValue / 2
    acos := fun y => (1 - y) * piValue / 2
    atan := fun y => y / (1 + |y|) * piValue / 2
    atan2 := fun y x => diamondAngle y x * piValue / 2
    zoneOffset := fun _ _ => 0 }

/-- The functions of `linearHost`, with a cosine whose quarter period is `11/7`: like the
quarter period `π/2` of the real cosine, it is above the `float64` value of `math.Pi / 2`. -/
def taxicabHost : Host :=
  { linearHost with cos := fun x => triangle (x / (11 / 7) + 1) }

/-! ## Properties of the real circular functions, for a host -/

/-- The law `sin (π - x) = sin x` of the real sine, for the sine of the host and the
`float64` value of `math.Pi`. -/
def Host.sinSupplementary (H : Host) : Prop := ∀ x : ℚ, H.sin (piValue - x) = H.sin x

/-- The arccosine of the host is nonnegative on `[-1, 1]`, as the real one is. -/
def Host.acosNonneg (H : Host) : Prop := ∀ y : ℚ, -1 ≤ y → y ≤ 1 → 0 ≤ H.acos y

/-- The sine of the host has its values in `[-1, 1]`. -/
def Host.sinBounded (H : Host) : Prop := ∀ x : ℚ, -1 ≤ H.sin x ∧ H.sin x ≤ 1

/-- The sine of the host is nonnegative on `[0, π/2]`. -/
def Host.sinNonneg (H : Host) : Prop := ∀ x : ℚ, 0 ≤ x → x ≤ piValue / 2 → 0 ≤ H.sin x

/-- The arcsine of the host is monotone on `[-1, 1]`. -/
def Host.asinMonotone (H : Host) : Prop :=
  ∀ x y : ℚ, -1 ≤ x → x ≤ y → y ≤ 1 → H.asin x ≤ H.asin y

/-- The arcsine of the host is odd. -/
def Host.asinOdd (H : Host) : Prop := ∀ y : ℚ, H.asin (-y) = -H.asin y

/-- The arcsine of the host inverts its sine on `[0, π/2]`. -/
def Host.asinOfSin (H : Host) : Prop :=
  ∀ x : ℚ, 0 ≤ x → x ≤ piValue / 2 → H.asin (H.sin x) = x

/-- The sine of the host is odd. -/
def Host.sinOdd (H : Host) : Prop := ∀ x : ℚ, H.sin (-x) = -H.sin x

/-- The sine of the host is nonnegative on `[0, π]`. -/
def Host.sinNonnegHalfTurn (H : Host) : Prop := ∀ x : ℚ, 0 ≤ x → x ≤ piValue → 0 ≤ H.sin x

/-- The sine of the host is monotone on `[0, π/2]`. -/
def Host.sinMonotone (H : Host) : Prop :=
  ∀ x y : ℚ, 0 ≤ x → x ≤ y → y ≤ piValue / 2 → H.sin x ≤ H.sin y

/-- The cosine of the host is nonnegative on `[-π/2, π/2]`. -/
def Host.cosNonneg (H : Host) : Prop :=
  ∀ x : ℚ, -(piValue / 2) ≤ x → x ≤ piValue / 2 → 0 ≤ H.cos x

/-- For `x` and `y` of `[-π/2, π/2]`: when `cos x * cos y + sin x * sin y`, which is the
cosine of `x - y` for the real functions, is nonnegative, so is the tangent of `|x - y|`
(for the real functions `|x - y|` is then at most `π/2`). -/
def Host.tanSign (H : Host) : Prop :=
  ∀ x y : ℚ, -(piValue / 2) ≤ x → x ≤ piValue / 2 → -(piValue / 2) ≤ y → y ≤ piValue / 2 →
    0 ≤ H.cos x * H.cos y + H.sin x * H.sin y → 0 ≤ H.tan |x - y|

/-- The arcsine of the host has its values in `[-π/2, π/2]`. -/
def Host.asinRange (H : Host) : Prop :=
  ∀ y : ℚ, -1 ≤ y → y ≤ 1 → -(piValue / 2) ≤ H.asin y ∧ H.asin y ≤ piValue / 2

/-- The arccosine of the host is antitone on `[-1, 1]`. -/
def Host.acosAntitone (H : Host) : Prop :=
  ∀ x y : ℚ, -1 ≤ x → x ≤ y → y ≤ 1 → H.acos y ≤ H.acos x

/-- The arccotangent `atan2 1 x` of the host has its values in `[0, π]`. -/
def Host.arccotRange (H : Host) : Prop :=
  ∀ x : ℚ, 0 ≤ H.atan2 1 x ∧ H.atan2 1 x ≤ piValue

/-- The arccotangent `atan2 1 x` of the host is antitone on `[0, ∞)`, with values at most
`π/2` there. -/
def Host.arccotAntitone (H : Host) : Prop :=
  ∀ x y : ℚ, 0 ≤ x → x ≤ y → H.atan2 1 y ≤ H.atan2 1 x ∧ H.atan2 1 x ≤ piValue / 2

/-- The cosine of the host is positive on the closed interval `[-p/2, p/2]` for the
`float64` value `p` of `math.Pi`.  (The real cosine is: `p/2` is below `π/2`.) -/
def Host.cosPositiveClosed (H : Host) : Prop :=
  ∀ x : ℚ, -(piValue / 2) ≤ x → x ≤ piValue / 2 → 0 < H.cos x

/-! ## float64 with rounding

The definitions above carry every finite `float64` as an exact rational and compute
without rounding.  The definitions of this part compute as the processor does: every
operation returns the IEEE 754 binary64 value nearest to the exact result (ties to even),
overflows to an infinity, and no operation is fused with another (as on amd64). -/

/-- An IEEE 754 binary64 value: a finite value, carried as the rational it denotes, an
infinity, or `NaN`.  The sign of a zero is not represented; it shows in no comparison and
in no arithmetic result of this package other than the sign of a zero. -/
inductive B64 where
  | fin (q : ℚ)
  | inf (negative : Bool)
  | nan
deriving DecidableEq

namespace B64

/-- The power `2 ^ e` as a rational. -/
def pow2 (e : ℤ) : ℚ :=
  if 0 ≤ e then ((2 ^ e.toNat : ℕ) : ℚ) else 1 / ((2 ^ (-e).toNat : ℕ) : ℚ)

/-- The first of `w`, `2 * w`, `4 * w`, ... with `n < 2 ^ w`, in at most `fuel` doublings. -/
def log2Width : ℕ → ℕ → ℕ → ℕ
  | 0, w, _ => w
  | fuel + 1, w, n => if n < 2 ^ w then w else log2Width fuel (2 * w) n

/-- Bisection: for `2 ^ lo ≤ n < 2 ^ (lo + w)`, the `k` with `2 ^ k ≤ n < 2 ^ (k + 1)`, in
at most `fuel` halvings of the width `w`. -/
def log2Search : ℕ → ℕ → ℕ → ℕ → ℕ
  | 0, lo, _, _ => lo
  | fuel + 1, lo, w, n =>
    if w ≤ 1 then lo
    else if 2 ^ (lo + w / 2) ≤ n then log2Search fuel (lo + w / 2) (w - w / 2) n
    else log2Search fuel lo (w / 2) n

/-- The binary logarithm `⌊log₂ n⌋` of a positive natural number (`n` doublings of the
width always suffice, and as many halvings as the width is). -/
def log2 (n : ℕ) : ℕ := log2Search (log2Width n 1 n) 0 (log2Width n 1 n) n

/-- The exponent `⌊log₂ (n / d)⌋` of a positive fraction. -/
def exponent (n d : ℕ) : ℤ :=
  let E : ℤ := (log2 n : ℤ) - (log2 d : ℤ)
  if (if 0 ≤ E then n < d * 2 ^ E.toNat else n * 2 ^ (-E).toNat < d) then E - 1 else E

/-- Rounding of `q` to the nearest integer multiple of `2 ^ e`, ties to the even multiple;
a result of magnitude `2 ^ 1024` or more is an infinity.  For the fraction `n / d = |q|`,
the multiple is the quotient of `n / d` by `2 ^ e`, rounded to an integer. -/
def roundAt (q : ℚ) (e : ℤ) : B64 :=
  let n : ℕ := q.num.natAbs
  let d : ℕ := q.den
  let N : ℕ := if e ≤ 0 then n * 2 ^ (-e).toNat else n
  let D : ℕ := if e ≤ 0 then d else d * 2 ^ e.toNat
  let f : ℕ := N / D
  let r : ℕ := N % D
  let m : ℕ := if 2 * r < D then f else if D < 2 * r then f + 1
    else if f % 2 = 0 then f else f + 1
  let v : ℚ := (m : ℚ) * pow2 e
  if pow2 1024 ≤ v then inf (decide (q < 0))
  else fin (if q < 0 then -v else v)

/-- Rounding of an exact result to binary64: to the nearest value with a 53-bit
significand (or, below `2 ^ -1022`, to the nearest multiple of `2 ^ -1074`), ties to the
even significand; a result of magnitude `2 ^ 1024` or more is an infinity. -/
def round (q : ℚ) : B64 :=
  if q = 0 then fin 0
  else roundAt q (max (exponent q.num.natAbs q.den - 52) (-1074))

def add : B64 → B64 → B64
  | fin a, fin b => round (a + b)
  | fin _, inf s => inf s
  | inf s, fin _ => inf s
  | inf s, inf t => if s = t then inf s else nan
  | _, _ => nan

def neg : B64 → B64
  | fin a => fin (-a)
  | inf s => inf (!s)
  | nan => nan

def sub (x y : B64) : B64 := add x (neg y)

def mul : B64 → B64 → B64
  | fin a, fin b => round (a * b)
  | fin a, inf s => if a = 0 then nan else inf (xor (decide (a < 0)) s)
  | inf s, fin b => if b = 0 then nan else inf (xor s (decide (b < 0)))
  | inf s, inf t => inf (xor s t)
  | _, _ => nan

/-- Division.  A finite nonzero value divided by zero is an infinity with the sign of the
dividend (the zero is taken as positive), `0 / 0` is `NaN`. -/
def div : B64 → B64 → B64
  | fin a, fin b =>
    if b = 0 then (if a = 0 then nan else inf (decide (a < 0))) else round (a / b)
  | fin _, inf _ => fin 0
  | inf s, fin b => inf (xor s (decide (b < 0)))
  | inf _, inf _ => nan
  | _, _ => nan

instance : Add B64 := ⟨add⟩
instance : Sub B64 := ⟨sub⟩
instance : Mul B64 := ⟨mul⟩
instance : Div B64 := ⟨div⟩
instance : Neg B64 := ⟨neg⟩

/-- Go `math.Floor`. -/
def floor : B64 → B64
  | fin a => fin (⌊a⌋ : ℤ)
  | inf s => inf s
  | nan => nan

/-- Go `math.Abs`. -/
def abs : B64 → B64
  | fin a => fin |a|
  | inf _ => inf false
  | nan => nan

/-- Go `x < y`. -/
def lt : B64 → B64 → Bool
  | fin a, fin b => decide (a < b)
  | fin _, inf s => !s
  | inf s, fin _ => s
  | inf s, inf t => s && !t
  | _, _ => false

/-- Go `x <= y`. -/
def le : B64 → B64 → Bool
  | fin a, fin b => decide (a ≤ b)
  | fin _, inf s => !s
  | inf s, fin _ => s
  | inf s, inf t => s || !t
  | _, _ => false

/-- Go `x > y`. -/
def gt (x y : B64) : Bool := lt y x

/-- Go `x == y`. -/
def eq : B64 → B64 → Bool
  | fin a, fin b => decide (a = b)
  | inf s, inf t => decide (s = t)
  | _, _ => false

/-- A decimal constant of the source, or a constant expression, as the `float64` it
becomes. -/
def lit (q : ℚ) : B64 := round q

/-- Go `float64(n)` for an `int`. -/
def ofInt (n : ℤ) : B64 := round (n : ℚ)

def isFinite : B64 → Bool
  | fin _ => true
  | _ => false

end B64

/-! ## The package over rounded float64

The same functions of `praytimes.go` once more, now over `B64`: each Go operator is one
rounded operation, a constant expression of the source (`0.5/60.0`, `180-0.833`,
`15.0 * 24.0`) is evaluated exactly and rounded once, as the Go compiler does, and a value
of the host is rounded to `float64` where it enters. -/

namespace IEEE

/-- The digits of the constant `math.Pi` of Go's package `math`. -/
def piDigits : ℚ := 3.14159265358979323846264338327950288419716939937510582097494459

/-- The `float64` that `math.Pi` becomes, `884279719003555 / 2 ^ 48`: the constant rounded
to `float64`. -/
def Pi : B64 := B64.fin (884279719003555 / 281474976710656)

/-- Go `math.Sin`: `NaN` at an infinity and at `NaN`. -/
def Sin (H : Host) : B64 → B64
  | B64.fin x => B64.round (H.sin x)
  | _ => B64.nan

/-- Go `math.Cos`: `NaN` at an infinity and at `NaN`. -/
def Cos (H : Host) : B64 → B64
  | B64.fin x => B64.round (H.cos x)
  | _ => B64.nan

/-- Go `math.Tan`: `NaN` at an infinity and at `NaN`. -/
def Tan (H : Host) : B64 → B64
  | B64.fin x => B64.round (H.tan x)
  | _ => B64.nan

/-- Go `math.Asin`: `NaN` outside `[-1, 1]`. -/
def Asin (H : Host) : B64 → B64
  | B64.fin x => if x < -1 ∨ x > 1 then B64.nan else B64.round (H.asin x)
  | _ => B64.nan

/-- Go `math.Acos`: `NaN` outside `[-1, 1]`. -/
def Acos (H : Host) : B64 → B64
  | B64.fin x => if x < -1 ∨ x > 1 then B64.nan else B64.round (H.acos x)
  | _ => B64.nan

/-- Go `math.Atan`: `±Pi/2` at the infinities. -/
def Atan (H : Host) : B64 → B64
  | B64.fin x => B64.round (H.atan x)
  | B64.inf s => B64.lit (if s then -piDigits / 2 else piDigits / 2)
  | B64.nan => B64.nan

/-- Go `math.Atan2`, with the special cases of its documentation at the infinities. -/
def Atan2 (H : Host) : B64 → B64 → B64
  | B64.fin y, B64.fin x => B64.round (H.atan2 y x)
  | B64.inf s, B64.inf false => B64.lit (if s then -piDigits / 4 else piDigits / 4)
  | B64.inf s, B64.inf true => B64.lit (if s then -3 * piDigits / 4 else 3 * piDigits / 4)
  | B64.fin _, B64.inf false => B64.fin 0
  | B64.fin y, B64.inf true =>
    if 0 < y then B64.lit piDigits else if y < 0 then B64.lit (-piDigits)
    else B64.lit piDigits
  | B64.inf s, B64.fin _ => B64.lit (if s then -piDigits / 2 else piDigits / 2)
  | _, _ => B64.nan

/-- A Go `[]float64`. -/
abbrev Slice := List B64

/-- Go `s[i]` as a value (the nine-element slices of the package are never indexed
outside `0..8`). -/
def Slice.idx (s : Slice) (i : ℕ) : B64 := s.getD i B64.nan

/-- Go `s[i] = v`. -/
def Slice.put (s : Slice) (i : ℕ) (v : B64) : Slice := s.set i v

/-- Go `sunAngle[c][j]`: the decimal constants of the table as `float64`. -/
def sunAngle (c : Fin 8) (j : ℕ) : B64 := B64.lit ((sunAngleRows.getD c.val []).getD j 0)

def defaultTimes : Slice :=
  [B64.fin 5, B64.fin 5, B64.fin 6, B64.fin 12, B64.fin 13, B64.fin 18, B64.fin 18, B64.fin 18,
    B64.fin 18]

/-- Hours and minutes data structure. -/
structure HoursMinutes where
  Hours : B64
  Minutes : B64
deriving DecidableEq

/-- Prayer times data structure. -/
structure PrayTimes where
  Imsak : HoursMinutes
  Fajr : HoursMinutes
  Sunrise : HoursMinutes
  Dhuhr : HoursMinutes
  Asr : HoursMinutes
  Sunset : HoursMinutes
  Maghrib : HoursMinutes
  Isha : HoursMinutes
  Midnight : HoursMinutes
deriving DecidableEq

/-- Configuration data structure.  `Offsets` is a `[9]float64`. -/
structure Config where
  Convention : Fin 8
  ImsakMinutes : ℤ
  DhuhrMinutes : ℤ
  AsrFactor : ℤ
  HighLatMethod : ℤ
  Latitude : B64
  Longitude : B64
  Date : GoDate
  TimeZone : String
  Offsets : Fin 9 → B64

/-- Go `offsets[t]` on a `[9]float64` (an index outside `0..8` panics in Go). -/
def offsetAt (offsets : Fin 9 → B64) (t : ℕ) : B64 :=
  if h : t < 9 then offsets ⟨t, h⟩ else B64.nan

/-- Range reduce angle in degree. -/
def fixAngle (a : B64) : B64 :=
  let a := a - (B64.fin 360 * B64.floor (a / B64.fin 360))
  if B64.lt a (B64.fin 0) then a + B64.fin 360 else a

/-- Range reduce hours to 0..23. -/
def fixHour (a : B64) : B64 :=
  let a := a - B64.fin 24 * B64.floor (a / B64.fin 24)
  if B64.lt a (B64.fin 0) then a + B64.fin 24 else a

def radiansToDegrees (alpha : B64) : B64 := (alpha * B64.fin 180) / Pi

def degreesToRadians (alpha : B64) : B64 := (alpha * Pi) / B64.fin 180

def degreeToSin (H : Host) (d : B64) : B64 := Sin H (degreesToRadians d)

def degreeToCos (H : Host) (d : B64) : B64 := Cos H (degreesToRadians d)

def degreeToTan (H : Host) (d : B64) : B64 := Tan H (degreesToRadians d)

def degreeArcsin (H : Host) (x : B64) : B64 := radiansToDegrees (Asin H x)

def degreeArccos (H : Host) (x : B64) : B64 := radiansToDegrees (Acos H x)

def degreeArctan (H : Host) (x : B64) : B64 := radiansToDegrees (Atan H x)

def degreeArctan2 (H : Host) (y x : B64) : B64 := radiansToDegrees (Atan2 H y x)

def degreeArccot (H : Host) (x : B64) : B64 := radiansToDegrees (Atan2 H (B64.fin 1) x)

/-- Calculate julian date from a calendar date. -/
def julianDate (year month day : B64) : B64 :=
  let ym : B64 × B64 :=
    if B64.le month (B64.fin 2) then (year - B64.fin 1, month + B64.fin 12) else (year, month)
  let year := ym.1
  let month := ym.2
  let A := B64.floor (year / B64.fin 100)
  let B := B64.fin 2 - A + B64.floor (A / B64.fin 4)
  let y := B64.floor (B64.fin 365.25 * (year + B64.fin 4716))
  let m := B64.floor (B64.lit 30.6001 * (month + B64.fin 1))
  (y + m + day + B) - B64.fin 1524

/-- Compute declination angle of sun and equation of time: the pair `(d, EqT)`. -/
def sunPosition (H : Host) (jd : B64) : B64 × B64 :=
  let D := jd - B64.fin 2451545
  let g := fixAngle (B64.lit 357.529 + B64.lit 0.98560028 * D)
  let q := fixAngle (B64.lit 280.459 + B64.lit 0.98564736 * D)
  let L := fixAngle (q + (B64.lit 1.915 * degreeToSin H g)
    + (B64.lit 0.020 * degreeToSin H (B64.fin 2 * g)))
  let e := B64.lit 23.439 - (B64.lit 0.00000036 * D)
  let d := degreeArcsin H (degreeToSin H e * degreeToSin H L)
  let RA := (degreeArctan2 H (degreeToCos H e * degreeToSin H L) (degreeToCos H L)) / B64.fin 15
  let RA := fixHour RA
  let EqT := q / B64.fin 15 - RA
  (d, EqT)

/-- Compute equation of time. -/
def equationOfTime (H : Host) (jd : B64) : B64 := (sunPosition H jd).2

/-- Compute declination angle of sun. -/
def sunDeclination (H : Host) (jd : B64) : B64 := (sunPosition H jd).1

/-- Compute midday (Dhuhr, Zawal) time. -/
def computeMidday (H : Host) (t jDay : B64) : B64 :=
  let T := equationOfTime H (jDay + t)
  fixHour (B64.fin 12 - T)

/-- Compute time for the given angle G. -/
def computeTime (H : Host) (G t jDay latitude : B64) : B64 :=
  let D := sunDeclination H (jDay + t)
  let Z := computeMidday H t jDay
  let beg := -degreeToSin H G - degreeToSin H D * degreeToSin H latitude
  let mid := degreeToCos H D * degreeToCos H latitude
  let V := degreeArccos H (beg / mid) / B64.fin 15
  if B64.gt G (B64.fin 90) then Z + -V else Z + V

/-- Compute the time of Asr (Standard: factor=1, Hanafi: factor=2). -/
def computeAsr (H : Host) (factor : ℤ) (t jDay latitude : B64) : B64 :=
  let D := sunDeclination H (jDay + t)
  let G := -degreeArccot H (B64.ofInt factor + degreeToTan H (B64.abs (latitude - D)))
  computeTime H G t jDay latitude

/-- Night portion used for adjusting times in higher latitudes. -/
def nightPortion (cfg : Config) (angle : B64) : B64 :=
  if cfg.HighLatMethod = HighlatMethodAngleBased then angle / B64.fin 60
  else if cfg.HighLatMethod = HighlatMethodNightMiddle then B64.fin 0.5
  else if cfg.HighLatMethod = HighlatMethodOneSeventh then B64.lit 0.14286
  else B64.fin 0

def dayPortion (time : B64) : B64 := time / B64.fin 24

/-- Compute difference between two times. -/
def timeDiff (time1 time2 : B64) : B64 := fixHour (time2 - time1)

/-- Adjust fajr, maghrib and isha for locations in higher latitudes. -/
def adjustHighLatTime (cfg : Config) (timeName : ℕ) (time : B64) (times : Slice) : B64 :=
  let nightTime := timeDiff (times.idx TimeSunset) (times.idx TimeSunrise)
  if timeName = TimeFajr then
    let fajrDiff := nightPortion cfg (sunAngle cfg.Convention AngleFajr) * nightTime
    if B64.lt (times.idx TimeFajr) (B64.fin 1)
        || B64.gt (timeDiff (times.idx TimeFajr) (times.idx TimeSunrise)) fajrDiff then
      times.idx TimeSunrise - fajrDiff
    else time
  else if timeName = TimeMaghrib then
    let maghribAngle :=
      if B64.eq (sunAngle cfg.Convention AngleDhuhr) (B64.fin 0) then
        sunAngle cfg.Convention AngleMaghrib
      else B64.fin 4
    let maghribDiff := nightPortion cfg maghribAngle * nightTime
    if B64.lt (times.idx TimeMaghrib) (B64.fin 1)
        || B64.gt (timeDiff (times.idx TimeSunset) (times.idx TimeMaghrib)) maghribDiff then
      times.idx TimeSunset + maghribDiff
    else time
  else if timeName = TimeIsha then
    let ishaAngle :=
      if B64.eq (sunAngle cfg.Convention AngleNAN) (B64.fin 0) then
        sunAngle cfg.Convention AngleIsha
      else B64.fin 18
    let ishaDiff := nightPortion cfg ishaAngle * nightTime
    if B64.lt (times.idx TimeIsha) (B64.fin 1)
        || B64.gt (timeDiff (times.idx TimeSunset) (times.idx TimeIsha)) ishaDiff then
      times.idx TimeSunset + ishaDiff
    else time
  else time

/-- One pass of the loop of `adjustTimes`, at index `i`. -/
def adjustTimes.step (cfg : Config) (tzOffset longitude : B64) (computedTimes : Slice)
    (i : ℕ) : Slice :=
  let computedTimes :=
    computedTimes.put i (computedTimes.idx i + (tzOffset - longitude / B64.fin 15))
  if cfg.HighLatMethod ≠ HighlatMethodNone then
    computedTimes.put i (adjustHighLatTime cfg i (computedTimes.idx i) computedTimes)
  else computedTimes

def adjustTimes (cfg : Config) (computedTimes : Slice) (tzOffset longitude : B64) : Slice :=
  let computedTimes :=
    (List.range computedTimes.length).foldl (adjustTimes.step cfg tzOffset longitude)
      computedTimes
  -- Imsak 10 minutes before fajr
  let computedTimes := computedTimes.put TimeImsak
    (computedTimes.idx TimeFajr - B64.ofInt cfg.ImsakMinutes / B64.fin 60)
  -- Add dhuhr minutes if any
  let computedTimes := computedTimes.put TimeDhuhr
    (computedTimes.idx TimeDhuhr + B64.ofInt cfg.DhuhrMinutes / B64.fin 60)
  let computedTimes :=
    if B64.eq (sunAngle cfg.Convention AngleDhuhr) (B64.fin 1) then
      computedTimes.put TimeMaghrib
        (computedTimes.idx TimeSunset + sunAngle cfg.Convention AngleMaghrib / B64.fin 60)
    else computedTimes
  let computedTimes :=
    if B64.eq (sunAngle cfg.Convention AngleNAN) (B64.fin 1) then
      computedTimes.put TimeIsha
        (computedTimes.idx TimeMaghrib + sunAngle cfg.Convention AngleIsha / B64.fin 60)
    else computedTimes
  computedTimes

def tuneTimes (computedTimes : Slice) (offsets : Fin 9 → B64) : Slice :=
  (List.range computedTimes.length).foldl
    (fun computedTimes t =>
      computedTimes.put t (computedTimes.idx t + offsetAt offsets t / B64.fin 60))
    computedTimes

def convertToHoursMinutes (time : B64) : B64 × B64 :=
  let time := fixHour (time + B64.lit (0.5 / 60)) -- add 0.5 minutes to round
  let hours := B64.floor time
  let minutes := B64.floor ((time - hours) * B64.fin 60)
  (hours, minutes)

/-- Line 329 of `computeTimes`: `tzOffset := float64(offset / 60 / 60)`; the two divisions
are Go `int` divisions, which truncate toward zero. -/
def tzOffset (offset : ℤ) : B64 := B64.ofInt ((offset.tdiv 60).tdiv 60)

/-- Lines 349–359 of `computeTimes`: from the solved times to the working array that is
formatted, through `adjustTimes`, `tuneTimes` and the midnight assignment. -/
def computeTimes.finish (cfg : Config) (tzOff : B64) (computedTimes : Slice) : Slice :=
  let computedTimes := adjustTimes cfg computedTimes tzOff cfg.Longitude
  let computedTimes := tuneTimes computedTimes cfg.Offsets
  -- Add midnight time
  if cfg.Convention = ConventionJafari then
    computedTimes.put TimeMidnight (computedTimes.idx TimeSunset +
      timeDiff (computedTimes.idx TimeSunset) (computedTimes.idx TimeFajr) / B64.fin 2)
  else
    computedTimes.put TimeMidnight (computedTimes.idx TimeSunset +
      timeDiff (computedTimes.idx TimeSunset) (computedTimes.idx TimeSunrise) / B64.fin 2)

/-- Lines 331–347 of `computeTimes`: the nine-element slice of solved times. -/
def computeTimes.solved (H : Host) (cfg : Config) : Slice :=
  let t := cfg.Date
  let jDay := julianDate (B64.ofInt t.Year) (B64.ofInt t.Month) (B64.ofInt t.Day)
  let lonDiff := cfg.Longitude / B64.fin (15 * 24)
  let jDay := jDay - lonDiff
  let fajrTime := computeTime H (B64.fin 180 - sunAngle cfg.Convention AngleFajr)
    (dayPortion (defaultTimes.idx TimeFajr)) jDay cfg.Latitude
  let sunriseTime := computeTime H (B64.lit (180 - 0.833))
    (dayPortion (defaultTimes.idx TimeSunrise)) jDay cfg.Latitude
  let dhuhrTime := computeMidday H (dayPortion (defaultTimes.idx TimeDhuhr)) jDay
  let asrTime := computeAsr H cfg.AsrFactor (dayPortion (defaultTimes.idx TimeAsr)) jDay
    cfg.Latitude
  let sunsetTime := computeTime H (B64.lit 0.833)
    (dayPortion (defaultTimes.idx TimeSunset)) jDay cfg.Latitude
  let maghribTime := computeTime H (sunAngle cfg.Convention AngleMaghrib)
    (dayPortion (defaultTimes.idx TimeMaghrib)) jDay cfg.Latitude
  let ishaTime := computeTime H (sunAngle cfg.Convention AngleIsha)
    (dayPortion (defaultTimes.idx TimeIsha)) jDay cfg.Latitude
  [fajrTime, fajrTime, sunriseTime, dhuhrTime, asrTime, sunsetTime, maghribTime, ishaTime,
    ishaTime]

/-- Lines 326–359 of `computeTimes`: the working array `computedTimes` as it stands when
the formatting of lines 361–400 starts. -/
def computeTimes.working (H : Host) (cfg : Config) : Slice :=
  let t := cfg.Date
  let offset := H.zoneOffset t cfg.TimeZone
  let tzOff := tzOffset offset
  computeTimes.finish cfg tzOff (computeTimes.solved H cfg)

/-- Lines 361–400 of `computeTimes`: every entry of the working array goes through
`convertToHoursMinutes` into its field. -/
def computeTimes.format (computedTimes : Slice) : PrayTimes :=
  let hm (i : ℕ) : HoursMinutes :=
    let hoursMinutes := convertToHoursMinutes (computedTimes.idx i)
    { Hours := hoursMinutes.1, Minutes := hoursMinutes.2 }
  { Imsak := hm TimeImsak
    Fajr := hm TimeFajr
    Sunrise := hm TimeSunrise
    Dhuhr := hm TimeDhuhr
    Asr := hm TimeAsr
    Sunset := hm TimeSunset
    Maghrib := hm TimeMaghrib
    Isha := hm TimeIsha
    Midnight := hm TimeMidnight }

def computeTimes (H : Host) (cfg : Config) : PrayTimes :=
  computeTimes.format (computeTimes.working H cfg)

/-- Customised configuration. -/
def Custom (H : Host) (convention : Fin 8) (dhuhrMinutes asrFactor highLatMethod : ℤ)
    (latitude longitude : B64) (date : GoDate) (timeZone : String)
    (offsets : Fin 9 → B64) : PrayTimes :=
  computeTimes H
    { Convention := convention
      ImsakMinutes := 10
      DhuhrMinutes := dhuhrMinutes
      AsrFactor := asrFactor
      HighLatMethod := highLatMethod
      Latitude := latitude
      Longitude := longitude
      Date := date
      TimeZone := timeZone
      Offsets := offsets }

end IEEE

/-! ## Hosts given by tables

A run of the package reaches the functions of package `math` at finitely many arguments.
A table host answers, at each argument listed, with the value listed, and with 0 at any
other argument.  The tables below list, for the arguments that the runs considered reach,
the `float64` nearest to the value of the real function.  A `float64` is listed as the pair
`(m, e)` of the integers with value `m * 2 ^ e`. -/

/-- The `float64` value `m * 2 ^ e`. -/
def dbl (m e : ℤ) : ℚ := m * B64.pow2 e

/-- The rational `x` is `m * 2 ^ e`, for `k = (m, e)`. -/
def isDbl (x : ℚ) (k : ℤ × ℤ) : Bool :=
  if 0 ≤ k.2 then decide (x.num = k.1 * ((2 ^ k.2.toNat * x.den : ℕ) : ℤ))
  else decide (x.num * ((2 ^ (-k.2).toNat : ℕ) : ℤ) = k.1 * (x.den : ℤ))

/-- The value listed for the argument `x`, and 0 when `x` is not listed. -/
def lookup (table : List ((ℤ × ℤ) × (ℤ × ℤ))) (x : ℚ) : ℚ :=
  match table.find? (fun p => isDbl x p.1) with
  | some p => dbl p.2.1 p.2.2
  | none => 0

/-- The value listed for the pair of arguments `(y, x)`, and 0 when it is not listed. -/
def lookup2 (table : List (((ℤ × ℤ) × (ℤ × ℤ)) × (ℤ × ℤ))) (y x : ℚ) : ℚ :=
  match table.find? (fun p => isDbl y p.1.1 && isDbl x p.1.2) with
  | some p => dbl p.2.1 p.2.2
  | none => 0

/-- The values of `math.Sin` in `sydneyHost`: argument and value. -/
def sydneyHost.sinTable : List ((ℤ × ℤ) × (ℤ × ℤ)) :=
  [ ((1376144066382135, -48), (-8867017629024445, -53)),
    ((1376144066382135, -47), (-1558284889968349, -52)),
    ((7370222336634331, -54), (895790393210419, -51)),
    ((1973381644482903, -49), (-6410657415701003, -54)),
    ((402838538657175, -47), (2482720585893657, -53)),
    ((-5117649983061615, -55), (-5100458124427911, -55)),
    ((-5324354301686685, -53), (-313728096064387, -49)),
    ((344086453304759, -46), (-8865880795335089, -53)),
    ((344086453304759, -45), (-391085103256915, -50)),
    ((7370222331918171, -54), (7166323141356429, -54)),
    ((493446816996783, -47), (-6422786010941421, -54)),
    ((7041499751764887, -51), (4190316411758491, -58)),
    ((-320462382232003, -51), (-5110107894855647, -55)),
    ((1377556294244937, -48), (-8858964165963571, -53)),
    ((1377556294244937, -47), (-6402422440590407, -54)),
    ((3685111151810611, -53), (7166323115394899, -54)),
    ((7904884846982595, -51), (-6495493388779187, -54)),
    ((5511032164327353, -50), (-8857795462064961, -53)),
    ((5511032164327353, -49), (-6426553480641497, -54)),
    ((3685111149452531, -53), (895790388883497, -51)),
    ((7906507611272353, -51), (-6507600524905163, -54)),
    ((-5354299892572311, -53), (-5044486049360753, -53)),
    ((-2597788403144069, -54), (-1294397035090543, -53)),
    ((5515067101083353, -50), (-4425941848536471, -52)),
    ((5515067101083353, -49), (-6547009600350553, -54)),
    ((7370222275324271, -54), (895790386179171, -51)),
    ((3957311005843485, -50), (-6568089697932187, -54)),
    ((8380928067469781, -59), (2095158205879281, -57)),
    ((-5244212848932773, -55), (-5225714622776419, -55)),
    ((5030569068109113, -56), (628310458321445, -53)),
    ((2200873967297737, -53), (8716154871003421, -55)) ]

/-- The values of `math.Cos` in `sydneyHost`: argument and value. -/
def sydneyHost.cosTable : List ((ℤ × ℤ) × (ℤ × ℤ)) :=
  [ ((7370222336634331, -54), (8263812168576767, -53)),
    ((1973381644482903, -49), (-1052196410262511, -50)),
    ((-5117649983061615, -55), (8916485930408151, -53)),
    ((-5324354301686685, -53), (3739410279041311, -52)),
    ((7370222331918171, -54), (8263812169514837, -53)),
    ((493446816996783, -47), (-2103814888764879, -51)),
    ((-320462382232003, -51), (4458070301319845, -52)),
    ((3685111151810611, -53), (8263812175143253, -53)),
    ((7904884846982595, -51), (-1050162039756307, -50)),
    ((3685111149452531, -53), (8263812176081323, -53)),
    ((7906507611272353, -51), (-4199476820589387, -52)),
    ((-2597788403144069, -54), (8913707126115121, -53)),
    ((7370222275324271, -54), (4131906090385835, -52)),
    ((3957311005843485, -50), (-8387174008245325, -53)),
    ((-5244212848932773, -55), (8911951670772681, -53)) ]

/-- The values of `math.Tan` in `sydneyHost`: argument and value. -/
def sydneyHost.tanTable : List ((ℤ × ℤ) × (ℤ × ℤ)) :=
  [ ((8050920200229301, -54), (2158381188631405, -52)) ]

/-- The values of `math.Asin` in `sydneyHost`: argument and value. -/
def sydneyHost.asinTable : List ((ℤ × ℤ) × (ℤ × ℤ)) :=
  [ ((-5100458124427911, -55), (-5117649983061615, -55)),
    ((-159690871714239, -50), (-5127398115712049, -55)),
    ((-5167955443352915, -55), (-5185843266777675, -55)),
    ((-5177588140362173, -55), (-5195576806288139, -55)),
    ((-5225714622776419, -55), (-5244212848932773, -55)) ]

/-- The values of `math.Acos` in `sydneyHost`: argument and value. -/
def sydneyHost.acosTable : List ((ℤ × ℤ) × (ℤ × ℤ)) :=
  [ ((-7770105404390915, -54), (2270669888864059, -50)),
    ((-8204228926282159, -56), (118564319171469, -46)),
    ((5261215837165113, -53), (2132477779538803, -51)),
    ((-4182465039854033, -55), (7598227298724419, -52)),
    ((-825511422166845, -52), (1976110806928399, -50)),
    ((-7077239926432265, -54), (8892547300612619, -52)) ]

/-- The values of `math.Atan2` in `sydneyHost`: arguments `y`, `x` and value. -/
def sydneyHost.atan2Table : List (((ℤ × ℤ) × (ℤ × ℤ)) × (ℤ × ℤ)) :=
  [ (((-5881569538118341, -54), (-1052196410262511, -50)), (-3158696164363833, -50)),
    (((-5892697130183963, -54), (-2103814888764879, -51)), (-6315873241568607, -51)),
    (((-2979701893543793, -53), (-1050162039756307, -50)), (-6306755478476063, -51)),
    (((-2985255845565887, -53), (-4199476820589387, -52)), (-6305235309287827, -51)),
    (((1, 0), (6661980816001901, -52)), (5354299892572311, -53)),
    (((-753251067772311, -51), (-8387174008245325, -53)), (-6297632127611909, -51)) ]

/-- The host of the run of the reference fixture (Sydney, 14 October 1981, convention
Jafari, standard Asr): at each argument that the seven solves of `computeTimes` reach, the
`float64` nearest to the value of the real function, and the zone offset 36000 s (UTC+10)
of `Australia/Sydney` on that date. -/
def sydneyHost : Host :=
  { sin := lookup sydneyHost.sinTable
    cos := lookup sydneyHost.cosTable
    tan := lookup sydneyHost.tanTable
    asin := lookup sydneyHost.asinTable
    acos := lookup sydneyHost.acosTable
    atan := fun _ => 0
    atan2 := lookup2 sydneyHost.atan2Table
    zoneOffset := fun _ _ => 36000 }

/-- The values of `math.Sin` in `twilightHost`: argument and value. -/
def twilightHost.sinTable : List ((ℤ × ℤ) × (ℤ × ℤ)) :=
  [ ((1376144066382135, -48), (-8867017629024445, -53)),
    ((1376144066382135, -47), (-1558284889968349, -52)),
    ((7370222336634331, -54), (895790393210419, -51)),
    ((1973381644482903, -49), (-6410657415701003, -54)),
    ((402838538657175, -47), (2482720585893657, -53)),
    ((-5117649983061615, -55), (-5100458124427911, -55)),
    ((-5324354301686685, -53), (-313728096064387, -49)),
    ((5030569068109113, -54), (4965441171787305, -54)) ]

/-- The values of `math.Cos` in `twilightHost`: argument and value. -/
def twilightHost.cosTable : List ((ℤ × ℤ) × (ℤ × ℤ)) :=
  [ ((7370222336634331, -54), (8263812168576767, -53)),
    ((1973381644482903, -49), (-1052196410262511, -50)),
    ((-5117649983061615, -55), (8916485930408151, -53)),
    ((-5324354301686685, -53), (3739410279041311, -52)) ]

/-- The values of `math.Asin` in `twilightHost`: argument and value. -/
def twilightHost.asinTable : List ((ℤ × ℤ) × (ℤ × ℤ)) :=
  [ ((-5100458124427911, -55), (-5117649983061615, -55)) ]

/-- The values of `math.Acos` in `twilightHost`: argument and value. -/
def twilightHost.acosTable : List ((ℤ × ℤ) × (ℤ × ℤ)) :=
  [ ((-7770105404390915, -54), (2270669888864059, -50)),
    ((-971263175548863, -51), (1135334944432029, -49)) ]

/-- The values of `math.Atan2` in `twilightHost`: arguments `y`, `x` and value. -/
def twilightHost.atan2Table : List (((ℤ × ℤ) × (ℤ × ℤ)) × (ℤ × ℤ)) :=
  [ (((-5881569538118341, -54), (-1052196410262511, -50)), (-3158696164363833, -50)) ]

/-- The host of the two solves at depression angle 16 for Sydney on 14 October 1981, day
fraction 5/24: at each argument that `computeTime` reaches at `G = 164` and at `G = 16`, the
`float64` nearest to the value of the real function. -/
def twilightHost : Host :=
  { sin := lookup twilightHost.sinTable
    cos := lookup twilightHost.cosTable
    tan := fun _ => 0
    asin := lookup twilightHost.asinTable
    acos := lookup twilightHost.acosTable
    atan := fun _ => 0
    atan2 := lookup2 twilightHost.atan2Table
    zoneOffset := fun _ _ => 36000 }

/-- The values of `math.Sin` in `solsticeHost`: argument and value. -/
def solsticeHost.sinTable : List ((ℤ × ℤ) × (ℤ × ℤ)) :=
  [ ((3274350950528535, -50), (8332447551777319, -55)),
    ((3274350950528535, -49), (-8106547902650611, -54)),
    ((7369449854627967, -54), (7165614411995115, -54)),
    ((1768559417924697, -50), (9007199254740991, -53)) ]

/-- The values of `math.Cos` in `solsticeHost`: argument and value. -/
def solsticeHost.cosTable : List ((ℤ × ℤ) × (ℤ × ℤ)) :=
  [ ((7369449854627967, -54), (4131982905919949, -52)),
    ((1768559417924697, -50), (5390831709741667, -78)) ]

/-- The values of `math.Asin` in `solsticeHost`: argument and value. -/
def solsticeHost.asinTable : List ((ℤ × ℤ) × (ℤ × ℤ)) :=
  [ ((3582807205997557, -53), (3684724927313983, -53)) ]

/-- The values of `math.Atan2` in `solsticeHost`: arguments `y`, `x` and value. -/
def solsticeHost.atan2Table : List (((ℤ × ℤ) × (ℤ × ℤ)) × (ℤ × ℤ)) :=
  [ (((8263965811839897, -53), (5390831709741667, -78)), (221069927014819, -47)) ]

/-- The host of `sunPosition` at the Julian date 2451716.5695899674 (20 June 2000): at each
argument reached, the `float64` nearest to the value of the real function. -/
def solsticeHost : Host :=
  { sin := lookup solsticeHost.sinTable
    cos := lookup solsticeHost.cosTable
    tan := fun _ => 0
    asin := lookup solsticeHost.asinTable
    acos := fun _ => 0
    atan := fun _ => 0
    atan2 := lookup2 solsticeHost.atan2Table
    zoneOffset := fun _ _ => 0 }

/-! ## Inputs of the worked examples over rounded float64 -/

namespace IEEE

/-- The configuration that `Custom` builds for the reference fixture of
`praytimes_test.go` (Jafari, standard Asr, angle-based high-latitude method, Sydney,
14 October 1981), with the tuning offsets `offsets`. -/
def sydneyConfig (offsets : Fin 9 → B64) : Config :=
  { Convention := ConventionJafari
    ImsakMinutes := 10
    DhuhrMinutes := 0
    AsrFactor := AsrFactorStandard
    HighLatMethod := HighlatMethodAngleBased
    Latitude := B64.lit (-33.8688)
    Longitude := B64.lit 151.2093
    Date := { Year := 1981, Month := 10, Day := 14 }
    TimeZone := "Australia/Sydney"
    Offsets := offsets }

/-- The nine solved times of the reference fixture (4.064480689741125, twice,
5.331930202974634, 11.766814297235838, 15.383968209809929, 18.210283384805173,
18.469999786534565 and 19.308058195823143, twice). -/
def sydneySolved : Slice :=
  [B64.fin (dbl 4576198429943177 (-50)), B64.fin (dbl 4576198429943177 (-50)),
    B64.fin (dbl 3001609859410257 (-49)), B64.fin (dbl 6624127560546143 (-49)),
    B64.fin (dbl 2165101046786861 (-47)), B64.fin (dbl 2562869545816241 (-47)),
    B64.fin (dbl 2599421379880319 (-47)), B64.fin (dbl 2717367615498655 (-47)),
    B64.fin (dbl 2717367615498655 (-47))]

/-- Tuning offsets that are 0 but for Imsak and Fajr, which both have the offset `o`. -/
def fajrOffsets (o : B64) : Fin 9 → B64 := fun i => if i.val ≤ 1 then o else B64.fin 0

/-- Tuning offsets that are 0 but for Fajr, which has the offset `o`. -/
def fajrOffset (o : B64) : Fin 9 → B64 := fun i => if i.val = 1 then o else B64.fin 0

/-- A configuration with no high-latitude method, latitude and longitude 0, and the tuning
offsets `offsets`. -/
def plainConfig (convention : Fin 8) (highLatMethod : ℤ) (offsets : Fin 9 → B64) : Config :=
  { Convention := convention
    ImsakMinutes := 10
    DhuhrMinutes := 0
    AsrFactor := AsrFactorStandard
    HighLatMethod := highLatMethod
    Latitude := B64.fin 0
    Longitude := B64.fin 0
    Date := { Year := 2000, Month := 1, Day := 1 }
    TimeZone := "UTC"
    Offsets := offsets }

end IEEE

/-! ## Arithmetic of the float64 model -/

namespace F64

@[simp] theorem fin_add (a b : ℚ) : fin a + fin b = fin (a + b) := rfl
@[simp] theorem fin_sub (a b : ℚ) : fin a - fin b = fin (a - b) := rfl
@[simp] theorem fin_mul (a b : ℚ) : fin a * fin b = fin (a * b) := rfl
@[simp] theorem fin_neg (a : ℚ) : -fin a = fin (-a) := rfl
@[simp] theorem fin_div (a b : ℚ) :
    fin a / fin b = if b = 0 then nan else fin (a / b) := rfl
@[simp] theorem nan_add (x : F64) : nan + x = nan := rfl
@[simp] theorem add_nan (x : F64) : x + nan = nan := by cases x <;> rfl
@[simp] theorem nan_sub (x : F64) : nan - x = nan := rfl
@[simp] theorem sub_nan (x : F64) : x - nan = nan := by cases x <;> rfl
@[simp] theorem nan_mul (x : F64) : nan * x = nan := rfl
@[simp] theorem mul_nan (x : F64) : x * nan = nan := by cases x <;> rfl
@[simp] theorem nan_div (x : F64) : nan / x = nan := rfl
@[simp] theorem div_nan (x : F64) : x / nan = nan := by cases x <;> rfl
@[simp] theorem neg_nan : -nan = nan := rfl
@[simp] theorem floor_fin (a : ℚ) : F64.floor (fin a) = fin (⌊a⌋ : ℤ) := rfl
@[simp] theorem floor_nan : F64.floor nan = nan := rfl
@[simp] theorem lt_fin (a b : ℚ) : F64.lt (fin a) (fin b) = decide (a < b) := rfl
@[simp] theorem le_fin (a b : ℚ) : F64.le (fin a) (fin b) = decide (a ≤ b) := rfl
@[simp] theorem gt_fin (a b : ℚ) : F64.gt (fin a) (fin b) = decide (b < a) := rfl
@[simp] theorem eq_fin (a b : ℚ) : F64.eq (fin a) (fin b) = decide (a = b) := rfl
@[simp] theorem nan_lt (x : F64) : F64.lt nan x = false := rfl
@[simp] theorem lt_nan (x : F64) : F64.lt x nan = false := by cases x <;> rfl
@[simp] theorem nan_gt (x : F64) : F64.gt nan x = false := rfl
@[simp] theorem gt_nan (x : F64) : F64.gt x nan = false := by cases x <;> rfl
@[simp] theorem nan_le (x : F64) : F64.le nan x = false := rfl
@[simp] theorem le_nan (x : F64) : F64.le x nan = false := by cases x <;> rfl
@[simp] theorem isFinite_fin (a : ℚ) : (fin a).isFinite = true := rfl
@[simp] theorem isFinite_nan : nan.isFinite = false := rfl

/-- Adding a finite zero leaves every value as it is. -/
theorem add_fin_zero (x : F64) : x + fin 0 = x := by
  cases x <;> simp

end F64

@[simp] theorem Host.Sin_fin (H : Host) (x : ℚ) : H.Sin (fin x) = fin (H.sin x) := rfl
@[simp] theorem Host.Cos_fin (H : Host) (x : ℚ) : H.Cos (fin x) = fin (H.cos x) := rfl
@[simp] theorem Host.Tan_fin (H : Host) (x : ℚ) : H.Tan (fin x) = fin (H.tan x) := rfl
@[simp] theorem Host.Atan_fin (H : Host) (x : ℚ) : H.Atan (fin x) = fin (H.atan x) := rfl
@[simp] theorem Host.Atan2_fin (H : Host) (y x : ℚ) :
    H.Atan2 (fin y) (fin x) = fin (H.atan2 y x) := rfl
@[simp] theorem Host.Asin_fin (H : Host) (x : ℚ) :
    H.Asin (fin x) = if x < -1 ∨ x > 1 then nan else fin (H.asin x) := rfl
@[simp] theorem Host.Acos_fin (H : Host) (x : ℚ) :
    H.Acos (fin x) = if x < -1 ∨ x > 1 then nan else fin (H.acos x) := rfl
@[simp] theorem Host.Acos_nan (H : Host) : H.Acos nan = nan := rfl

/-! ## Range reduction -/

theorem fixHour_fin (a : ℚ) : fixHour (fin a) = fin (a - 24 * (⌊a / 24⌋ : ℤ)) := by
  have h : ¬ (a - 24 * (⌊a / 24⌋ : ℤ) < 0) := by
    have := Int.floor_le (a / 24)
    linarith
  simp [fixHour, h]

theorem fixAngle_fin (a : ℚ) : fixAngle (fin a) = fin (a - 360 * (⌊a / 360⌋ : ℤ)) := by
  have h : ¬ (a - 360 * (⌊a / 360⌋ : ℤ) < 0) := by
    have := Int.floor_le (a / 360)
    linarith
  simp [fixAngle, h]

@[simp] theorem fixHour_nan : fixHour nan = nan := rfl

@[simp] theorem timeDiff_nan_left (x : F64) : timeDiff nan x = nan := by simp [timeDiff]

@[simp] theorem timeDiff_nan_right (x : F64) : timeDiff x nan = nan := by simp [timeDiff]

theorem timeDiff_fin (a b : ℚ) :
    timeDiff (fin a) (fin b) = fin (b - a - 24 * (⌊(b - a) / 24⌋ : ℤ)) := by
  simp [timeDiff, fixHour_fin]

/-- The value of `fixHour` at a finite argument, from a decomposition of the argument. -/
theorem fixHour_eq (a r : ℚ) (k : ℤ) (h0 : 0 ≤ r) (h1 : r < 24) (h : a = r + 24 * k) :
    fixHour (fin a) = fin r := by
  have hk : ⌊a / 24⌋ = k := by
    rw [Int.floor_eq_iff]
    constructor <;> linarith
  rw [fixHour_fin, hk, h]
  congr 1
  ring

/-! ## The output formatter -/

theorem convertToHoursMinutes_fin (t : ℚ) :
    convertToHoursMinutes (fin t) =
      (fin (⌊clockOf t⌋ : ℤ), fin (⌊(clockOf t - (⌊clockOf t⌋ : ℤ)) * 60⌋ : ℤ)) := by
  simp [convertToHoursMinutes, fixHour_fin, clockOf]

/-! ## Julian date -/

theorem floor_int_div (n : ℤ) (d : ℕ) : ⌊(n : ℚ) / (d : ℚ)⌋ = n / (d : ℤ) :=
  Rat.floor_intCast_div_natCast n d

theorem julianDate_core (Y M : ℤ) :
    F64.floor (fin (Y : ℚ) / fin 100) = fin ((Y / 100 : ℤ) : ℚ)
    ∧ F64.floor (fin ((Y / 100 : ℤ) : ℚ) / fin 4) = fin ((Y / 100 / 4 : ℤ) : ℚ)
    ∧ F64.floor (fin 365.25 * fin ((Y : ℚ) + 4716)) = fin ((1461 * (Y + 4716) / 4 : ℤ) : ℚ)
    ∧ F64.floor (fin 30.6001 * fin ((M : ℚ) + 1))
        = fin ((306001 * (M + 1) / 10000 : ℤ) : ℚ) := by
  refine ⟨?_, ?_, ?_, ?_⟩
  · have := floor_int_div Y 100
    simp only [F64.fin_div, F64.floor_fin]
    norm_num at this ⊢
    exact_mod_cast this
  · have := floor_int_div (Y / 100) 4
    simp only [F64.fin_div, F64.floor_fin]
    norm_num at this ⊢
    exact_mod_cast this
  · have := floor_int_div (1461 * (Y + 4716)) 4
    have e : (365.25 : ℚ) * ((Y : ℚ) + 4716)
        = ((1461 * (Y + 4716) : ℤ) : ℚ) / ((4 : ℕ) : ℚ) := by
      push_cast; norm_num; ring
    simp only [F64.fin_mul, F64.fin_add, F64.floor_fin, e, this]
    norm_num
  · have := floor_int_div (306001 * (M + 1)) 10000
    have e : (30.6001 : ℚ) * ((M : ℚ) + 1)
        = ((306001 * (M + 1) : ℤ) : ℚ) / ((10000 : ℕ) : ℚ) := by
      push_cast; norm_num; ring
    simp only [F64.fin_mul, F64.fin_add, F64.floor_fin, e, this]
    norm_num

theorem julianDate_int (Y M D : ℤ) :
    julianDate (F64.ofInt Y) (F64.ofInt M) (F64.ofInt D) = F64.ofInt (julianDay Y M D) := by
  unfold julianDate julianDay F64.ofInt
  by_cases hM : M ≤ 2
  · have hq : ((M : ℚ) ≤ 2) := by exact_mod_cast hM
    obtain ⟨h1, h2, h3, h4⟩ := julianDate_core (Y - 1) (M + 12)
    push_cast at h1 h2 h3 h4
    simp only [F64.le_fin, hq, decide_True, if_true, hM, F64.fin_sub, F64.fin_add]
    simp only [h1, h2, h3, h4, F64.fin_sub, F64.fin_add]
    push_cast; rfl
  · have hq : ¬ ((M : ℚ) ≤ 2) := by exact_mod_cast hM
    obtain ⟨h1, h2, h3, h4⟩ := julianDate_core Y M
    simp only [F64.le_fin, hq, decide_False, hM, if_false, Bool.false_eq_true, F64.fin_add]
    simp only [h1, h2, h3, h4, F64.fin_sub, F64.fin_add]
    push_cast; rfl

theorem julianDay_nextDate (d : GoDate) (h : validDate d) :
    julianDay (nextDate d).Year (nextDate d).Month (nextDate d).Day
      = julianDay d.Year d.Month d.Day + 1 := by
  obtain ⟨Y, M, D⟩ := d
  unfold validDate at h
  simp only at h
  obtain ⟨hY, hM1, hM12, hD1, hD⟩ := h
  have hMc : M = 1 ∨ M = 2 ∨ M = 3 ∨ M = 4 ∨ M = 5 ∨ M = 6 ∨ M = 7 ∨ M = 8 ∨ M = 9
      ∨ M = 10 ∨ M = 11 ∨ M = 12 := by omega
  have hnext : nextDate ⟨Y, M, D⟩ =
      if D < daysInMonth Y M then ⟨Y, M, D + 1⟩
      else if M < 12 then ⟨Y, M + 1, 1⟩ else ⟨Y + 1, 1, 1⟩ := rfl
  rw [hnext]
  have e1 : Y % 100 = 0 → Y % 4 = 0 := by omega
  have e2 : Y % 100 ≠ 0 → (Y - 1) / 100 = Y / 100 := by omega
  have e3 : 1461 * (Y + 4716) / 4 = 365 * (Y + 4716) + (Y + 4716) / 4 := by omega
  have e4 : 1461 * (Y - 1 + 4716) / 4 = 365 * (Y - 1 + 4716) + (Y - 1 + 4716) / 4 := by omega
  rcases hMc with rfl | rfl | rfl | rfl | rfl | rfl | rfl | rfl | rfl | rfl | rfl | rfl <;>
    simp only [daysInMonth, isLeapYear] at hD ⊢ <;>
    norm_num at hD ⊢ <;>
    split_ifs at hD ⊢ <;>
    simp only [julianDay] <;>
    norm_num <;>
    omega

/-! ## The adjustment and tuning passes on a nine-element slice -/

theorem range_nine : List.range 9 = [0, 1, 2, 3, 4, 5, 6, 7, 8] := by decide

theorem step_length (cfg : Config) (tz lon : F64) (ct : Slice) (i : ℕ) :
    (adjustTimes.step cfg tz lon ct i).length = ct.length := by
  unfold adjustTimes.step Slice.put
  split_ifs <;> simp

theorem foldl_length {α : Type} (f : Slice → α → Slice)
    (hf : ∀ s a, (f s a).length = s.length) (l : List α) (s : Slice) :
    (l.foldl f s).length = s.length := by
  induction l generalizing s with
  | nil => rfl
  | cons a l ih => simp [List.foldl, ih, hf]

theorem adjustTimes_length (cfg : Config) (ct : Slice) (tz lon : F64) :
    (adjustTimes cfg ct tz lon).length = ct.length := by
  unfold adjustTimes Slice.put
  simp only []
  split_ifs <;> simp [foldl_length _ (step_length cfg tz lon)]

theorem tuneTimes_nine (a0 a1 a2 a3 a4 a5 a6 a7 a8 : F64) (o : Fin 9 → F64) :
    tuneTimes [a0, a1, a2, a3, a4, a5, a6, a7, a8] o =
      [a0 + o 0 / fin 60, a1 + o 1 / fin 60, a2 + o 2 / fin 60, a3 + o 3 / fin 60,
       a4 + o 4 / fin 60, a5 + o 5 / fin 60, a6 + o 6 / fin 60, a7 + o 7 / fin 60,
       a8 + o 8 / fin 60] := by
  simp [tuneTimes, range_nine, Slice.put, Slice.idx, offsetAt]

theorem nine_of_length (s : Slice) (h : s.length = 9) :
    s = [s.idx 0, s.idx 1, s.idx 2, s.idx 3, s.idx 4, s.idx 5, s.idx 6, s.idx 7, s.idx 8] := by
  match s, h with
  | [a0, a1, a2, a3, a4, a5, a6, a7, a8], _ => rfl

theorem adjustHighLatTime_other (cfg : Config) (i : ℕ) (time : F64) (times : Slice)
    (h1 : i ≠ 1) (h6 : i ≠ 6) (h7 : i ≠ 7) : adjustHighLatTime cfg i time times = time := by
  simp [adjustHighLatTime, TimeFajr, TimeMaghrib, TimeIsha, h1, h6, h7]

/-- The entries of `adjustTimes` on a nine-element slice, in the order the loop and the
four assignments after it produce them. -/
theorem adjustTimes_nine (cfg : Config) (s0 s1 s2 s3 s4 s5 s6 s7 s8 tz lon : F64) :
    adjustTimes cfg [s0, s1, s2, s3, s4, s5, s6, s7, s8] tz lon =
      let sh := tz - lon / fin 15
      let hl : Bool := decide (cfg.HighLatMethod ≠ HighlatMethodNone)
      let b0 := s0 + sh
      let b1 := if hl then
          adjustHighLatTime cfg 1 (s1 + sh) [b0, s1 + sh, s2, s3, s4, s5, s6, s7, s8]
        else s1 + sh
      let b2 := s2 + sh
      let b3 := s3 + sh
      let b4 := s4 + sh
      let b5 := s5 + sh
      let b6 := if hl then
          adjustHighLatTime cfg 6 (s6 + sh) [b0, b1, b2, b3, b4, b5, s6 + sh, s7, s8]
        else s6 + sh
      let b7 := if hl then
          adjustHighLatTime cfg 7 (s7 + sh) [b0, b1, b2, b3, b4, b5, b6, s7 + sh, s8]
        else s7 + sh
      let b8 := s8 + sh
      let c6 := if F64.eq (sunAngle cfg.Convention AngleDhuhr) (fin 1) then
          b5 + sunAngle cfg.Convention AngleMaghrib / fin 60
        else b6
      let c7 := if F64.eq (sunAngle cfg.Convention AngleNAN) (fin 1) then
          c6 + sunAngle cfg.Convention AngleIsha / fin 60
        else b7
      [b1 - F64.ofInt cfg.ImsakMinutes / fin 60, b1, b2,
        b3 + F64.ofInt cfg.DhuhrMinutes / fin 60, b4, b5, c6, c7, b8] := by
  by_cases h : cfg.HighLatMethod = HighlatMethodNone
  · simp [adjustTimes, range_nine, adjustTimes.step, h, Slice.put, Slice.idx, TimeImsak,
      TimeFajr, TimeDhuhr, TimeMaghrib, TimeSunset, TimeIsha]
    split_ifs <;> simp
  · simp [adjustTimes, range_nine, adjustTimes.step, h, Slice.put, Slice.idx, TimeImsak,
      TimeFajr, TimeDhuhr, TimeMaghrib, TimeSunset, TimeIsha, adjustHighLatTime_other]
    split_ifs <;> simp

theorem solved_length (H : Host) (cfg : Config) :
    (computeTimes.solved H cfg).length = 9 := rfl

theorem adjusted_length (H : Host) (cfg : Config) :
    (computeTimes.adjusted H cfg).length = 9 := by
  simp [computeTimes.adjusted, adjustTimes_length, solved_length]

theorem adjusted_offsets (H : Host) (cfg : Config) (o : Fin 9 → F64) :
    computeTimes.adjusted H { cfg with Offsets := o } = computeTimes.adjusted H cfg := rfl

/-- The working array in terms of the slice that `adjustTimes` returned. -/
theorem finish_of_adjusted (cfg : Config) (tz : F64) (s : Slice)
    (a0 a1 a2 a3 a4 a5 a6 a7 a8 : F64)
    (hA : adjustTimes cfg s tz cfg.Longitude = [a0, a1, a2, a3, a4, a5, a6, a7, a8]) :
    computeTimes.finish cfg tz s =
      let T := tuned [a0, a1, a2, a3, a4, a5, a6, a7, a8] cfg.Offsets
      [T 0, T 1, T 2, T 3, T 4, T 5, T 6, T 7,
        T 5 + timeDiff (T 5) (if cfg.Convention = ConventionJafari then T 1 else T 2)
          / fin 2] := by
  unfold computeTimes.finish
  simp only [hA, tuneTimes_nine]
  split_ifs <;> simp [Slice.put, Slice.idx, TimeMidnight, TimeSunset, TimeFajr, TimeSunrise,
    tuned, offsetAt]

theorem finish_eq (cfg : Config) (tz : F64) (s : Slice) (hs : s.length = 9) :
    computeTimes.finish cfg tz s =
      let T := tuned (adjustTimes cfg s tz cfg.Longitude) cfg.Offsets
      [T 0, T 1, T 2, T 3, T 4, T 5, T 6, T 7,
        T 5 + timeDiff (T 5) (if cfg.Convention = ConventionJafari then T 1 else T 2)
          / fin 2] := by
  have hA := nine_of_length _ ((adjustTimes_length cfg s tz cfg.Longitude).trans hs)
  have := finish_of_adjusted cfg tz s _ _ _ _ _ _ _ _ _ hA
  rw [← hA] at this
  exact this

theorem working_eq (H : Host) (cfg : Config) :
    computeTimes.working H cfg =
      let T := tuned (computeTimes.adjusted H cfg) cfg.Offsets
      [T 0, T 1, T 2, T 3, T 4, T 5, T 6, T 7,
        T 5 + timeDiff (T 5) (if cfg.Convention = ConventionJafari then T 1 else T 2)
          / fin 2] :=
  finish_eq cfg _ _ (solved_length H cfg)

/-! ## Finite values stay finite -/

/-! ## Tuning offsets -/

theorem tune_split (x o : F64) (k : ℚ) :
    x + (o + fin k) / fin 60 = x + o / fin 60 + fin (k / 60) := by
  cases x <;> cases o <;> simp
  ring

theorem offsetAt_val (o : Fin 9 → F64) (i : Fin 9) : offsetAt o i.val = o i := by
  simp [offsetAt, i.isLt]

theorem tuned_update (A : Slice) (o : Fin 9 → F64) (i : Fin 9) (k : ℚ) :
    tuned A (Function.update o i (o i + fin k)) i.val = tuned A o i.val + fin (k / 60) := by
  simp only [tuned, offsetAt_val, Function.update_same, tune_split]

/-- The eight entries before Midnight are the tuned entries of the adjusted slice. -/
theorem working_idx (H : Host) (cfg : Config) (i : ℕ) (hi : i < 8) :
    (computeTimes.working H cfg).idx i = tuned (computeTimes.adjusted H cfg) cfg.Offsets i := by
  rw [working_eq]
  interval_cases i <;> rfl

/-- Changing the tuning offset of one of the eight fields before Midnight leaves the
other seven of them as they are. -/
theorem other_fields_unchanged (H : Host) (cfg : Config) (i j : Fin 8) (hij : i ≠ j)
    (v : F64) :
    (computeTimes.working H { cfg with
        Offsets := Function.update cfg.Offsets i.castSucc v }).idx j.val
      = (computeTimes.working H cfg).idx j.val := by
  rw [working_idx _ _ _ j.isLt, working_idx _ _ _ j.isLt, adjusted_offsets]
  have hne : j.castSucc ≠ i.castSucc := fun h => hij (Fin.castSucc_injective _ h).symm
  have hj : j.val = j.castSucc.val := rfl
  rw [hj]
  simp only [tuned, offsetAt_val, Function.update_noteq hne]

/-! ## The solver and the corrector on unsolvable events -/

theorem computeTime_eq (H : Host) (G t jDay lat : F64) :
    computeTime H G t jDay lat =
      if F64.gt G (fin 90) then
        computeMidday H t jDay + -(degreeArccos H (computeTime.arg H G t jDay lat) / fin 15)
      else computeMidday H t jDay + degreeArccos H (computeTime.arg H G t jDay lat) / fin 15 :=
  rfl

theorem degreeArccos_nan (H : Host) : degreeArccos H nan = nan := rfl

/-- The solver answers `NaN` unless the arccos argument is a finite value of `[-1, 1]`. -/
theorem computeTime_unsolvable (H : Host) (G t jDay lat : F64) :
    computeTime H G t jDay lat = nan ∨
      ∃ x : ℚ, computeTime.arg H G t jDay lat = fin x ∧ -1 ≤ x ∧ x ≤ 1 := by
  rw [computeTime_eq]
  cases h : computeTime.arg H G t jDay lat with
  | nan => left; simp [degreeArccos_nan]
  | fin x =>
    by_cases hx : x < -1 ∨ x > 1
    · left
      have : degreeArccos H (fin x) = nan := by
        simp [degreeArccos, radiansToDegrees, hx]
      simp [this]
    · right
      push_neg at hx
      exact ⟨x, rfl, hx.1, hx.2⟩

theorem finish_fajr_nan (cfg : Config) (tz s0 s2 s3 s4 s5 s6 s7 s8 : F64) :
    (computeTimes.finish cfg tz [s0, nan, s2, s3, s4, s5, s6, s7, s8]).idx TimeFajr = nan := by
  rw [finish_eq _ _ _ (by rfl), adjustTimes_nine]
  simp [Slice.idx, TimeFajr, tuned, adjustHighLatTime, TimeSunrise, TimeSunset]

theorem finish_isha_nan (cfg : Config) (tz s0 s1 s2 s3 s4 s5 s6 s8 : F64) :
    (computeTimes.finish cfg tz [s0, s1, s2, s3, s4, s5, s6, nan, s8]).idx TimeIsha = nan ∨
      F64.eq (sunAngle cfg.Convention AngleNAN) (fin 1) = true := by
  rw [finish_eq _ _ _ (by rfl), adjustTimes_nine]
  by_cases h : F64.eq (sunAngle cfg.Convention AngleNAN) (fin 1) = true
  · right; exact h
  · left
    simp [Slice.idx, TimeIsha, tuned, adjustHighLatTime, TimeSunrise, TimeSunset, h, TimeFajr,
      TimeMaghrib]

theorem solved_eq (H : Host) (cfg : Config) :
    computeTimes.solved H cfg =
      [computeTime H (fin 180 - sunAngle cfg.Convention AngleFajr)
          (dayPortion (defaultTimes.idx TimeFajr)) (computeTimes.jDay cfg) cfg.Latitude,
        computeTime H (fin 180 - sunAngle cfg.Convention AngleFajr)
          (dayPortion (defaultTimes.idx TimeFajr)) (computeTimes.jDay cfg) cfg.Latitude,
        computeTime H (fin (180 - 0.833))
          (dayPortion (defaultTimes.idx TimeSunrise)) (computeTimes.jDay cfg) cfg.Latitude,
        computeMidday H (dayPortion (defaultTimes.idx TimeDhuhr)) (computeTimes.jDay cfg),
        computeAsr H cfg.AsrFactor (dayPortion (defaultTimes.idx TimeAsr))
          (computeTimes.jDay cfg) cfg.Latitude,
        computeTime H (fin 0.833)
          (dayPortion (defaultTimes.idx TimeSunset)) (computeTimes.jDay cfg) cfg.Latitude,
        computeTime H (sunAngle cfg.Convention AngleMaghrib)
          (dayPortion (defaultTimes.idx TimeMaghrib)) (computeTimes.jDay cfg) cfg.Latitude,
        computeTime H (sunAngle cfg.Convention AngleIsha)
          (dayPortion (defaultTimes.idx TimeIsha)) (computeTimes.jDay cfg) cfg.Latitude,
        computeTime H (sunAngle cfg.Convention AngleIsha)
          (dayPortion (defaultTimes.idx TimeIsha)) (computeTimes.jDay cfg) cfg.Latitude] :=
  rfl

/-- The Fajr of the working array is `NaN` unless the arccos argument of the Fajr solve is a
finite value of `[-1, 1]`. -/
theorem working_fajr_nan (H : Host) (cfg : Config) :
    (computeTimes.working H cfg).idx TimeFajr = nan ∨
      ∃ x : ℚ, computeTime.arg H (fin 180 - sunAngle cfg.Convention AngleFajr)
        (dayPortion (defaultTimes.idx TimeFajr)) (computeTimes.jDay cfg) cfg.Latitude = fin x ∧
        -1 ≤ x ∧ x ≤ 1 := by
  rcases computeTime_unsolvable H (fin 180 - sunAngle cfg.Convention AngleFajr)
      (dayPortion (defaultTimes.idx TimeFajr)) (computeTimes.jDay cfg) cfg.Latitude with h | h
  · left
    unfold computeTimes.working
    simp only [solved_eq, h]
    exact finish_fajr_nan _ _ _ _ _ _ _ _ _ _
  · right; exact h

/-- The Isha of the working array is `NaN` unless the convention sets Isha by minutes after
Maghrib or the arccos argument of the Isha solve is a finite value of `[-1, 1]`. -/
theorem working_isha_nan (H : Host) (cfg : Config) :
    (computeTimes.working H cfg).idx TimeIsha = nan ∨
      F64.eq (sunAngle cfg.Convention AngleNAN) (fin 1) = true ∨
      ∃ x : ℚ, computeTime.arg H (sunAngle cfg.Convention AngleIsha)
        (dayPortion (defaultTimes.idx TimeIsha)) (computeTimes.jDay cfg) cfg.Latitude = fin x ∧
        -1 ≤ x ∧ x ≤ 1 := by
  rcases computeTime_unsolvable H (sunAngle cfg.Convention AngleIsha)
      (dayPortion (defaultTimes.idx TimeIsha)) (computeTimes.jDay cfg) cfg.Latitude with h | h
  · unfold computeTimes.working
    simp only [solved_eq, h]
    rcases finish_isha_nan cfg (tzOffset (H.zoneOffset cfg.Date cfg.TimeZone)) _ _ _ _ _ _ _ nan
      with h1 | h1
    · left; exact h1
    · right; left; exact h1
  · right; right; exact h

/-! ## Worked examples -/

theorem sunAngle_MWL :
    sunAngle ConventionMWL AngleFajr = fin 18 ∧ sunAngle ConventionMWL AngleDhuhr = fin 1 ∧
    sunAngle ConventionMWL AngleMaghrib = fin 0 ∧ sunAngle ConventionMWL AngleNAN = fin 0 ∧
    sunAngle ConventionMWL AngleIsha = fin 17 := ⟨rfl, rfl, rfl, rfl, rfl⟩

theorem example_adjusted (o : Fin 9 → F64) :
    adjustTimes { exampleConfig with Offsets := o } exampleSolved (fin 0) (fin 0) =
      [fin (29 / 6), fin 5, fin 6, fin 12, fin 15, fin 18, fin 18, fin 19, fin 19] := by
  unfold exampleSolved
  rw [adjustTimes_nine]
  norm_num [exampleConfig, HighlatMethodNone, sunAngle_MWL, F64.ofInt]

theorem example_midnight :
    (computeTimes.finish exampleConfig (fin 0) exampleSolved).idx TimeMidnight = fin 24 ∧
    (computeTimes.finish { exampleConfig with
        Offsets := Function.update exampleConfig.Offsets 5 (fin 60) } (fin 0)
      exampleSolved).idx TimeMidnight = fin (49 / 2) := by
  have e1 : timeDiff (fin 18) (fin 6) = fin 12 :=
    fixHour_eq _ 12 (-1) (by norm_num) (by norm_num) (by norm_num)
  have e2 : timeDiff (fin 19) (fin 6) = fin 11 :=
    fixHour_eq _ 11 (-1) (by norm_num) (by norm_num) (by norm_num)
  have hc : ConventionMWL ≠ ConventionJafari := by decide
  constructor
  · rw [finish_of_adjusted _ _ _ _ _ _ _ _ _ _ _ _ (example_adjusted exampleConfig.Offsets)]
    norm_num [Slice.idx, TimeMidnight, tuned, offsetAt, exampleConfig, hc, e1]
  · rw [finish_of_adjusted _ _ _ _ _ _ _ _ _ _ _ _ (example_adjusted _)]
    have h5 : ((5 : Fin 9) : ℕ) = 5 := rfl
    norm_num [Slice.idx, TimeMidnight, tuned, offsetAt, exampleConfig, hc, Function.update,
      Fin.ext_iff, h5, e2]

theorem example_midnight_offset :
    (computeTimes.finish { exampleConfig with
        Offsets := Function.update exampleConfig.Offsets 8 (fin 60) } (fin 0)
      exampleSolved).idx TimeMidnight = fin 24 := by
  have e1 : timeDiff (fin 18) (fin 6) = fin 12 :=
    fixHour_eq _ 12 (-1) (by norm_num) (by norm_num) (by norm_num)
  have hc : ConventionMWL ≠ ConventionJafari := by decide
  rw [finish_of_adjusted _ _ _ _ _ _ _ _ _ _ _ _ (example_adjusted _)]
  have h8 : ((8 : Fin 9) : ℕ) = 8 := rfl
  norm_num [Slice.idx, TimeMidnight, tuned, offsetAt, exampleConfig, hc, Function.update,
    Fin.ext_iff, h8, e1]

theorem polar_adjusted :
    adjustTimes exampleConfig polarSolved (fin 0) (fin 0) =
      [nan, nan, nan, fin 12, nan, nan, nan, nan, nan] := by
  unfold polarSolved
  rw [adjustTimes_nine]
  norm_num [exampleConfig, HighlatMethodNone, sunAngle_MWL, F64.ofInt]

/-- The value of `convertToHoursMinutes` at a finite argument, from bounds on it. -/
theorem convert_eq (t : ℚ) (h m k : ℤ) (h0 : 0 ≤ m) (h1 : m < 60)
    (hk : (60 * h + m : ℤ) ≤ 60 * (t + 0.5 / 60 - 24 * k))
    (hk2 : 60 * (t + 0.5 / 60 - 24 * k) < (60 * h + m : ℤ) + 1)
    (hh0 : 0 ≤ h) (hh1 : h < 24) :
    convertToHoursMinutes (fin t) = (fin h, fin m) := by
  have a0 : (0 : ℚ) ≤ m := by exact_mod_cast h0
  have a1 : (m : ℚ) ≤ 59 := by exact_mod_cast (by omega : m ≤ 59)
  have a2 : (0 : ℚ) ≤ h := by exact_mod_cast hh0
  have a3 : (h : ℚ) ≤ 23 := by exact_mod_cast (by omega : h ≤ 23)
  push_cast at hk hk2
  have hfl : ⌊(t + 0.5 / 60) / 24⌋ = k := by
    rw [Int.floor_eq_iff]
    constructor <;> linarith
  have hc : clockOf t = t + 0.5 / 60 - 24 * k := by
    unfold clockOf; rw [hfl]
  have hH : ⌊clockOf t⌋ = h := by
    rw [Int.floor_eq_iff, hc]
    constructor <;> linarith
  have hM : ⌊(clockOf t - (h : ℚ)) * 60⌋ = m := by
    rw [Int.floor_eq_iff, hc]
    constructor <;> linarith
  rw [convertToHoursMinutes_fin, hH, hM]

/-! ## The solver at finite arguments -/

theorem piValue_pos : 0 < piValue := by norm_num [piValue]

theorem Pi_eq : Pi = fin piValue := rfl

theorem degreesToRadians_fin (x : ℚ) : degreesToRadians (fin x) = fin (x * piValue / 180) := by
  simp [degreesToRadians, Pi_eq]

theorem radiansToDegrees_fin (x : ℚ) : radiansToDegrees (fin x) = fin (x * 180 / piValue) := by
  simp [radiansToDegrees, Pi_eq, piValue_pos.ne']

theorem degreeToSin_fin (H : Host) (x : ℚ) :
    degreeToSin H (fin x) = fin (H.sin (x * piValue / 180)) := by
  simp [degreeToSin, degreesToRadians_fin]

theorem degreeToCos_fin (H : Host) (x : ℚ) :
    degreeToCos H (fin x) = fin (H.cos (x * piValue / 180)) := by
  simp [degreeToCos, degreesToRadians_fin]

theorem degreeToTan_fin (H : Host) (x : ℚ) :
    degreeToTan H (fin x) = fin (H.tan (x * piValue / 180)) := by
  simp [degreeToTan, degreesToRadians_fin]

theorem fixAngle_fin_exists (a : ℚ) : ∃ r : ℚ, fixAngle (fin a) = fin r := ⟨_, fixAngle_fin a⟩

theorem fixHour_fin_exists (a : ℚ) : ∃ r : ℚ, fixHour (fin a) = fin r := ⟨_, fixHour_fin a⟩

/-- The declination at a finite Julian date: the arcsine of `sin e * sin L` for the
obliquity `e` and a finite ecliptic longitude `L`; the equation of time is finite. -/
theorem sunPosition_fin (H : Host) (jd : ℚ) :
    ∃ l q : ℚ, sunPosition H (fin jd) =
      (degreeArcsin H (fin (H.sin (obliquity jd * piValue / 180) * H.sin (l * piValue / 180))),
        fin q) := by
  unfold sunPosition
  simp only [F64.fin_sub, F64.fin_mul, F64.fin_add]
  obtain ⟨g, hg⟩ := fixAngle_fin_exists (357.529 + 0.98560028 * (jd - 2451545))
  obtain ⟨q, hq⟩ := fixAngle_fin_exists (280.459 + 0.98564736 * (jd - 2451545))
  simp only [hg, hq, degreeToSin_fin, degreeToCos_fin, F64.fin_mul, F64.fin_add]
  obtain ⟨l, hl⟩ := fixAngle_fin_exists
    (q + 1.915 * H.sin (g * piValue / 180) + 0.020 * H.sin (2 * g * piValue / 180))
  simp only [hl, degreeToSin_fin, degreeToCos_fin, F64.fin_mul, F64.fin_sub, degreeArctan2,
    Host.Atan2_fin, radiansToDegrees_fin]
  have h15 : (15 : ℚ) ≠ 0 := by norm_num
  simp only [F64.fin_div, h15, if_false]
  obtain ⟨ra, hra⟩ := fixHour_fin_exists
    (H.atan2 (H.cos ((23.439 - 0.00000036 * (jd - 2451545)) * piValue / 180)
      * H.sin (l * piValue / 180)) (H.cos (l * piValue / 180)) * 180 / piValue / 15)
  simp only [hra, F64.fin_sub]
  exact ⟨l, _, rfl⟩

theorem computeMidday_fin (H : Host) (t jDay : ℚ) :
    ∃ z : ℚ, computeMidday H (fin t) (fin jDay) = fin z := by
  obtain ⟨l, q, h⟩ := sunPosition_fin H (jDay + t)
  unfold computeMidday equationOfTime
  simp only [F64.fin_add, h, F64.fin_sub]
  exact fixHour_fin_exists _

theorem sunDeclination_fin (H : Host) (jd : ℚ) :
    ∃ l : ℚ, sunDeclination H (fin jd) =
      degreeArcsin H (fin (H.sin (obliquity jd * piValue / 180) * H.sin (l * piValue / 180))) := by
  obtain ⟨l, q, h⟩ := sunPosition_fin H jd
  exact ⟨l, by unfold sunDeclination; rw [h]⟩

/-- The value of `computeTime` at finite arguments, in terms of the declination `d` and
the midday `z`: `NaN` when the divisor is 0 or the quotient is outside `[-1, 1]`. -/
theorem computeTime_fin (H : Host) (G t jDay lat d z : ℚ)
    (hd : sunDeclination H (fin jDay + fin t) = fin d)
    (hz : computeMidday H (fin t) (fin jDay) = fin z) :
    computeTime H (fin G) (fin t) (fin jDay) (fin lat) =
      if H.cos (d * piValue / 180) * H.cos (lat * piValue / 180) = 0 then nan
      else if (-H.sin (G * piValue / 180)
            - H.sin (d * piValue / 180) * H.sin (lat * piValue / 180))
          / (H.cos (d * piValue / 180) * H.cos (lat * piValue / 180)) < -1
        ∨ (-H.sin (G * piValue / 180)
            - H.sin (d * piValue / 180) * H.sin (lat * piValue / 180))
          / (H.cos (d * piValue / 180) * H.cos (lat * piValue / 180)) > 1 then nan
      else if 90 < G then
        fin (z - H.acos ((-H.sin (G * piValue / 180)
            - H.sin (d * piValue / 180) * H.sin (lat * piValue / 180))
          / (H.cos (d * piValue / 180) * H.cos (lat * piValue / 180))) * 180 / piValue / 15)
      else
        fin (z + H.acos ((-H.sin (G * piValue / 180)
            - H.sin (d * piValue / 180) * H.sin (lat * piValue / 180))
          / (H.cos (d * piValue / 180) * H.cos (lat * piValue / 180))) * 180 / piValue / 15) := by
  unfold computeTime
  simp only [hd, hz, degreeToSin_fin, degreeToCos_fin, F64.fin_neg, F64.fin_sub, F64.fin_mul,
    F64.fin_div, F64.gt_fin]
  by_cases hm : H.cos (d * piValue / 180) * H.cos (lat * piValue / 180) = 0
  · simp only [hm, if_true, degreeArccos_nan, F64.nan_div, F64.neg_nan, F64.add_nan]
    split_ifs <;> rfl
  · simp only [hm, if_false, degreeArccos, Host.Acos_fin]
    by_cases hx : (-H.sin (G * piValue / 180)
            - H.sin (d * piValue / 180) * H.sin (lat * piValue / 180))
          / (H.cos (d * piValue / 180) * H.cos (lat * piValue / 180)) < -1
        ∨ (-H.sin (G * piValue / 180)
            - H.sin (d * piValue / 180) * H.sin (lat * piValue / 180))
          / (H.cos (d * piValue / 180) * H.cos (lat * piValue / 180)) > 1
    · simp only [hx, if_true]
      split_ifs <;> rfl
    · have h15 : (15 : ℚ) ≠ 0 := by norm_num
      simp only [hx, if_false, radiansToDegrees_fin, F64.fin_div, h15, F64.fin_neg, F64.fin_add]
      by_cases hG : 90 < G
      · simp only [hG, decide_True, if_true, sub_eq_add_neg]
      · simp only [hG, decide_False, Bool.false_eq_true, if_false]

/-! ## Symmetry about solar noon -/

/-- The arccos argument of `computeTime` at finite arguments. -/
theorem arg_fin (H : Host) (G t jDay lat d : ℚ)
    (hd : sunDeclination H (fin jDay + fin t) = fin d) :
    computeTime.arg H (fin G) (fin t) (fin jDay) (fin lat) =
      if H.cos (d * piValue / 180) * H.cos (lat * piValue / 180) = 0 then nan
      else fin ((-H.sin (G * piValue / 180)
            - H.sin (d * piValue / 180) * H.sin (lat * piValue / 180))
          / (H.cos (d * piValue / 180) * H.cos (lat * piValue / 180))) := by
  unfold computeTime.arg
  simp only [hd, degreeToSin_fin, degreeToCos_fin, F64.fin_neg, F64.fin_sub, F64.fin_mul,
    F64.fin_div]

/-- A finite arccos argument comes from a finite declination. -/
theorem arg_declination (H : Host) (G t jDay lat : F64) (x : ℚ)
    (hx : computeTime.arg H G t jDay lat = fin x) :
    ∃ d : ℚ, sunDeclination H (jDay + t) = fin d := by
  cases hd : sunDeclination H (jDay + t) with
  | fin d => exact ⟨d, rfl⟩
  | nan =>
    exfalso
    unfold computeTime.arg at hx
    simp only [hd] at hx
    simp [degreeToSin, degreeToCos, degreesToRadians, Host.Sin, Host.Cos] at hx

/-! ## The declination and the divisor of the hour angle -/

/-- The declination is within the obliquity. -/
theorem declination_bound (H : Host) (jd : ℚ)
    (hb : H.sinBounded) (hn : H.sinNonneg) (hm : H.asinMonotone) (ho : H.asinOdd)
    (hi : H.asinOfSin) (he0 : 0 ≤ obliquity jd) (he1 : obliquity jd < 90) :
    ∃ d : ℚ, sunDeclination H (fin jd) = fin d ∧ |d| ≤ obliquity jd := by
  obtain ⟨l, hl⟩ := sunDeclination_fin H jd
  have hpi := piValue_pos
  set xe : ℚ := obliquity jd * piValue / 180 with hxe
  have hxe0 : 0 ≤ xe := by positivity
  have hxe1 : xe ≤ piValue / 2 := by
    rw [hxe]; nlinarith
  set se : ℚ := H.sin xe with hse
  set sl : ℚ := H.sin (l * piValue / 180) with hsl
  have hse0 : 0 ≤ se := hn xe hxe0 hxe1
  have hse1 : se ≤ 1 := (hb xe).2
  have hsl0 := (hb (l * piValue / 180)).1
  have hsl1 := (hb (l * piValue / 180)).2
  rw [← hsl] at hsl0 hsl1
  have hp0 : -se ≤ se * sl := by nlinarith
  have hp1 : se * sl ≤ se := by nlinarith
  have hr : ¬ (se * sl < -1 ∨ se * sl > 1) := by
    push_neg; constructor <;> linarith
  have hup : H.asin (se * sl) ≤ xe := by
    have := hm (se * sl) se (by linarith) hp1 hse1
    rwa [hi xe hxe0 hxe1] at this
  have hlo : -xe ≤ H.asin (se * sl) := by
    have := hm (-se) (se * sl) (by linarith) hp0 (by linarith)
    rwa [ho se, hi xe hxe0 hxe1] at this
  refine ⟨H.asin (se * sl) * 180 / piValue, ?_, ?_⟩
  · rw [hl]
    simp only [degreeArcsin, Host.Asin_fin, hr, if_false, radiansToDegrees_fin]
  · have e : obliquity jd = xe * 180 / piValue := by
      rw [hxe]; field_simp
    rw [e, abs_le]
    constructor
    · rw [← neg_div, ← neg_mul]
      apply div_le_div_of_nonneg_right _ hpi.le
      nlinarith
    · apply div_le_div_of_nonneg_right _ hpi.le
      nlinarith

/-! ## The Asr event -/

/-- The Asr event at finite arguments: `computeTime` at the angle `-arccot(factor + tan |latitude - D|)`. -/
theorem computeAsr_fin (H : Host) (f : ℤ) (t jDay lat d : ℚ)
    (hd : sunDeclination H (fin jDay + fin t) = fin d) :
    computeAsr H f (fin t) (fin jDay) (fin lat) =
      computeTime H
        (fin (-(H.atan2 1 ((f : ℚ) + H.tan (|lat - d| * piValue / 180)) * 180 / piValue)))
        (fin t) (fin jDay) (fin lat) := by
  unfold computeAsr
  simp only [hd]
  simp only [F64.fin_sub, F64.abs, degreeToTan_fin, F64.ofInt, F64.fin_add, degreeArccot,
    Host.Atan2_fin, radiansToDegrees_fin, F64.fin_neg]

/-- A finite Asr comes from a finite declination. -/
theorem computeAsr_declination (H : Host) (f : ℤ) (t jDay lat : F64) (u : ℚ)
    (hu : computeAsr H f t jDay lat = fin u) :
    ∃ d : ℚ, sunDeclination H (jDay + t) = fin d := by
  cases hd : sunDeclination H (jDay + t) with
  | fin d => exact ⟨d, rfl⟩
  | nan =>
    exfalso
    unfold computeAsr computeTime at hu
    simp only [hd] at hu
    simp [degreeToSin, degreeToCos, degreesToRadians, Host.Sin, Host.Cos, degreeArccos,
      radiansToDegrees] at hu

/-- The Asr event in terms of the declination `d` and the midday `z`, for a host with an
odd sine and a nonnegative arccotangent: the event is after midday, at the hour angle
whose cosine is `(sin A - sin d * sin lat) / (cos d * cos lat)` for the arccotangent `A`
of `factor + tan |lat - d|`. -/
theorem computeAsr_value (H : Host) (f : ℤ) (t jDay lat d z : ℚ)
    (hodd : H.sinOdd) (hrange : H.arccotRange)
    (hd : sunDeclination H (fin jDay + fin t) = fin d)
    (hz : computeMidday H (fin t) (fin jDay) = fin z) :
    computeAsr H f (fin t) (fin jDay) (fin lat) =
      if H.cos (d * piValue / 180) * H.cos (lat * piValue / 180) = 0 then nan
      else if (H.sin (H.atan2 1 ((f : ℚ) + H.tan (|lat - d| * piValue / 180)))
            - H.sin (d * piValue / 180) * H.sin (lat * piValue / 180))
          / (H.cos (d * piValue / 180) * H.cos (lat * piValue / 180)) < -1
        ∨ (H.sin (H.atan2 1 ((f : ℚ) + H.tan (|lat - d| * piValue / 180)))
            - H.sin (d * piValue / 180) * H.sin (lat * piValue / 180))
          / (H.cos (d * piValue / 180) * H.cos (lat * piValue / 180)) > 1 then nan
      else
        fin (z + H.acos ((H.sin (H.atan2 1 ((f : ℚ) + H.tan (|lat - d| * piValue / 180)))
            - H.sin (d * piValue / 180) * H.sin (lat * piValue / 180))
          / (H.cos (d * piValue / 180) * H.cos (lat * piValue / 180))) * 180 / piValue / 15) := by
  have hpi := piValue_pos
  rw [computeAsr_fin H f t jDay lat d hd, computeTime_fin H _ t jDay lat d z hd hz]
  set A : ℚ := H.atan2 1 ((f : ℚ) + H.tan (|lat - d| * piValue / 180)) with hA
  have hA0 := (hrange ((f : ℚ) + H.tan (|lat - d| * piValue / 180))).1
  rw [← hA] at hA0
  have e : -(A * 180 / piValue) * piValue / 180 = -A := by
    field_simp
    ring
  have hG : ¬ (90 < -(A * 180 / piValue)) := by
    have : 0 ≤ A * 180 / piValue := by positivity
    linarith
  rw [e, hodd A, neg_neg]
  simp only [hG, if_false]

/-! ## The functions of `linearHost` -/

/-- The value of the triangle wave from a decomposition of its argument. -/
theorem triangle_eq (y r : ℚ) (k : ℤ) (h : y = r + 4 * k) (h0 : -1 ≤ r) (h1 : r < 3) :
    triangle y = 1 - |r - 1| := by
  have hk : ⌊(y + 1) / 4⌋ = k := by
    rw [Int.floor_eq_iff]
    constructor <;> linarith
  unfold triangle
  rw [hk, h]
  congr 2
  ring

theorem triangle_decomp (y : ℚ) : ∃ (r : ℚ) (k : ℤ), y = r + 4 * k ∧ -1 ≤ r ∧ r < 3 := by
  refine ⟨y - 4 * (⌊(y + 1) / 4⌋ : ℤ), ⌊(y + 1) / 4⌋, by ring, ?_, ?_⟩
  · have := Int.floor_le ((y + 1) / 4)
    linarith
  · have := Int.lt_floor_add_one ((y + 1) / 4)
    linarith

/-- On `[-1, 1]` the triangle wave is the identity. -/
theorem triangle_id (y : ℚ) (h0 : -1 ≤ y) (h1 : y ≤ 1) : triangle y = y := by
  rw [triangle_eq y y 0 (by simp) h0 (by linarith), abs_of_nonpos (by linarith)]
  ring

/-- On `[0, 2]` the triangle wave is `1 - |y - 1|`. -/
theorem triangle_half (y : ℚ) (h0 : 0 ≤ y) (h1 : y ≤ 2) : triangle y = 1 - |y - 1| :=
  triangle_eq y y 0 (by simp) (by linarith) (by linarith)

theorem triangle_bounded (y : ℚ) : -1 ≤ triangle y ∧ triangle y ≤ 1 := by
  obtain ⟨r, k, h, h0, h1⟩ := triangle_decomp y
  rw [triangle_eq y r k h h0 h1]
  have := abs_nonneg (r - 1)
  have : |r - 1| ≤ 2 := by
    rw [abs_le]; constructor <;> linarith
  constructor <;> linarith

theorem triangle_reflect (y : ℚ) : triangle (2 - y) = triangle y := by
  obtain ⟨r, k, h, h0, h1⟩ := triangle_decomp y
  rw [triangle_eq y r k h h0 h1]
  rcases eq_or_lt_of_le h0 with h0' | h0'
  · rw [triangle_eq (2 - y) (-1) (1 - k) (by rw [h, ← h0']; push_cast; ring) (by norm_num)
      (by norm_num), ← h0']
  · rw [triangle_eq (2 - y) (2 - r) (-k) (by rw [h]; push_cast; ring) (by linarith)
      (by linarith)]
    have e : 2 - r - 1 = -(r - 1) := by ring
    rw [e, abs_neg]

theorem triangle_neg (y : ℚ) : triangle (-y) = -triangle y := by
  obtain ⟨r, k, h, h0, h1⟩ := triangle_decomp y
  rw [triangle_eq y r k h h0 h1]
  by_cases hr : r ≤ 1
  · rw [triangle_eq (-y) (-r) (-k) (by rw [h]; push_cast; ring) (by linarith) (by linarith),
      abs_of_nonpos (by linarith : -r - 1 ≤ 0), abs_of_nonpos (by linarith : r - 1 ≤ 0)]
    ring
  · push_neg at hr
    rw [triangle_eq (-y) (4 - r) (-k - 1) (by rw [h]; push_cast; ring) (by linarith)
      (by linarith), abs_of_nonneg (by linarith : 0 ≤ 4 - r - 1),
      abs_of_nonneg (by linarith : 0 ≤ r - 1)]
    ring

/-- The angle `x` in quarter turns. -/
theorem quarter_turns (x : ℚ) : 2 * (x * piValue / 180) / piValue = x / 90 := by
  have := piValue_pos.ne'
  field_simp
  ring

theorem linear_sinBounded : linearHost.sinBounded := fun _ => triangle_bounded _

theorem linear_sinOdd : linearHost.sinOdd := by
  intro x
  simp only [linearHost]
  rw [← triangle_neg]
  congr 1
  ring

theorem linear_sinSupplementary : linearHost.sinSupplementary := by
  intro x
  have := piValue_pos.ne'
  simp only [linearHost]
  rw [← triangle_reflect (2 * x / piValue)]
  congr 1
  field_simp
  ring

theorem linear_sin_quarter (x : ℚ) (h0 : -(piValue / 2) ≤ x) (h1 : x ≤ piValue / 2) :
    linearHost.sin x = 2 * x / piValue := by
  have hpi := piValue_pos
  apply triangle_id
  · rw [le_div_iff₀ hpi]; linarith
  · rw [div_le_one hpi]; linarith

theorem linear_cos_quarter (x : ℚ) (h0 : -(piValue / 2) ≤ x) (h1 : x ≤ piValue / 2) :
    linearHost.cos x = 1 - |2 * x / piValue| := by
  have hpi := piValue_pos
  have a0 : -1 ≤ 2 * x / piValue := by rw [le_div_iff₀ hpi]; linarith
  have a1 : 2 * x / piValue ≤ 1 := by rw [div_le_one hpi]; linarith
  simp only [linearHost]
  rw [triangle_half _ (by linarith) (by linarith)]
  congr 2
  ring

theorem linear_sinNonneg : linearHost.sinNonneg := by
  intro x h0 h1
  have hpi := piValue_pos
  rw [linear_sin_quarter x (by linarith) h1]
  positivity

theorem linear_sinNonnegHalfTurn : linearHost.sinNonnegHalfTurn := by
  intro x h0 h1
  have hpi := piValue_pos
  have a0 : 0 ≤ 2 * x / piValue := by positivity
  have a1 : 2 * x / piValue ≤ 2 := by rw [div_le_iff₀ hpi]; linarith
  simp only [linearHost]
  rw [triangle_half _ a0 a1]
  have : |2 * x / piValue - 1| ≤ 1 := by
    rw [abs_le]; constructor <;> linarith
  linarith

theorem linear_sinMonotone : linearHost.sinMonotone := by
  intro x y h0 hxy h1
  have hpi := piValue_pos
  rw [linear_sin_quarter x (by linarith) (by linarith),
    linear_sin_quarter y (by linarith) h1]
  apply div_le_div_of_nonneg_right _ hpi.le
  linarith

theorem linear_cosNonneg : linearHost.cosNonneg := by
  intro x h0 h1
  have hpi := piValue_pos
  rw [linear_cos_quarter x h0 h1]
  have : |2 * x / piValue| ≤ 1 := by
    rw [abs_le]
    constructor
    · rw [le_div_iff₀ hpi]; linarith
    · rw [div_le_one hpi]; linarith
  linarith

theorem linear_asinMonotone : linearHost.asinMonotone := by
  intro x y _ hxy _
  have hpi := piValue_pos
  simp only [linearHost]
  apply div_le_div_of_nonneg_right _ (by norm_num)
  exact mul_le_mul_of_nonneg_right hxy hpi.le

theorem linear_asinOdd : linearHost.asinOdd := by
  intro y
  simp only [linearHost]
  ring

theorem linear_asinOfSin : linearHost.asinOfSin := by
  intro x hx0 hx1
  have hpi := piValue_pos
  rw [linear_sin_quarter x (by linarith) hx1]
  simp only [linearHost]
  field_simp

theorem linear_asinRange : linearHost.asinRange := by
  intro y h0 h1
  have hpi := piValue_pos
  simp only [linearHost]
  constructor <;> nlinarith

theorem linear_acosNonneg : linearHost.acosNonneg := by
  intro y _ hy
  have hpi := piValue_pos
  simp only [linearHost]
  apply div_nonneg _ (by norm_num)
  apply mul_nonneg _ hpi.le
  linarith

theorem linear_acosAntitone : linearHost.acosAntitone := by
  intro x y _ hxy _
  have hpi := piValue_pos
  simp only [linearHost]
  apply div_le_div_of_nonneg_right _ (by norm_num)
  apply mul_le_mul_of_nonneg_right _ hpi.le
  linarith

/-- The taxicab angle of `(x, 1)` is in `[0, 2]` quarter turns. -/
theorem diamondAngle_one (x : ℚ) : 0 ≤ diamondAngle 1 x ∧ diamondAngle 1 x ≤ 2 := by
  unfold diamondAngle
  rw [if_pos (by norm_num : (0 : ℚ) ≤ 1)]
  split_ifs with hx
  · have h1 : 0 ≤ 1 / (x + 1) := by positivity
    have h2 : 1 / (x + 1) ≤ 1 := by
      rw [div_le_one (by linarith)]; linarith
    constructor <;> linarith
  · push_neg at hx
    have h1 : 0 ≤ -x / (1 - x) := by
      apply div_nonneg <;> linarith
    have h2 : -x / (1 - x) ≤ 1 := by
      rw [div_le_one (by linarith)]; linarith
    have e : 1 - x / (1 - x) = 1 + -x / (1 - x) := by ring
    rw [e]
    constructor <;> linarith

/-- The taxicab angle of `(x, 1)` is antitone on `x ≥ 0`, where it is at most a quarter
turn. -/
theorem diamondAngle_one_antitone (x y : ℚ) (hx : 0 ≤ x) (hxy : x ≤ y) :
    diamondAngle 1 y ≤ diamondAngle 1 x ∧ diamondAngle 1 x ≤ 1 := by
  have h01 : (0 : ℚ) ≤ 1 := by norm_num
  have hy : 0 ≤ y := by linarith
  simp only [diamondAngle, h01, hx, hy, if_true]
  constructor
  · apply one_div_le_one_div_of_le <;> linarith
  · rw [div_le_one (by linarith)]; linarith

theorem linear_arccotRange : linearHost.arccotRange := by
  intro x
  have hpi := piValue_pos
  obtain ⟨h1, h2⟩ := diamondAngle_one x
  simp only [linearHost]
  constructor <;> nlinarith

theorem linear_arccotAntitone : linearHost.arccotAntitone := by
  intro x y hx hxy
  have hpi := piValue_pos
  obtain ⟨h1, h2⟩ := diamondAngle_one_antitone x y hx hxy
  simp only [linearHost]
  constructor <;> nlinarith

theorem linear_tanSign : linearHost.tanSign := by
  intro x y hx0 hx1 hy0 hy1 h
  have hpi := piValue_pos
  rw [linear_cos_quarter x hx0 hx1, linear_cos_quarter y hy0 hy1,
    linear_sin_quarter x hx0 hx1, linear_sin_quarter y hy0 hy1] at h
  set a : ℚ := 2 * x / piValue with ha
  set b : ℚ := 2 * y / piValue with hb
  have a0 : -1 ≤ a := by rw [ha, le_div_iff₀ hpi]; linarith
  have a1 : a ≤ 1 := by rw [ha, div_le_one hpi]; linarith
  have b0 : -1 ≤ b := by rw [hb, le_div_iff₀ hpi]; linarith
  have b1 : b ≤ 1 := by rw [hb, div_le_one hpi]; linarith
  have e : 2 * |x - y| / piValue = |a - b| := by
    have e2 : a - b = (x - y) * (2 / piValue) := by rw [ha, hb]; ring
    rw [e2, abs_mul, abs_of_pos (by positivity : 0 < 2 / piValue)]
    ring
  have hY : |a - b| ≤ 1 := by
    rw [abs_le]
    rcases abs_cases a with ⟨ea, _⟩ | ⟨ea, _⟩ <;> rcases abs_cases b with ⟨eb, _⟩ | ⟨eb, _⟩ <;>
      rw [ea, eb] at h <;> constructor <;> nlinarith
  simp only [linearHost]
  rw [e, triangle_id _ (by linarith [abs_nonneg (a - b)]) hY,
    triangle_half _ (by linarith [abs_nonneg (a - b)]) (by linarith)]
  apply div_nonneg (abs_nonneg _)
  have : |(|a - b| + 1 - 1)| ≤ 1 := by
    rw [add_sub_cancel_right, abs_abs]; exact hY
  linarith

/-! ## The solver on `linearHost` at the Julian date 2451545 and latitude 0 -/

/-- On `linearHost` the declination at the Julian date 2451545 is within the obliquity
23.439. -/
theorem linear_declination :
    ∃ d : ℚ, sunDeclination linearHost (fin 2451545 + fin 0) = fin d ∧ |d| ≤ 23.439 := by
  obtain ⟨d, hd, hb⟩ := declination_bound linearHost (2451545 + 0) linear_sinBounded
    linear_sinNonneg linear_asinMonotone linear_asinOdd linear_asinOfSin
    (by norm_num [obliquity]) (by norm_num [obliquity])
  refine ⟨d, hd, ?_⟩
  have e : obliquity (2451545 + 0) = 23.439 := by norm_num [obliquity]
  rw [e] at hb
  exact hb

/-- The sine and the cosine of `linearHost` at a declination within 23.439 degrees and at
latitude 0. -/
theorem linear_at_declination (d : ℚ) (hb : |d| ≤ 23.439) :
    linearHost.sin (d * piValue / 180) = d / 90 ∧
    linearHost.cos (d * piValue / 180) = 1 - |d| / 90 ∧
    linearHost.sin (0 * piValue / 180) = 0 ∧
    linearHost.cos (0 * piValue / 180) = 1 := by
  have hpi := piValue_pos
  rw [abs_le] at hb
  have h0 : -(piValue / 2) ≤ d * piValue / 180 := by
    rw [neg_le, ← neg_div, ← neg_mul, div_le_div_iff₀ (by norm_num) (by norm_num)]
    nlinarith
  have h1 : d * piValue / 180 ≤ piValue / 2 := by
    rw [div_le_div_iff₀ (by norm_num) (by norm_num)]
    nlinarith
  have z0 : -(piValue / 2) ≤ 0 * piValue / 180 := by
    rw [zero_mul, zero_div]; linarith
  have z1 : 0 * piValue / 180 ≤ piValue / 2 := by
    rw [zero_mul, zero_div]; linarith
  refine ⟨?_, ?_, ?_, ?_⟩
  · rw [linear_sin_quarter _ h0 h1, quarter_turns]
  · rw [linear_cos_quarter _ h0 h1, quarter_turns, abs_div]
    norm_num
  · rw [linear_sin_quarter _ z0 z1, quarter_turns]
    norm_num
  · rw [linear_cos_quarter _ z0 z1, quarter_turns]
    norm_num

/-- On `linearHost` the hour angle of 18 degrees is solvable at the Julian date 2451545 and
latitude 0. -/
theorem linear_arg :
    ∃ x : ℚ, computeTime.arg linearHost (fin 18) (fin 0) (fin 2451545) (fin 0) = fin x ∧
      -1 ≤ x ∧ x ≤ 1 := by
  have hpi := piValue_pos
  obtain ⟨d, hd, hb⟩ := linear_declination
  obtain ⟨hsd, hcd, hsl, hcl⟩ := linear_at_declination d hb
  have hs18 : linearHost.sin (18 * piValue / 180) = 1 / 5 := by
    rw [linear_sin_quarter _ (by nlinarith) (by nlinarith), quarter_turns]
    norm_num
  have hd90 : |d| / 90 ≤ 23.439 / 90 := by
    apply div_le_div_of_nonneg_right hb (by norm_num)
  have hc : (7 / 10 : ℚ) ≤ 1 - |d| / 90 := by
    norm_num at hd90 ⊢
    linarith
  rw [arg_fin _ _ _ _ _ _ hd, hsd, hcd, hsl, hcl, hs18]
  have hm : ¬ ((1 - |d| / 90) * 1 = 0) := by
    rw [mul_one]; linarith
  rw [if_neg hm]
  refine ⟨_, rfl, ?_, ?_⟩
  · rw [le_div_iff₀ (by rw [mul_one]; linarith)]
    linarith
  · rw [div_le_one (by rw [mul_one]; linarith)]
    linarith

/-- On `linearHost` both Asr events are solvable at the Julian date 2451545 and
latitude 0. -/
theorem linear_asr (f : ℤ) (hf : 1 ≤ f) :
    ∃ u : ℚ, computeAsr linearHost f (fin 0) (fin 2451545) (fin 0) = fin u := by
  have hpi := piValue_pos
  obtain ⟨d, hd, hb⟩ := linear_declination
  obtain ⟨z, hz⟩ := computeMidday_fin linearHost 0 2451545
  obtain ⟨hsd, hcd, hsl, hcl⟩ := linear_at_declination d hb
  have hd90 : |d| / 90 ≤ 23.439 / 90 := by
    apply div_le_div_of_nonneg_right hb (by norm_num)
  have hc : (7 / 10 : ℚ) ≤ 1 - |d| / 90 := by
    norm_num at hd90 ⊢
    linarith
  have hf1 : (1 : ℚ) ≤ (f : ℚ) := by exact_mod_cast hf
  -- the tangent of the angle between latitude and declination
  have hT : 0 ≤ linearHost.tan (|0 - d| * piValue / 180) := by
    have e : |0 - d| * piValue / 180 = |0 * piValue / 180 - d * piValue / 180| := by
      have e2 : 0 * piValue / 180 - d * piValue / 180 = (0 - d) * (piValue / 180) := by ring
      rw [e2, abs_mul, abs_of_pos (by positivity : 0 < piValue / 180)]
      ring
    rw [e]
    rw [abs_le] at hb
    apply linear_tanSign
    · rw [zero_mul, zero_div]; linarith
    · rw [zero_mul, zero_div]; linarith
    · rw [neg_le, ← neg_div, ← neg_mul, div_le_div_iff₀ (by norm_num) (by norm_num)]
      nlinarith
    · rw [div_le_div_iff₀ (by norm_num) (by norm_num)]
      nlinarith
    · rw [hsd, hcd, hsl, hcl]
      nlinarith
  set T : ℚ := linearHost.tan (|0 - d| * piValue / 180) with hTdef
  -- the arccotangent and its sine
  have hA : linearHost.sin (linearHost.atan2 1 ((f : ℚ) + T)) = 1 / ((f : ℚ) + T + 1) := by
    have h01 : (0 : ℚ) ≤ 1 := by norm_num
    have hx : 0 ≤ (f : ℚ) + T := by linarith
    have hq0 : 0 ≤ 1 / ((f : ℚ) + T + 1) := by positivity
    have hq1 : 1 / ((f : ℚ) + T + 1) ≤ 1 := by
      rw [div_le_one (by linarith)]; linarith
    have ea : linearHost.atan2 1 ((f : ℚ) + T) = 1 / ((f : ℚ) + T + 1) * piValue / 2 := by
      simp only [linearHost, diamondAngle, h01, hx, if_true]
    rw [ea, linear_sin_quarter _ (by nlinarith) (by nlinarith)]
    field_simp
    ring
  have hq : 1 / ((f : ℚ) + T + 1) ≤ 1 / 2 := by
    apply one_div_le_one_div_of_le (by norm_num)
    linarith
  have hq0 : 0 ≤ 1 / ((f : ℚ) + T + 1) := by
    have : 0 < (f : ℚ) + T + 1 := by linarith
    positivity
  rw [computeAsr_value linearHost f 0 2451545 0 d z linear_sinOdd linear_arccotRange hd hz,
    ← hTdef, hA, hsd, hcd, hsl, hcl]
  have hm : ¬ ((1 - |d| / 90) * 1 = 0) := by
    rw [mul_one]; linarith
  have hr : ¬ ((1 / ((f : ℚ) + T + 1) - d / 90 * 0) / ((1 - |d| / 90) * 1) < -1 ∨
      (1 / ((f : ℚ) + T + 1) - d / 90 * 0) / ((1 - |d| / 90) * 1) > 1) := by
    push_neg
    constructor
    · rw [le_div_iff₀ (by rw [mul_one]; linarith)]
      linarith
    · rw [div_le_one (by rw [mul_one]; linarith)]
      linarith
  rw [if_neg hm, if_neg hr]
  exact ⟨_, rfl⟩

/-! ## The minute-relative conventions -/

/-- The conventions whose Maghrib flag (column `AngleDhuhr`) is 1 have 0 Maghrib
minutes. -/
theorem maghrib_flag (c : Fin 8)
    (h : F64.eq (sunAngle c AngleDhuhr) (fin 1) = true) :
    sunAngle c AngleMaghrib = fin 0 := by
  fin_cases c <;> first | rfl | (exfalso; revert h; norm_num [sunAngle, sunAngleRows, AngleDhuhr])

/-- The Maghrib flag is 1 for Karachi, ISNA, MWL, Makkah, Egypt and Custom, and for no
other convention. -/
theorem maghrib_flag_iff (c : Fin 8) :
    F64.eq (sunAngle c AngleDhuhr) (fin 1) = true ↔
      c ∈ [ConventionKarachi, ConventionISNA, ConventionMWL, ConventionMakkah,
        ConventionEgypt, ConventionCustom] := by
  fin_cases c <;>
    norm_num [sunAngle, sunAngleRows, AngleDhuhr, ConventionKarachi, ConventionISNA,
      ConventionMWL, ConventionMakkah, ConventionEgypt, ConventionCustom] <;> decide

theorem sunAngle_Makkah :
    sunAngle ConventionMakkah AngleFajr = fin 18.5 ∧
    sunAngle ConventionMakkah AngleDhuhr = fin 1 ∧
    sunAngle ConventionMakkah AngleMaghrib = fin 0 ∧
    sunAngle ConventionMakkah AngleNAN = fin 1 ∧
    sunAngle ConventionMakkah AngleIsha = fin 90 := ⟨rfl, rfl, rfl, rfl, rfl⟩

/-- With the Maghrib flag set, the adjusted Maghrib is the adjusted Sunset. -/
theorem adjusted_maghrib (cfg : Config) (tz lon s0 s1 s2 s3 s4 s5 s6 s7 s8 : F64)
    (h : F64.eq (sunAngle cfg.Convention AngleDhuhr) (fin 1) = true) :
    (adjustTimes cfg [s0, s1, s2, s3, s4, s5, s6, s7, s8] tz lon).idx TimeMaghrib =
      (adjustTimes cfg [s0, s1, s2, s3, s4, s5, s6, s7, s8] tz lon).idx TimeSunset := by
  rw [adjustTimes_nine]
  simp only [Slice.idx, TimeMaghrib, TimeSunset, List.getD_cons_succ, List.getD_cons_zero, h,
    if_true, maghrib_flag _ h]
  cases (s5 + (tz - lon / fin 15)) <;> simp

/-- With convention Makkah, the adjusted Isha is the adjusted Maghrib plus 90 minutes. -/
theorem adjusted_isha_makkah (cfg : Config) (tz lon s0 s1 s2 s3 s4 s5 s6 s7 s8 : F64)
    (h : cfg.Convention = ConventionMakkah) :
    (adjustTimes cfg [s0, s1, s2, s3, s4, s5, s6, s7, s8] tz lon).idx TimeIsha =
      (adjustTimes cfg [s0, s1, s2, s3, s4, s5, s6, s7, s8] tz lon).idx TimeMaghrib
        + fin 90 / fin 60 := by
  rw [adjustTimes_nine]
  simp only [Slice.idx, TimeMaghrib, TimeIsha, List.getD_cons_succ, List.getD_cons_zero, h,
    sunAngle_Makkah]
  simp

/-- Entry `i < 8` of the working array is the tuned entry of the adjusted slice. -/
theorem finish_idx (cfg : Config) (tz : F64) (s : Slice) (hs : s.length = 9) (i : ℕ)
    (hi : i < 8) :
    (computeTimes.finish cfg tz s).idx i
      = tuned (adjustTimes cfg s tz cfg.Longitude) cfg.Offsets i := by
  rw [finish_eq cfg tz s hs]
  interval_cases i <;> rfl

/-! ## The night-fraction policy -/

/-! ## Imsak -/

/-- The function `Custom` is `computeTimes` on the configuration it builds, that is, the
formatting of the working array. -/
theorem Custom_eq (H : Host) (convention : Fin 8) (dhuhrMinutes asrFactor highLatMethod : ℤ)
    (latitude longitude : F64) (date : GoDate) (timeZone : String) (offsets : Fin 9 → F64) :
    Custom H convention dhuhrMinutes asrFactor highLatMethod latitude longitude date timeZone
        offsets
      = computeTimes.format (computeTimes.working H
          (Custom.config convention dhuhrMinutes asrFactor highLatMethod latitude longitude date
            timeZone offsets)) := rfl

/-- The Imsak that `adjustTimes` returns is its Fajr minus `ImsakMinutes/60`. -/
theorem adjusted_imsak (cfg : Config) (s : Slice) (tz lon : F64) (hs : s.length = 9) :
    (adjustTimes cfg s tz lon).idx TimeImsak
      = (adjustTimes cfg s tz lon).idx TimeFajr - F64.ofInt cfg.ImsakMinutes / fin 60 := by
  rw [nine_of_length s hs, adjustTimes_nine]
  rfl

/-! ## The order of the adjustment pass -/

/-- The entries of `adjustTimesSpec` on a nine-element slice: every entry is shifted
first, and the corrector reads the shifted slice. -/
theorem adjustTimesSpec_nine (cfg : Config) (s0 s1 s2 s3 s4 s5 s6 s7 s8 tz lon : F64) :
    adjustTimesSpec cfg [s0, s1, s2, s3, s4, s5, s6, s7, s8] tz lon =
      let sh := tz - lon / fin 15
      let hl : Bool := decide (cfg.HighLatMethod ≠ HighlatMethodNone)
      let b0 := s0 + sh
      let b2 := s2 + sh
      let b3 := s3 + sh
      let b4 := s4 + sh
      let b5 := s5 + sh
      let b8 := s8 + sh
      let b1 := if hl then
          adjustHighLatTime cfg 1 (s1 + sh) [b0, s1 + sh, b2, b3, b4, b5, s6 + sh, s7 + sh, b8]
        else s1 + sh
      let b6 := if hl then
          adjustHighLatTime cfg 6 (s6 + sh) [b0, b1, b2, b3, b4, b5, s6 + sh, s7 + sh, b8]
        else s6 + sh
      let b7 := if hl then
          adjustHighLatTime cfg 7 (s7 + sh) [b0, b1, b2, b3, b4, b5, b6, s7 + sh, b8]
        else s7 + sh
      let c6 := if F64.eq (sunAngle cfg.Convention AngleDhuhr) (fin 1) then
          b5 + sunAngle cfg.Convention AngleMaghrib / fin 60
        else b6
      let c7 := if F64.eq (sunAngle cfg.Convention AngleNAN) (fin 1) then
          c6 + sunAngle cfg.Convention AngleIsha / fin 60
        else b7
      [b1 - F64.ofInt cfg.ImsakMinutes / fin 60, b1, b2,
        b3 + F64.ofInt cfg.DhuhrMinutes / fin 60, b4, b5, c6, c7, b8] := by
  by_cases h : cfg.HighLatMethod = HighlatMethodNone
  · simp [adjustTimesSpec, h, Slice.put, Slice.idx, TimeImsak, TimeFajr, TimeDhuhr,
      TimeMaghrib, TimeSunset, TimeIsha]
    split_ifs <;> simp
  · simp [adjustTimesSpec, range_nine, h, Slice.put, Slice.idx, TimeImsak, TimeFajr,
      TimeDhuhr, TimeMaghrib, TimeSunset, TimeIsha, adjustHighLatTime_other]
    split_ifs <;> simp

/-- From Sunrise on, the code and the specified order give the same entries. -/
theorem adjustTimes_agree_from_sunrise (cfg : Config)
    (s0 s1 s2 s3 s4 s5 s6 s7 s8 tz lon : F64) (i : ℕ) (hi : 2 ≤ i) :
    (adjustTimes cfg [s0, s1, s2, s3, s4, s5, s6, s7, s8] tz lon).idx i
      = (adjustTimesSpec cfg [s0, s1, s2, s3, s4, s5, s6, s7, s8] tz lon).idx i := by
  rw [adjustTimes_nine, adjustTimesSpec_nine]
  simp only []
  match i, hi with
  | 2, _ => rfl
  | 3, _ => rfl
  | 4, _ => rfl
  | 5, _ => rfl
  | 6, _ =>
    simp only [Slice.idx, List.getD_cons_succ, List.getD_cons_zero]
    split_ifs <;> rfl
  | 7, _ =>
    simp only [Slice.idx, List.getD_cons_succ, List.getD_cons_zero]
    split_ifs <;> rfl
  | 8, _ => rfl
  | n + 9, _ => rfl

/-- The adjustment pass of the code on the solved times of Paris, 1 June 2017, with the
zone offset of 2 hours: the corrector compares the shifted Fajr with the Sunrise and
Sunset that are not shifted yet, finds Fajr within the night portion, and leaves it at
`405103/150000` hours (02:42). -/
theorem paris_adjusted :
    adjustTimes parisConfig parisSolved (fin 2) (fin 2.3522) =
      [fin (126701 / 50000), fin (405103 / 150000), fin (878023 / 150000),
        fin (2071363 / 150000), fin (1354289 / 75000), fin (816427 / 37500),
        fin (816427 / 37500), fin (4812263 / 200000), fin (3684793 / 150000)] := by
  unfold parisSolved
  rw [adjustTimes_nine]
  have hc : parisConfig.Convention = ConventionMWL := rfl
  have hh : parisConfig.HighLatMethod = HighlatMethodAngleBased := rfl
  have hi : parisConfig.ImsakMinutes = 10 := rfl
  have hd : parisConfig.DhuhrMinutes = 0 := rfl
  simp only [hc, hh, hi, hd, sunAngle_MWL]
  norm_num [HighlatMethodAngleBased, HighlatMethodNone, F64.ofInt]
  have e1 : timeDiff (fin (99641 / 5000)) (fin (40103 / 10000)) = fin (80821 / 10000) :=
    fixHour_eq _ _ (-1) (by norm_num) (by norm_num) (by norm_num)
  have e2 : timeDiff (fin (405103 / 150000)) (fin (40103 / 10000)) = fin (98221 / 75000) :=
    fixHour_eq _ _ 0 (by norm_num) (by norm_num) (by norm_num)
  have e3 : timeDiff (fin (816427 / 37500)) (fin (878023 / 150000)) = fin (80821 / 10000) :=
    fixHour_eq _ _ (-1) (by norm_num) (by norm_num) (by norm_num)
  have e4 : timeDiff (fin (816427 / 37500)) (fin (3250123 / 150000))
      = fin (238961 / 10000) :=
    fixHour_eq _ _ (-1) (by norm_num) (by norm_num) (by norm_num)
  have e5 : timeDiff (fin (816427 / 37500)) (fin (3684793 / 150000)) = fin (27939 / 10000) :=
    fixHour_eq _ _ 0 (by norm_num) (by norm_num) (by norm_num)
  have a1 : adjustHighLatTime parisConfig 1 (fin (405103 / 150000))
      [fin (405103 / 150000), fin (405103 / 150000), fin (40103 / 10000),
        fin (119659 / 10000), fin (8107 / 500), fin (99641 / 5000), fin (198243 / 10000),
        fin (227221 / 10000), fin (227221 / 10000)] = fin (405103 / 150000) := by
    norm_num [adjustHighLatTime, Slice.idx, nightPortion, hh, hc, sunAngle_MWL, TimeFajr,
      TimeSunrise, TimeSunset, HighlatMethodAngleBased, e1, e2]
  rw [a1]
  have a6 : adjustHighLatTime parisConfig 6 (fin (3250123 / 150000))
      [fin (405103 / 150000), fin (405103 / 150000), fin (878023 / 150000),
        fin (2071363 / 150000), fin (1354289 / 75000), fin (816427 / 37500),
        fin (3250123 / 150000), fin (227221 / 10000), fin (227221 / 10000)]
      = fin (3346529 / 150000) := by
    norm_num [adjustHighLatTime, Slice.idx, nightPortion, hh, hc, sunAngle_MWL, TimeFajr,
      TimeSunrise, TimeSunset, TimeMaghrib, HighlatMethodAngleBased, e3, e4]
  rw [a6]
  have a7 : adjustHighLatTime parisConfig 7 (fin (3684793 / 150000))
      [fin (405103 / 150000), fin (405103 / 150000), fin (878023 / 150000),
        fin (2071363 / 150000), fin (1354289 / 75000), fin (816427 / 37500),
        fin (3346529 / 150000), fin (3684793 / 150000), fin (227221 / 10000)]
      = fin (4812263 / 200000) := by
    norm_num [adjustHighLatTime, Slice.idx, nightPortion, hh, hc, sunAngle_MWL, TimeFajr,
      TimeSunrise, TimeSunset, TimeMaghrib, TimeIsha, HighlatMethodAngleBased, e3, e5]
  rw [a7]
  norm_num

/-- The adjustment pass in the specified order on the same input: the corrector compares
the shifted Fajr with the shifted Sunrise and Sunset, finds it outside the night portion,
and replaces it by `1028657/300000` hours (03:26). -/
theorem paris_adjusted_spec :
    adjustTimesSpec parisConfig parisSolved (fin 2) (fin 2.3522) =
      [fin (326219 / 100000), fin (1028657 / 300000), fin (878023 / 150000),
        fin (2071363 / 150000), fin (1354289 / 75000), fin (816427 / 37500),
        fin (816427 / 37500), fin (4812263 / 200000), fin (3684793 / 150000)] := by
  unfold parisSolved
  rw [adjustTimesSpec_nine]
  have hc : parisConfig.Convention = ConventionMWL := rfl
  have hh : parisConfig.HighLatMethod = HighlatMethodAngleBased := rfl
  have hi : parisConfig.ImsakMinutes = 10 := rfl
  have hd : parisConfig.DhuhrMinutes = 0 := rfl
  simp only [hc, hh, hi, hd, sunAngle_MWL]
  norm_num [HighlatMethodAngleBased, HighlatMethodNone, F64.ofInt]
  have e3 : timeDiff (fin (816427 / 37500)) (fin (878023 / 150000)) = fin (80821 / 10000) :=
    fixHour_eq _ _ (-1) (by norm_num) (by norm_num) (by norm_num)
  have e2 : timeDiff (fin (405103 / 150000)) (fin (878023 / 150000)) = fin (3941 / 1250) :=
    fixHour_eq _ _ 0 (by norm_num) (by norm_num) (by norm_num)
  have e4 : timeDiff (fin (816427 / 37500)) (fin (3250123 / 150000))
      = fin (238961 / 10000) :=
    fixHour_eq _ _ (-1) (by norm_num) (by norm_num) (by norm_num)
  have e5 : timeDiff (fin (816427 / 37500)) (fin (3684793 / 150000)) = fin (27939 / 10000) :=
    fixHour_eq _ _ 0 (by norm_num) (by norm_num) (by norm_num)
  have a1 : adjustHighLatTime parisConfig 1 (fin (405103 / 150000))
      [fin (405103 / 150000), fin (405103 / 150000), fin (878023 / 150000),
        fin (2071363 / 150000), fin (1354289 / 75000), fin (816427 / 37500),
        fin (3250123 / 150000), fin (3684793 / 150000), fin (3684793 / 150000)]
      = fin (1028657 / 300000) := by
    norm_num [adjustHighLatTime, Slice.idx, nightPortion, hh, hc, sunAngle_MWL, TimeFajr,
      TimeSunrise, TimeSunset, HighlatMethodAngleBased, e3, e2]
  rw [a1]
  have a6 : adjustHighLatTime parisConfig 6 (fin (3250123 / 150000))
      [fin (405103 / 150000), fin (1028657 / 300000), fin (878023 / 150000),
        fin (2071363 / 150000), fin (1354289 / 75000), fin (816427 / 37500),
        fin (3250123 / 150000), fin (3684793 / 150000), fin (3684793 / 150000)]
      = fin (3346529 / 150000) := by
    norm_num [adjustHighLatTime, Slice.idx, nightPortion, hh, hc, sunAngle_MWL, TimeFajr,
      TimeSunrise, TimeSunset, TimeMaghrib, HighlatMethodAngleBased, e3, e4]
  rw [a6]
  have a7 : adjustHighLatTime parisConfig 7 (fin (3684793 / 150000))
      [fin (405103 / 150000), fin (1028657 / 300000), fin (878023 / 150000),
        fin (2071363 / 150000), fin (1354289 / 75000), fin (816427 / 37500),
        fin (3346529 / 150000), fin (3684793 / 150000), fin (3684793 / 150000)]
      = fin (4812263 / 200000) := by
    norm_num [adjustHighLatTime, Slice.idx, nightPortion, hh, hc, sunAngle_MWL, TimeFajr,
      TimeSunrise, TimeSunset, TimeMaghrib, TimeIsha, HighlatMethodAngleBased, e3, e5]
  rw [a7]
  norm_num

/-- The Fajr that `adjustTimes` returns for finite times and a high-latitude mode other
than none: the shifted solved Fajr, or the Sunrise that is not shifted yet minus the night
portion of the night; the Sunrise and Sunset it returns are the shifted ones. -/
theorem adjusted_fajr (cfg : Config) (tz lon s0 s1 s2 s3 s4 s5 s6 s7 s8 : ℚ)
    (hm : cfg.HighLatMethod ≠ HighlatMethodNone) :
    (adjustTimes cfg [fin s0, fin s1, fin s2, fin s3, fin s4, fin s5, fin s6, fin s7, fin s8]
        (fin tz) (fin lon)).idx TimeSunrise = fin (s2 + (tz - lon / 15)) ∧
    (adjustTimes cfg [fin s0, fin s1, fin s2, fin s3, fin s4, fin s5, fin s6, fin s7, fin s8]
        (fin tz) (fin lon)).idx TimeSunset = fin (s5 + (tz - lon / 15)) ∧
    ((adjustTimes cfg [fin s0, fin s1, fin s2, fin s3, fin s4, fin s5, fin s6, fin s7, fin s8]
        (fin tz) (fin lon)).idx TimeFajr = fin (s1 + (tz - lon / 15)) ∨
      (adjustTimes cfg [fin s0, fin s1, fin s2, fin s3, fin s4, fin s5, fin s6, fin s7, fin s8]
        (fin tz) (fin lon)).idx TimeFajr
        = fin s2 - nightPortion cfg (sunAngle cfg.Convention AngleFajr)
            * timeDiff (fin s5) (fin s2)) := by
  rw [adjustTimes_nine]
  have h15 : (15 : ℚ) ≠ 0 := by norm_num
  simp only [Slice.idx, TimeSunset, TimeFajr, TimeSunrise, List.getD_cons_succ,
    List.getD_cons_zero, hm, ne_eq, not_false_eq_true, decide_True, if_true,
    F64.fin_sub, F64.fin_add, F64.fin_div, h15, if_false]
  refine ⟨trivial, trivial, ?_⟩
  simp only [adjustHighLatTime, TimeFajr, TimeSunset, TimeSunrise, Slice.idx,
    List.getD_cons_succ, List.getD_cons_zero, if_true]
  split_ifs
  · right; rfl
  · left; rfl

theorem convert_paris :
    convertToHoursMinutes (fin (405103 / 150000)) = (fin 2, fin 42) ∧
    convertToHoursMinutes (fin (1028657 / 300000)) = (fin 3, fin 26) := by
  constructor
  · rw [convert_eq _ 2 42 0] <;> norm_num
  · rw [convert_eq _ 3 26 0] <;> norm_num

/-- For a host whose sine satisfies `sin (p - x) = sin x` for the `float64` value `p` of
`math.Pi` and whose arccosine is nonnegative on `[-1, 1]`: at an angle `a < 90` with a
solvable hour angle, `computeTime(180 - a, ...)` and `computeTime(a, ...)` are finite and
lie at the same distance before and after `computeMidday(t, jDay)`. -/
theorem computeTime_symmetric (H : Host) (a t jDay lat x : ℚ)
    (hsym : H.sinSupplementary) (hnn : H.acosNonneg) (ha : a < 90)
    (hx : computeTime.arg H (fin a) (fin t) (fin jDay) (fin lat) = fin x)
    (h1 : -1 ≤ x) (h2 : x ≤ 1) :
    ∃ u v z : ℚ,
      computeTime H (fin 180 - fin a) (fin t) (fin jDay) (fin lat) = fin u ∧
      computeTime H (fin a) (fin t) (fin jDay) (fin lat) = fin v ∧
      computeMidday H (fin t) (fin jDay) = fin z ∧
      u + v = 2 * z ∧ u ≤ z ∧ z ≤ v := by
  obtain ⟨d, hd⟩ := arg_declination H _ _ _ _ x hx
  obtain ⟨z, hz⟩ := computeMidday_fin H t jDay
  rw [arg_fin H a t jDay lat d hd] at hx
  by_cases hm : H.cos (d * piValue / 180) * H.cos (lat * piValue / 180) = 0
  · rw [if_pos hm] at hx
    exact absurd hx (by simp)
  rw [if_neg hm] at hx
  injection hx with hx
  have hs : H.sin ((180 - a) * piValue / 180) = H.sin (a * piValue / 180) := by
    rw [← hsym (a * piValue / 180)]
    congr 1
    ring
  have hr : ¬ (x < -1 ∨ x > 1) := by
    push_neg
    exact ⟨h1, h2⟩
  have hV := hnn x h1 h2
  have hpi := piValue_pos
  have hV2 : 0 ≤ H.acos x * 180 / piValue / 15 := by positivity
  refine ⟨z - H.acos x * 180 / piValue / 15, z + H.acos x * 180 / piValue / 15, z, ?_, ?_, hz,
    by ring, by linarith, by linarith⟩
  · rw [F64.fin_sub, computeTime_fin H _ t jDay lat d z hd hz, hs, hx, if_neg hm, if_neg hr,
      if_pos (by linarith)]
  · rw [computeTime_fin H _ t jDay lat d z hd hz, hx, if_neg hm, if_neg hr,
      if_neg (by linarith)]

/-! ## The corrector of Isha -/

/-- For every convention except Makkah the Isha column is an angle (flag 0) and the night
portion of that angle is in `[0, 1)`, whatever the high-latitude method. -/
theorem isha_portion (cfg : Config) (hc : cfg.Convention ≠ ConventionMakkah) :
    F64.eq (sunAngle cfg.Convention AngleNAN) (fin 0) = true ∧
    F64.eq (sunAngle cfg.Convention AngleNAN) (fin 1) = false ∧
    ∃ p : ℚ, nightPortion cfg (sunAngle cfg.Convention AngleIsha) = fin p ∧ 0 ≤ p ∧ p < 1 := by
  obtain ⟨c, im, dm, af, hm, la, lo, da, zo, os⟩ := cfg
  simp only at hc ⊢
  unfold nightPortion
  simp only []
  fin_cases c <;>
    first
      | exact absurd rfl hc
      | (refine ⟨by norm_num [sunAngle, sunAngleRows, AngleNAN],
          by norm_num [sunAngle, sunAngleRows, AngleNAN], ?_⟩
         split_ifs <;>
           norm_num [sunAngle, sunAngleRows, AngleIsha])

/-- The Isha corrector, for a convention other than Makkah: it returns either
`Sunset + nightPortion * night`, or the time it was given, and then neither of its two
tests holds. -/
theorem adjustHighLatTime_isha (cfg : Config) (hc : cfg.Convention ≠ ConventionMakkah)
    (time : F64) (times : Slice) :
    adjustHighLatTime cfg 7 time times
        = times.idx TimeSunset + nightPortion cfg (sunAngle cfg.Convention AngleIsha)
            * timeDiff (times.idx TimeSunset) (times.idx TimeSunrise) ∨
    (adjustHighLatTime cfg 7 time times = time ∧
      F64.lt (times.idx TimeIsha) (fin 1) = false ∧
      F64.gt (timeDiff (times.idx TimeSunset) (times.idx TimeIsha))
        (nightPortion cfg (sunAngle cfg.Convention AngleIsha)
          * timeDiff (times.idx TimeSunset) (times.idx TimeSunrise)) = false) := by
  obtain ⟨f0, -, -⟩ := isha_portion cfg hc
  have h17 : ¬ ((7 : ℕ) = 1) := by decide
  have h76 : ¬ ((7 : ℕ) = 6) := by decide
  simp only [adjustHighLatTime, TimeFajr, TimeMaghrib, TimeIsha, f0, if_true, h17, h76,
    if_false]
  by_cases hcond : (F64.lt (times.idx 7) (fin 1)
      || F64.gt (timeDiff (times.idx TimeSunset) (times.idx 7))
          (nightPortion cfg (sunAngle cfg.Convention AngleIsha)
            * timeDiff (times.idx TimeSunset) (times.idx TimeSunrise))) = true
  · left
    rw [if_pos hcond]
  · right
    rw [if_neg hcond]
    rw [Bool.or_eq_true, not_or] at hcond
    exact ⟨rfl, by simpa using hcond.1, by simpa using hcond.2⟩

/-! ## The divisor of the hour angle -/

theorem taxicab_sinBounded : taxicabHost.sinBounded := fun _ => triangle_bounded _

theorem taxicab_asinRange : taxicabHost.asinRange := linear_asinRange

theorem taxicab_cosPositiveClosed : taxicabHost.cosPositiveClosed := by
  intro x h0 h1
  have hp : piValue < 22 / 7 := by norm_num [piValue]
  have hq := piValue_pos
  show 0 < triangle (x / (11 / 7) + 1)
  rw [triangle_half _ (by rw [le_div_iff₀ (by norm_num)] at *; linarith)
    (by
      have : x / (11 / 7) ≤ 1 := by
        rw [div_le_iff₀ (by norm_num)]; linarith
      linarith)]
  have e : x / (11 / 7) + 1 - 1 = x / (11 / 7) := by ring
  rw [e]
  have : |x / (11 / 7)| < 1 := by
    rw [abs_lt]
    constructor
    · rw [lt_div_iff₀ (by norm_num)]; linarith
    · rw [div_lt_iff₀ (by norm_num)]; linarith
  linarith

/-- The declination is an arcsine, so it is within 90 degrees. -/
theorem declination_range (H : Host) (jd : ℚ) (hb : H.sinBounded) (has : H.asinRange) :
    ∃ d : ℚ, sunDeclination H (fin jd) = fin d ∧
      -(piValue / 2) ≤ d * piValue / 180 ∧ d * piValue / 180 ≤ piValue / 2 ∧ |d| ≤ 90 := by
  obtain ⟨l, hl⟩ := sunDeclination_fin H jd
  have hpi := piValue_pos
  set se : ℚ := H.sin (obliquity jd * piValue / 180) with hse
  set sl : ℚ := H.sin (l * piValue / 180) with hsl
  have hse0 := (hb (obliquity jd * piValue / 180)).1
  have hse1 := (hb (obliquity jd * piValue / 180)).2
  have hsl0 := (hb (l * piValue / 180)).1
  have hsl1 := (hb (l * piValue / 180)).2
  rw [← hse] at hse0 hse1
  rw [← hsl] at hsl0 hsl1
  have hp0 : -1 ≤ se * sl := by nlinarith
  have hp1 : se * sl ≤ 1 := by nlinarith
  have hr : ¬ (se * sl < -1 ∨ se * sl > 1) := by
    push_neg; exact ⟨hp0, hp1⟩
  have hA := has (se * sl) hp0 hp1
  have e : H.asin (se * sl) * 180 / piValue * piValue / 180 = H.asin (se * sl) := by
    field_simp
  refine ⟨H.asin (se * sl) * 180 / piValue, ?_, ?_, ?_, ?_⟩
  · rw [hl]
    simp only [degreeArcsin, Host.Asin_fin, hr, if_false, radiansToDegrees_fin]
  · rw [e]; exact hA.1
  · rw [e]; exact hA.2
  · rw [abs_le]
    constructor
    · rw [le_div_iff₀ hpi]
      nlinarith [hA.1]
    · rw [div_le_iff₀ hpi]
      nlinarith [hA.2]

/-! ## The order of the two events of an angle -/

/-- A finite event comes from a finite declination. -/
theorem computeTime_declination (H : Host) (G t jDay lat : F64) (u : ℚ)
    (hu : computeTime H G t jDay lat = fin u) :
    ∃ d : ℚ, sunDeclination H (jDay + t) = fin d := by
  cases hd : sunDeclination H (jDay + t) with
  | fin d => exact ⟨d, rfl⟩
  | nan =>
    exfalso
    unfold computeTime at hu
    simp only [hd] at hu
    simp [degreeToSin, degreeToCos, degreesToRadians, Host.Sin, Host.Cos, degreeArccos,
      radiansToDegrees] at hu

/-- A finite event is the midday less the hour angle when `G > 90` and the midday plus the
hour angle otherwise, and the hour angle is not negative when the arccosine is not. -/
theorem computeTime_side (H : Host) (G t jDay lat u z : ℚ) (hnn : H.acosNonneg)
    (hz : computeMidday H (fin t) (fin jDay) = fin z)
    (hu : computeTime H (fin G) (fin t) (fin jDay) (fin lat) = fin u) :
    (90 < G → u ≤ z) ∧ (¬ 90 < G → z ≤ u) := by
  obtain ⟨d, hd⟩ := computeTime_declination H _ _ _ _ u hu
  have hpi := piValue_pos
  rw [computeTime_fin H G t jDay lat d z hd hz] at hu
  by_cases hm : H.cos (d * piValue / 180) * H.cos (lat * piValue / 180) = 0
  · rw [if_pos hm] at hu
    exact absurd hu (by simp)
  rw [if_neg hm] at hu
  set x : ℚ := (-H.sin (G * piValue / 180)
      - H.sin (d * piValue / 180) * H.sin (lat * piValue / 180))
    / (H.cos (d * piValue / 180) * H.cos (lat * piValue / 180)) with hx
  by_cases hr : x < -1 ∨ x > 1
  · rw [if_pos hr] at hu
    exact absurd hu (by simp)
  rw [if_neg hr] at hu
  push_neg at hr
  have hV := hnn x hr.1 hr.2
  have hV2 : 0 ≤ H.acos x * 180 / piValue / 15 := by positivity
  constructor
  · intro hG
    rw [if_pos hG] at hu
    injection hu with hu
    linarith
  · intro hG
    rw [if_neg hG] at hu
    injection hu with hu
    linarith

/-! ## The reference fixture over rounded float64 -/

/-- The seven solves do not read the tuning offsets. -/
theorem IEEE.solved_offsets (H : Host) (cfg : IEEE.Config) (o : Fin 9 → B64) :
    IEEE.computeTimes.solved H { cfg with Offsets := o } = IEEE.computeTimes.solved H cfg := rfl

/-- The seven solves of the reference fixture on `sydneyHost`. -/
theorem IEEE.sydney_solved_zero :
    IEEE.computeTimes.solved sydneyHost (IEEE.sydneyConfig (fun _ => B64.fin 0))
      = IEEE.sydneySolved := by
  decide!

/-- The seven solves of the reference fixture on `sydneyHost`, whatever the tuning
offsets. -/
theorem IEEE.sydney_solved (offsets : Fin 9 → B64) :
    IEEE.computeTimes.solved sydneyHost (IEEE.sydneyConfig offsets) = IEEE.sydneySolved := by
  rw [← IEEE.sydney_solved_zero]
  exact IEEE.solved_offsets sydneyHost (IEEE.sydneyConfig (fun _ => B64.fin 0)) offsets

/-- `Custom` at the arguments of the reference fixture on `sydneyHost` is the formatting
of the finished array of the solved times, with `tzOffset = 10`. -/
theorem IEEE.sydney_custom (offsets : Fin 9 → B64) :
    IEEE.Custom sydneyHost ConventionJafari 0 AsrFactorStandard HighlatMethodAngleBased
      (B64.lit (-33.8688)) (B64.lit 151.2093) ⟨1981, 10, 14⟩ "Australia/Sydney" offsets
    = IEEE.computeTimes.format
        (IEEE.computeTimes.finish (IEEE.sydneyConfig offsets) (B64.fin 10) IEEE.sydneySolved) := by
  rw [← IEEE.sydney_solved offsets]
  have h : IEEE.tzOffset 36000 = B64.fin 10 := by decide!
  rw [← h]
  rfl

/-- The upper bound `Sunset + 12` of Midnight is reached: with convention MWL, a solved
Sunset of 18h and a solved Sunrise one `float64` below 18h (all tuning offsets, the zone
offset and the longitude 0), `timeDiff(Sunset, Sunrise)` is `23.999999999999996` and the
working Midnight is 30, so `Midnight < Sunset + 12` is false. -/
theorem IEEE.midnight_reaches_bound :
    let W := IEEE.computeTimes.finish
      (IEEE.plainConfig ConventionMWL HighlatMethodNone (fun _ => B64.fin 0)) (B64.fin 0)
      [B64.fin 5, B64.fin 5, B64.lit 17.999999999999996, B64.fin 12, B64.fin 15, B64.fin 18,
        B64.fin 18, B64.fin 19, B64.fin 19]
    W.idx TimeSunset = B64.fin 18 ∧ W.idx TimeSunrise = B64.fin (dbl 5066549580791807 (-48)) ∧
    W.idx TimeMidnight = B64.fin 30 ∧
    B64.lt (W.idx TimeMidnight) (W.idx TimeSunset + B64.fin 12) = false := by
  decide!

/-- The `float64` value of `math.Pi` is the constant of package `math`, rounded. -/
theorem IEEE.Pi_rounded : IEEE.Pi = B64.lit IEEE.piDigits := by decide!

/-! ## The two events of the Fajr angle of the reference fixture -/

/-- The Julian date of the reference fixture, moved by the longitude. -/
theorem IEEE.sydney_jDay :
    IEEE.julianDate (B64.fin 1981) (B64.fin 10) (B64.fin 14) - B64.lit 151.2093 / B64.fin 360
      = B64.lit 2444891.5799741666 := by
  decide!

/-- The morning event at depression angle 16, on `twilightHost`. -/
theorem IEEE.twilight_morning :
    IEEE.computeTime twilightHost (B64.fin 180 - B64.fin 16) (IEEE.dayPortion (B64.fin 5))
      (B64.lit 2444891.5799741666) (B64.lit (-33.8688)) = B64.lit 4.064480689741125 := by
  decide!

/-- The evening event at depression angle 16, on `twilightHost`. -/
theorem IEEE.twilight_evening :
    IEEE.computeTime twilightHost (B64.fin 16) (IEEE.dayPortion (B64.fin 5))
      (B64.lit 2444891.5799741666) (B64.lit (-33.8688)) = B64.lit 19.471392145922085 := by
  decide!

/-- The midday of the same day fraction, on `twilightHost`. -/
theorem IEEE.twilight_midday :
    IEEE.computeMidday twilightHost (IEEE.dayPortion (B64.fin 5)) (B64.lit 2444891.5799741666)
      = B64.lit 11.767936417831606 := by
  decide!

/-! ## Rounding to float64: the error of one operation -/

namespace B64

theorem log2Width_spec (fuel w n : ℕ) (h : n < 2 ^ (w * 2 ^ fuel)) :
    n < 2 ^ log2Width fuel w n := by
  induction fuel generalizing w with
  | zero => simpa [log2Width] using h
  | succ fuel ih =>
    unfold log2Width
    split_ifs with hw
    · exact hw
    · apply ih
      have e : 2 * w * 2 ^ fuel = w * 2 ^ (fuel + 1) := by ring
      rw [e]
      exact h

theorem log2Width_pos (fuel w n : ℕ) (hw : 1 ≤ w) : 1 ≤ log2Width fuel w n := by
  induction fuel generalizing w with
  | zero => simpa [log2Width] using hw
  | succ fuel ih =>
    unfold log2Width
    split_ifs
    · exact hw
    · exact ih _ (by omega)

theorem log2Search_spec (fuel lo w n : ℕ) (hw : 1 ≤ w) (hf : w ≤ fuel)
    (h0 : 2 ^ lo ≤ n) (h1 : n < 2 ^ (lo + w)) :
    2 ^ log2Search fuel lo w n ≤ n ∧ n < 2 ^ (log2Search fuel lo w n + 1) := by
  induction fuel generalizing lo w with
  | zero => omega
  | succ fuel ih =>
    unfold log2Search
    split_ifs with hw1 hm
    · have : w = 1 := by omega
      subst this
      exact ⟨h0, h1⟩
    · apply ih _ _ (by omega) (by omega) hm
      have e : lo + w / 2 + (w - w / 2) = lo + w := by omega
      rw [e]
      exact h1
    · exact ih _ _ (by omega) (by omega) h0 (by omega)

/-- The binary logarithm of a positive natural number. -/
theorem log2_spec (n : ℕ) (hn : 1 ≤ n) : 2 ^ log2 n ≤ n ∧ n < 2 ^ (log2 n + 1) := by
  unfold log2
  apply log2Search_spec _ _ _ _ (log2Width_pos _ _ _ le_rfl) le_rfl (by simpa using hn)
  rw [zero_add]
  apply log2Width_spec
  rw [one_mul]
  calc n < 2 ^ n := Nat.lt_two_pow n
    _ ≤ 2 ^ 2 ^ n := Nat.pow_le_pow_right (by norm_num) (Nat.lt_two_pow n).le

end B64

namespace B64

theorem pow2_eq (e : ℤ) : pow2 e = (2 : ℚ) ^ e := by
  unfold pow2
  split_ifs with h
  · obtain ⟨k, rfl⟩ := Int.eq_ofNat_of_zero_le h
    simp
  · push_neg at h
    obtain ⟨k, hk⟩ := Int.eq_ofNat_of_zero_le (by omega : 0 ≤ -e)
    have e' : e = -(k : ℤ) := by omega
    subst e'
    simp [zpow_neg]

theorem pow2_pos (e : ℤ) : 0 < pow2 e := by
  rw [pow2_eq]; positivity

theorem pow2_mono (a b : ℤ) (h : a ≤ b) : pow2 a ≤ pow2 b := by
  rw [pow2_eq, pow2_eq]
  exact zpow_le_zpow_right₀ (by norm_num) h

theorem pow2_add (a b : ℤ) : pow2 (a + b) = pow2 a * pow2 b := by
  rw [pow2_eq, pow2_eq, pow2_eq, zpow_add₀ (by norm_num)]

/-- The exponent of a positive fraction is not above its binary logarithm. -/
theorem exponent_le (n d : ℕ) (hn : 1 ≤ n) (hd : 1 ≤ d) :
    pow2 (exponent n d) ≤ (n : ℚ) / d := by
  obtain ⟨ha0, ha1⟩ := log2_spec n hn
  obtain ⟨hb0, hb1⟩ := log2_spec d hd
  have hdq : (0 : ℚ) < d := by exact_mod_cast hd
  rw [le_div_iff₀ hdq, pow2_eq]
  unfold exponent
  simp only []
  set a := log2 n
  set b := log2 d
  have hnq : ((2 : ℚ) ^ a) ≤ n := by exact_mod_cast ha0
  have hdq1 : (d : ℚ) < (2 : ℚ) ^ (b + 1) := by exact_mod_cast hb1
  have hsmall : (2 : ℚ) ^ ((a : ℤ) - (b : ℤ) - 1) * d ≤ n := by
    have e : ((a : ℤ) - (b : ℤ) - 1) = (a : ℤ) - ((b + 1 : ℕ) : ℤ) := by push_cast; ring
    rw [e, zpow_sub₀ (by norm_num), zpow_natCast, zpow_natCast]
    rw [div_mul_eq_mul_div, div_le_iff₀ (by positivity)]
    have : (2 : ℚ) ^ a * d ≤ (2 : ℚ) ^ a * 2 ^ (b + 1) :=
      mul_le_mul_of_nonneg_left hdq1.le (by positivity)
    have h2 : (0 : ℚ) ≤ 2 ^ (b + 1) := by positivity
    nlinarith
  by_cases h0 : (0 : ℤ) ≤ (a : ℤ) - (b : ℤ)
  · simp only [h0, if_true]
    obtain ⟨k, hk⟩ := Int.eq_ofNat_of_zero_le h0
    by_cases hc : n < d * 2 ^ ((a : ℤ) - (b : ℤ)).toNat
    · rw [if_pos hc]
      exact hsmall
    · rw [if_neg hc]
      rw [hk] at hc ⊢
      simp only [Int.toNat_ofNat] at hc
      push_neg at hc
      rw [zpow_natCast]
      have : ((d * 2 ^ k : ℕ) : ℚ) ≤ n := by exact_mod_cast hc
      push_cast at this
      linarith
  · simp only [h0, if_false]
    by_cases hc : n * 2 ^ (-((a : ℤ) - (b : ℤ))).toNat < d
    · rw [if_pos hc]
      exact hsmall
    · rw [if_neg hc]
      push_neg at hc h0
      obtain ⟨k, hk⟩ := Int.eq_ofNat_of_zero_le (by omega : (0 : ℤ) ≤ -((a : ℤ) - (b : ℤ)))
      have e : (a : ℤ) - (b : ℤ) = -(k : ℤ) := by omega
      rw [hk] at hc
      simp only [Int.toNat_ofNat] at hc
      rw [e, zpow_neg, zpow_natCast]
      have : ((d : ℕ) : ℚ) ≤ ((n * 2 ^ k : ℕ) : ℚ) := by exact_mod_cast hc
      push_cast at this
      rw [inv_mul_le_iff₀ (by positivity)]
      linarith

end B64

namespace B64

theorem pow2_natCast (k : ℕ) : pow2 (k : ℤ) = 2 ^ k := by
  rw [pow2_eq, zpow_natCast]

theorem pow2_neg_natCast (k : ℕ) : pow2 (-(k : ℤ)) = 1 / 2 ^ k := by
  rw [pow2_eq, zpow_neg, zpow_natCast, one_div]

theorem pow2_neg_one : pow2 (-1) = 1 / 2 := by
  have h := pow2_neg_natCast 1
  simpa using h

theorem pow2_zero : pow2 0 = 1 := by
  have h := pow2_natCast 0
  simpa using h

/-- The nearest integer to a fraction `N / D`, as `roundAt` chooses it. -/
theorem nearest_multiple (N D : ℕ) (hD : 0 < D) :
    |(((if 2 * (N % D) < D then N / D else if D < 2 * (N % D) then N / D + 1
        else if N / D % 2 = 0 then N / D else N / D + 1 : ℕ) : ℚ)) * D - N| ≤ (D : ℚ) / 2 := by
  have hdm : (N : ℚ) = D * (N / D : ℕ) + (N % D : ℕ) := by
    exact_mod_cast (Nat.div_add_mod N D).symm
  have hr : (N % D : ℕ) < D := Nat.mod_lt N hD
  generalize N / D = f at hdm ⊢
  generalize N % D = r at hdm hr ⊢
  have hrq : (r : ℚ) < D := by exact_mod_cast hr
  have hr0 : (0 : ℚ) ≤ r := by positivity
  rw [hdm, abs_le]
  by_cases c1 : 2 * r < D
  · have c1q : (2 : ℚ) * r < D := by exact_mod_cast c1
    simp only [c1, if_true]
    constructor <;> nlinarith
  · simp only [c1, if_false]
    by_cases c2 : D < 2 * r
    · have c2q : (D : ℚ) < 2 * r := by exact_mod_cast c2
      simp only [c2, if_true]
      push_cast
      constructor <;> nlinarith
    · simp only [c2, if_false]
      have c3 : 2 * r = D := by omega
      have c3q : (2 : ℚ) * r = D := by exact_mod_cast c3
      split_ifs
      · constructor <;> nlinarith
      · push_cast
        constructor <;> nlinarith

/-- Rounding to a multiple of `2 ^ e`: the value returned is within half of `2 ^ e` of the
exact result. -/
theorem roundAt_near (q : ℚ) (e : ℤ) (hq : |q| ≤ 2 ^ 100) (he : pow2 e ≤ 2 ^ 100) :
    ∃ v : ℚ, roundAt q e = fin v ∧ |v - q| ≤ pow2 e / 2 := by
  have hd : 1 ≤ q.den := q.pos
  have habs : |q| = (q.num.natAbs : ℚ) / (q.den : ℚ) := by
    rw [Rat.abs_def, Rat.divInt_eq_div]
    simp [Nat.cast_natAbs]
  have hpe := pow2_pos e
  unfold roundAt
  simp only []
  generalize q.num.natAbs = n at habs ⊢
  generalize q.den = d at habs hd ⊢
  obtain ⟨N, hN⟩ : ∃ N : ℕ, N = if e ≤ 0 then n * 2 ^ (-e).toNat else n := ⟨_, rfl⟩
  obtain ⟨D, hD⟩ : ∃ D : ℕ, D = if e ≤ 0 then d else d * 2 ^ e.toNat := ⟨_, rfl⟩
  rw [← hN, ← hD]
  have hDpos : 0 < D := by
    rw [hD]
    split_ifs
    · exact hd
    · positivity
  have hDq : (0 : ℚ) < D := by exact_mod_cast hDpos
  have hs : (N : ℚ) / D = |q| / pow2 e := by
    rw [habs, hN, hD, pow2_eq]
    by_cases h0 : e ≤ 0
    · simp only [h0, if_true]
      obtain ⟨k, hk⟩ := Int.eq_ofNat_of_zero_le (by omega : (0 : ℤ) ≤ -e)
      have e' : e = -(k : ℤ) := by omega
      rw [hk, e']
      simp only [Int.toNat_ofNat, zpow_neg, zpow_natCast]
      push_cast
      have hdq : (d : ℚ) ≠ 0 := by positivity
      field_simp
    · simp only [h0, if_false]
      obtain ⟨k, hk⟩ := Int.eq_ofNat_of_zero_le (by omega : (0 : ℤ) ≤ e)
      rw [hk]
      simp only [Int.toNat_ofNat, zpow_natCast]
      push_cast
      have hdq : (d : ℚ) ≠ 0 := by positivity
      field_simp
  have hmD := nearest_multiple N D hDpos
  generalize (if 2 * (N % D) < D then N / D else if D < 2 * (N % D) then N / D + 1
      else if N / D % 2 = 0 then N / D else N / D + 1 : ℕ) = m at hmD ⊢
  obtain ⟨a, ha⟩ : ∃ a : ℚ, a = |q| := ⟨_, rfl⟩
  rw [← ha] at hs hq
  have hms : |(m : ℚ) - a / pow2 e| ≤ 1 / 2 := by
    rw [← hs]
    have e1 : (m : ℚ) - N / D = ((m : ℚ) * D - N) / D := by field_simp
    rw [e1, abs_div, abs_of_pos hDq, div_le_iff₀ hDq]
    linarith
  have hv : |(m : ℚ) * pow2 e - a| ≤ pow2 e / 2 := by
    have e1 : (m : ℚ) * pow2 e - a = ((m : ℚ) - a / pow2 e) * pow2 e := by field_simp
    rw [e1, abs_mul, abs_of_pos hpe]
    nlinarith
  have hv2 := abs_le.mp hv
  have hbig : ¬ pow2 1024 ≤ (m : ℚ) * pow2 e := by
    have h3 : (2 : ℚ) ^ 102 ≤ pow2 1024 := by
      have h := pow2_mono 102 1024 (by norm_num)
      have h0 : pow2 ((102 : ℕ) : ℤ) = 2 ^ 102 := pow2_natCast 102
      rw [Nat.cast_ofNat] at h0
      rw [h0] at h
      exact h
    have h5 : (2 : ℚ) ^ 100 + 2 ^ 100 < 2 ^ 102 := by norm_num
    have h6 := hv2.2
    generalize pow2 1024 = P at h3 ⊢
    generalize pow2 e = p at he h6 ⊢
    intro hc
    linarith
  rw [ha] at hv
  rw [if_neg hbig]
  refine ⟨_, rfl, ?_⟩
  by_cases hneg : q < 0
  · rw [if_pos hneg]
    have : |q| = -q := abs_of_neg hneg
    rw [this] at hv
    have e1 : -((m : ℚ) * pow2 e) - q = -((m : ℚ) * pow2 e - -q) := by ring
    rw [e1, abs_neg]
    exact hv
  · rw [if_neg hneg]
    have : |q| = q := abs_of_nonneg (not_lt.mp hneg)
    rw [this] at hv
    exact hv

/-- Rounding to the nearest `float64`: the value returned is within half a unit in the
last place of the exact result. -/
theorem round_near (q : ℚ) (hq : |q| ≤ 2 ^ 100) :
    ∃ v : ℚ, round q = fin v ∧ |v - q| ≤ |q| / 2 ^ 53 + pow2 (-1075) := by
  by_cases hq0 : q = 0
  · refine ⟨0, by simp [round, hq0], ?_⟩
    rw [hq0]
    have := pow2_pos (-1075)
    simp
    exact this.le
  have hn : 1 ≤ q.num.natAbs := by
    have : q.num ≠ 0 := by rwa [Ne, Rat.num_eq_zero]
    omega
  have hd : 1 ≤ q.den := q.pos
  have habs : |q| = (q.num.natAbs : ℚ) / (q.den : ℚ) := by
    rw [Rat.abs_def, Rat.divInt_eq_div]
    simp [Nat.cast_natAbs]
  have hE := exponent_le q.num.natAbs q.den hn hd
  rw [← habs] at hE
  unfold round
  rw [if_neg hq0]
  generalize exponent q.num.natAbs q.den = E at hE ⊢
  have h1075 : pow2 (-1075) = pow2 (-1074) / 2 := by
    have h := pow2_add (-1074) (-1)
    have e2 : (-1074 : ℤ) + -1 = -1075 := by norm_num
    rw [e2, pow2_neg_one] at h
    rw [h]; ring
  have h52 : pow2 (E - 52) = pow2 E / 2 ^ 52 := by
    have h := pow2_add E (-52)
    have h1 : pow2 (-((52 : ℕ) : ℤ)) = 1 / 2 ^ 52 := pow2_neg_natCast 52
    rw [Nat.cast_ofNat] at h1
    rw [h1] at h
    rw [sub_eq_add_neg, h]; ring
  have hq' : 0 ≤ |q| := abs_nonneg q
  have hp1 := pow2_pos (-1074)
  have hp2 := pow2_pos (-1075)
  have hp3 := pow2_pos E
  have hsmall : pow2 (-1074) ≤ 1 := by
    have := pow2_mono (-1074) 0 (by norm_num)
    rwa [pow2_zero] at this
  have hone : (1 : ℚ) ≤ 2 ^ 100 := by norm_num
  rcases le_total (E - 52) (-1074) with h | h
  · rw [max_eq_right h]
    obtain ⟨v, hv, hve⟩ := roundAt_near q (-1074) hq (hsmall.trans hone)
    refine ⟨v, hv, ?_⟩
    have h7 : 0 ≤ |q| / 2 ^ 53 := div_nonneg hq' (by norm_num)
    generalize pow2 (-1074) = p at hve h1075
    generalize pow2 (-1075) = p2 at h1075 ⊢
    linarith
  · rw [max_eq_left h]
    have hle : pow2 (E - 52) ≤ |q| / 2 ^ 52 := by
      rw [h52]
      exact div_le_div_of_nonneg_right hE (by positivity)
    have h8 : |q| / 2 ^ 52 ≤ |q| := div_le_self hq' (by norm_num)
    obtain ⟨v, hv, hve⟩ := roundAt_near q (E - 52) hq ((hle.trans h8).trans hq)
    refine ⟨v, hv, ?_⟩
    have h9 : |q| / 2 ^ 52 / 2 = |q| / 2 ^ 53 := by
      rw [div_div]; norm_num
    generalize pow2 (E - 52) = p at hve hle ⊢
    generalize pow2 (-1075) = p2 at hp2 ⊢
    linarith

/-- Rounding of a result of magnitude at most `B`, for `2 ^ -100 ≤ B ≤ 2 ^ 100`: the value
returned is within `B / 2 ^ 52` of the exact result. -/
theorem round_within (q B : ℚ) (hq : |q| ≤ B) (h0 : 1 / 2 ^ 100 ≤ B) (h1 : B ≤ 2 ^ 100) :
    ∃ v : ℚ, round q = fin v ∧ |v - q| ≤ B / 2 ^ 52 := by
  obtain ⟨v, hv, he⟩ := round_near q (hq.trans h1)
  refine ⟨v, hv, ?_⟩
  have h2 : pow2 (-1075) ≤ 1 / 2 ^ 153 := by
    have h := pow2_mono (-1075) (-153) (by norm_num)
    have e : pow2 (-((153 : ℕ) : ℤ)) = 1 / 2 ^ 153 := pow2_neg_natCast 153
    rw [Nat.cast_ofNat] at e
    rw [e] at h
    exact h
  have h3 : |q| / 2 ^ 53 ≤ B / 2 ^ 53 := div_le_div_of_nonneg_right hq (by positivity)
  have h4 : (1 : ℚ) / 2 ^ 153 ≤ B / 2 ^ 53 := by
    rw [div_le_div_iff₀ (by positivity) (by positivity)]
    have : (1 : ℚ) / 2 ^ 100 * 2 ^ 153 ≤ B * 2 ^ 153 :=
      mul_le_mul_of_nonneg_right h0 (by positivity)
    have e : (1 : ℚ) / 2 ^ 100 * 2 ^ 153 = 2 ^ 53 := by norm_num
    linarith
  have h5 : B / 2 ^ 53 + B / 2 ^ 53 = B / 2 ^ 52 := by
    field_simp
    ring
  generalize pow2 (-1075) = p at he h2
  linarith

end B64

namespace B64

theorem add_rounded (a b : ℚ) : fin a + fin b = round (a + b) := rfl

theorem sub_rounded (a b : ℚ) : fin a - fin b = round (a + -b) := rfl

theorem mul_rounded (a b : ℚ) : fin a * fin b = round (a * b) := rfl

theorem div_rounded (a b : ℚ) (hb : b ≠ 0) : fin a / fin b = round (a / b) := by
  show div (fin a) (fin b) = _
  simp [div, hb]

theorem floor_value (a : ℚ) : floor (fin a) = fin ((⌊a⌋ : ℤ) : ℚ) := rfl

theorem lt_value (a b : ℚ) : lt (fin a) (fin b) = decide (a < b) := rfl

end B64

namespace IEEE

/-- The conversion to hours and minutes, in `float64` arithmetic, of a time of magnitude
at most 10000 hours whose minute count `60 t + 1/2` lies between `M + 10⁻⁶` and
`M + 1 - 10⁻⁶` for an integer `M`: the pair returned is the minute `M mod 1440` of the
day, as hours and minutes. -/
theorem convert_of_minute (t : ℚ) (M : ℤ) (ht : |t| ≤ 10000)
    (hlo : (M : ℚ) + 1 / 10 ^ 6 ≤ 60 * t + 1 / 2)
    (hhi : 60 * t + 1 / 2 ≤ (M : ℚ) + 1 - 1 / 10 ^ 6) :
    convertToHoursMinutes (B64.fin t)
      = (B64.fin ((M % 1440 / 60 : ℤ) : ℚ), B64.fin ((M % 1440 % 60 : ℤ) : ℚ)) := by
  rw [abs_le] at ht
  -- the integers of the statement
  have hK : M = 1440 * (M / 1440) + M % 1440 := by omega
  have hM0 : 0 ≤ M % 1440 := by omega
  have hM1 : M % 1440 ≤ 1439 := by omega
  have hh : M % 1440 = 60 * (M % 1440 / 60) + M % 1440 % 60 := by omega
  have hm0 : 0 ≤ M % 1440 % 60 := by omega
  have hm1 : M % 1440 % 60 ≤ 59 := by omega
  have hh0 : 0 ≤ M % 1440 / 60 := by omega
  have hh1 : M % 1440 / 60 ≤ 23 := by omega
  generalize M / 1440 = K at hK
  generalize M % 1440 = M' at hK hM0 hM1 hh hm0 hm1 hh0 hh1 ⊢
  generalize M' / 60 = h at hh hh0 hh1 ⊢
  generalize M' % 60 = m at hh hm0 hm1 ⊢
  have hKq : (M : ℚ) = 1440 * (K : ℚ) + (M' : ℚ) := by exact_mod_cast hK
  have hhq : (M' : ℚ) = 60 * (h : ℚ) + (m : ℚ) := by exact_mod_cast hh
  have hM0q : (0 : ℚ) ≤ (M' : ℚ) := by exact_mod_cast hM0
  have hM1q : (M' : ℚ) ≤ 1439 := by exact_mod_cast hM1
  have hm0q : (0 : ℚ) ≤ (m : ℚ) := by exact_mod_cast hm0
  have hm1q : (m : ℚ) ≤ 59 := by exact_mod_cast hm1
  have hh0q : (0 : ℚ) ≤ (h : ℚ) := by exact_mod_cast hh0
  have hh1q : (h : ℚ) ≤ 23 := by exact_mod_cast hh1
  -- the half minute
  obtain ⟨c, hc, ec⟩ := B64.round_within (0.5 / 60) 1 (by norm_num [abs_le]) (by norm_num)
    (by norm_num)
  have ec0 : (0.5 / 60 : ℚ) = 1 / 120 := by norm_num
  rw [ec0, abs_le] at ec
  norm_num at ec
  -- the sum
  obtain ⟨s, hs, es⟩ := B64.round_within (t + c) 16384
    (by rw [abs_le]; constructor <;> linarith [ec.1, ec.2]) (by norm_num) (by norm_num)
  rw [abs_le] at es
  norm_num at es
  -- the quotient by 24 and its floor
  obtain ⟨q, hq, eq⟩ := B64.round_within (s / 24) 1024
    (by rw [abs_le]; constructor <;> linarith [es.1, es.2, ec.1, ec.2]) (by norm_num)
    (by norm_num)
  rw [abs_le] at eq
  norm_num at eq
  have hfq : ⌊q⌋ = K := by
    rw [Int.floor_eq_iff]
    constructor <;> linarith [es.1, es.2, ec.1, ec.2, eq.1, eq.2]
  -- the product and the difference
  obtain ⟨p, hp, ep⟩ := B64.round_within (24 * (K : ℚ)) 16384
    (by rw [abs_le]; constructor <;> linarith) (by norm_num) (by norm_num)
  rw [abs_le] at ep
  norm_num at ep
  obtain ⟨a, ha, ea⟩ := B64.round_within (s + -p) 32
    (by rw [abs_le]; constructor <;> linarith [es.1, es.2, ec.1, ec.2, ep.1, ep.2])
    (by norm_num) (by norm_num)
  rw [abs_le] at ea
  norm_num at ea
  have ha0 : ¬ a < 0 := by
    rw [not_lt]
    linarith [es.1, es.2, ec.1, ec.2, ep.1, ep.2, ea.1, ea.2]
  -- the hours
  have hfa : ⌊a⌋ = h := by
    rw [Int.floor_eq_iff]
    constructor <;> linarith [es.1, es.2, ec.1, ec.2, ep.1, ep.2, ea.1, ea.2]
  -- the minutes
  obtain ⟨d, hd, ed⟩ := B64.round_within (a + -(h : ℚ)) 1
    (by rw [abs_le]; constructor <;> linarith [es.1, es.2, ec.1, ec.2, ep.1, ep.2, ea.1, ea.2])
    (by norm_num) (by norm_num)
  rw [abs_le] at ed
  norm_num at ed
  obtain ⟨e, he, ee⟩ := B64.round_within (d * 60) 64
    (by rw [abs_le]
        constructor <;>
          linarith [es.1, es.2, ec.1, ec.2, ep.1, ep.2, ea.1, ea.2, ed.1, ed.2])
    (by norm_num) (by norm_num)
  rw [abs_le] at ee
  norm_num at ee
  have hfe : ⌊e⌋ = m := by
    rw [Int.floor_eq_iff]
    constructor <;>
      linarith [es.1, es.2, ec.1, ec.2, ep.1, ep.2, ea.1, ea.2, ed.1, ed.2, ee.1, ee.2]
  simp only [convertToHoursMinutes, fixHour, B64.lit, hc, B64.add_rounded, hs,
    B64.div_rounded s 24 (by norm_num), hq, B64.floor_value, hfq, B64.mul_rounded, hp,
    B64.sub_rounded, ha, B64.lt_value, ha0, decide_False, Bool.false_eq_true, if_false, hfa, hd, he, hfe]

end IEEE

/-! ## The claims -/

/-- Claim C1 fails on the code: `convertToHoursMinutes` returns the hour 24.  At
`t = -0.008333333333333335` (the `float64` just below `-0.5/60`) the sum `t + 0.5/60` is
`-1.7e-18`; `fixHour` adds 24 to it and the sum rounds to `24.0`, so the pair returned is
`(24, 0)`.  The same happens in a `Custom` call: for the reference fixture with the Fajr
tuning offset `-239.53164138446752` minutes, on `sydneyHost`, the Fajr field is `(24, 0)`. -/
theorem hour_24_returned :
    IEEE.convertToHoursMinutes (B64.lit (-0.008333333333333335)) = (B64.fin 24, B64.fin 0) ∧
    (IEEE.Custom sydneyHost ConventionJafari 0 AsrFactorStandard HighlatMethodAngleBased
      (B64.lit (-33.8688)) (B64.lit 151.2093) ⟨1981, 10, 14⟩ "Australia/Sydney"
      (IEEE.fajrOffset (B64.lit (-239.53164138446752)))).Fajr = ⟨B64.fin 24, B64.fin 0⟩ := by
  refine ⟨by decide!, ?_⟩
  rw [IEEE.sydney_custom]
  decide!

/-- Claim C2 fails on the code at values that are an exact half minute: `1.125` hours is
1h 7.5min and `8.375` hours is 8h 22.5min, for which the claim gives minute 68 and minute
503 of the day, and `convertToHoursMinutes` returns `(1, 7)` and `(8, 22)`, minutes 67 and
502.  The constant `0.5/60.0` is the `float64` below `1/120`, so the sum `t + 0.5/60` falls
short of the next minute. -/
theorem half_minute_rounds_down :
    IEEE.convertToHoursMinutes (B64.fin 1.125) = (B64.fin 1, B64.fin 7) ∧
    ⌊(60 : ℚ) * 1.125 + 1 / 2⌋ % 1440 = 68 ∧
    IEEE.convertToHoursMinutes (B64.fin 8.375) = (B64.fin 8, B64.fin 22) ∧
    ⌊(60 : ℚ) * 8.375 + 1 / 2⌋ % 1440 = 503 := by
  refine ⟨by decide!, by decide!, by decide!, by decide!⟩

/-- Claim C2, amended: away from the half minutes, `convertToHoursMinutes` rounds to the
nearest minute on the 24-hour clock, in `float64` arithmetic.  For a time `t` of magnitude
at most 10000 hours whose minute count `60 t + 1/2` has a fractional part between `10⁻⁶`
and `1 - 10⁻⁶`, the pair returned is a pair of integers `hours` in 0..23 and `minutes` in
0..59 with `60 * hours + minutes = ⌊60 t + 1/2⌋ mod 1440`. -/
theorem convert_nearest_minute (t : ℚ) (ht : |t| ≤ 10000)
    (hlo : 1 / 10 ^ 6 ≤ Int.fract (60 * t + 1 / 2))
    (hhi : Int.fract (60 * t + 1 / 2) ≤ 1 - 1 / 10 ^ 6) :
    ∃ hours minutes : ℤ,
      IEEE.convertToHoursMinutes (B64.fin t) = (B64.fin hours, B64.fin minutes) ∧
      0 ≤ hours ∧ hours ≤ 23 ∧ 0 ≤ minutes ∧ minutes ≤ 59 ∧
      60 * hours + minutes = ⌊60 * t + 1 / 2⌋ % 1440 := by
  rw [Int.fract] at hlo hhi
  refine ⟨⌊60 * t + 1 / 2⌋ % 1440 / 60, ⌊60 * t + 1 / 2⌋ % 1440 % 60,
    IEEE.convert_of_minute t ⌊60 * t + 1 / 2⌋ ht (by linarith) (by linarith), ?_⟩
  omega

/-- C2 (amended), an instance: 1.13 hours is 1h 7.8min, minute count 68.3, and the pair
returned is `(1, 8)`. -/
theorem convert_nearest_minute_witness :
    (|(113 / 100 : ℚ)| ≤ 10000 ∧
      1 / 10 ^ 6 ≤ Int.fract (60 * (113 / 100 : ℚ) + 1 / 2) ∧
      Int.fract (60 * (113 / 100 : ℚ) + 1 / 2) ≤ 1 - 1 / 10 ^ 6) ∧
    ∃ hours minutes : ℤ,
      IEEE.convertToHoursMinutes (B64.fin (113 / 100))
        = (B64.fin hours, B64.fin minutes) ∧
      0 ≤ hours ∧ hours ≤ 23 ∧ 0 ≤ minutes ∧ minutes ≤ 59 ∧
      60 * hours + minutes = ⌊60 * (113 / 100 : ℚ) + 1 / 2⌋ % 1440 :=
  ⟨⟨by decide!, by decide!, by decide!⟩,
    convert_nearest_minute (113 / 100) (by decide!) (by decide!) (by decide!)⟩

/-- Claim C3 fails on the code for the Midnight field.  For each of the eight fields
before Midnight, raising its tuning offset by `k` minutes shifts the value that is
formatted by exactly `k/60`.  The ninth offset never reaches the output: `tuneTimes` adds
it to the ninth entry and the midnight assignment that follows overwrites that entry, so
whatever the Midnight offset is set to, the working array and the formatted result are
unchanged.  With convention MWL, Sunrise 6h and Sunset 18h, Midnight is 24h with a
Midnight offset of 60 minutes, as it is with all offsets 0. -/
theorem midnight_offset_ignored :
    (∀ (H : Host) (cfg : Config) (i : Fin 8) (k : ℚ),
      (computeTimes.working H { cfg with
          Offsets := Function.update cfg.Offsets i.castSucc (cfg.Offsets i.castSucc + fin k)
        }).idx i.val
        = (computeTimes.working H cfg).idx i.val + fin (k / 60)) ∧
    (∀ (H : Host) (cfg : Config) (v : F64),
      computeTimes.working H { cfg with Offsets := Function.update cfg.Offsets 8 v }
        = computeTimes.working H cfg ∧
      computeTimes H { cfg with Offsets := Function.update cfg.Offsets 8 v }
        = computeTimes H cfg) ∧
    (computeTimes.finish exampleConfig (fin 0) exampleSolved).idx TimeMidnight = fin 24 ∧
    (computeTimes.finish { exampleConfig with
        Offsets := Function.update exampleConfig.Offsets 8 (fin 60) } (fin 0)
      exampleSolved).idx TimeMidnight = fin 24 := by
  refine ⟨fun H cfg i k => ?_, fun H cfg v => ?_, example_midnight.1, example_midnight_offset⟩
  · rw [working_idx _ _ _ i.isLt, working_idx _ _ _ i.isLt, adjusted_offsets]
    exact tuned_update _ _ i.castSucc k
  · have h : computeTimes.working H { cfg with Offsets := Function.update cfg.Offsets 8 v }
        = computeTimes.working H cfg := by
      rw [working_eq, working_eq]
      simp [adjusted_offsets, tuned, offsetAt, Function.update]
    exact ⟨h, by unfold computeTimes; rw [h]⟩

/-- Claim C4 fails on the code: an unsolvable Fajr or Isha stays `NaN`.  The solver
answers `NaN` unless the arccos argument is a finite value of `[-1, 1]`.  A `NaN` Fajr
passes the corrector and the tuning unchanged under every high-latitude method, because
both tests of the corrector (`times[TimeFajr] < 1` and the `timeDiff` comparison) are
false for `NaN`; a `NaN` Isha stays `NaN` unless the convention sets Isha by minutes after
Maghrib.  So in the working array of `computeTimes`, Fajr is `NaN` whenever the arccos
argument of its solve is not a finite value of `[-1, 1]`, and so is Isha for every
convention with an Isha angle. -/
theorem unsolvable_stays_nan :
    (∀ (H : Host) (G t jDay lat : F64),
      computeTime H G t jDay lat = nan ∨
        ∃ x : ℚ, computeTime.arg H G t jDay lat = fin x ∧ -1 ≤ x ∧ x ≤ 1) ∧
    (∀ (cfg : Config) (tz s0 s2 s3 s4 s5 s6 s7 s8 : F64),
      (computeTimes.finish cfg tz [s0, nan, s2, s3, s4, s5, s6, s7, s8]).idx TimeFajr = nan) ∧
    (∀ (cfg : Config) (tz s0 s1 s2 s3 s4 s5 s6 s8 : F64),
      (computeTimes.finish cfg tz [s0, s1, s2, s3, s4, s5, s6, nan, s8]).idx TimeIsha = nan ∨
        F64.eq (sunAngle cfg.Convention AngleNAN) (fin 1) = true) ∧
    (∀ (H : Host) (cfg : Config),
      (computeTimes.working H cfg).idx TimeFajr = nan ∨
        ∃ x : ℚ, computeTime.arg H (fin 180 - sunAngle cfg.Convention AngleFajr)
          (dayPortion (defaultTimes.idx TimeFajr)) (computeTimes.jDay cfg) cfg.Latitude
            = fin x ∧ -1 ≤ x ∧ x ≤ 1) ∧
    (∀ (H : Host) (cfg : Config),
      (computeTimes.working H cfg).idx TimeIsha = nan ∨
        F64.eq (sunAngle cfg.Convention AngleNAN) (fin 1) = true ∨
        ∃ x : ℚ, computeTime.arg H (sunAngle cfg.Convention AngleIsha)
          (dayPortion (defaultTimes.idx TimeIsha)) (computeTimes.jDay cfg) cfg.Latitude
            = fin x ∧ -1 ≤ x ∧ x ≤ 1) :=
  ⟨computeTime_unsolvable, finish_fajr_nan, finish_isha_nan, working_fajr_nan,
    working_isha_nan⟩

/-- Claim C5: `Custom` at the arguments of the reference fixture, over rounded `float64`
and on `sydneyHost` (the nearest `float64` to the value of each real function, zone offset
+10 h), returns Fajr 03:59, Sunrise 05:15, Dhuhr 11:41, Sunset 18:08 and Maghrib 18:23; the
other four fields are Imsak 03:49, Asr 15:18, Isha 19:14 and Midnight 23:03. -/
theorem reference_fixture :
    IEEE.Custom sydneyHost ConventionJafari 0 AsrFactorStandard HighlatMethodAngleBased
      (B64.lit (-33.8688)) (B64.lit 151.2093) ⟨1981, 10, 14⟩ "Australia/Sydney"
      (fun _ => B64.fin 0)
    = { Imsak := ⟨B64.fin 3, B64.fin 49⟩
        Fajr := ⟨B64.fin 3, B64.fin 59⟩
        Sunrise := ⟨B64.fin 5, B64.fin 15⟩
        Dhuhr := ⟨B64.fin 11, B64.fin 41⟩
        Asr := ⟨B64.fin 15, B64.fin 18⟩
        Sunset := ⟨B64.fin 18, B64.fin 8⟩
        Maghrib := ⟨B64.fin 18, B64.fin 23⟩
        Isha := ⟨B64.fin 19, B64.fin 14⟩
        Midnight := ⟨B64.fin 23, B64.fin 3⟩ } := by
  rw [IEEE.sydney_custom]
  decide!

/-- Claim C6 fails on the code: the offset in hours that `computeTimes` adds is the zone
offset truncated to whole hours.  For 19800 s (UTC+5:30) it is 5, not 5.5, and for
-12600 s (UTC-3:30) it is -3, not -3.5. -/
theorem tzOffset_truncates :
    tzOffset 19800 = fin 5 ∧ tzOffset 19800 ≠ fin (19800 / 3600) ∧
    tzOffset (-12600) = fin (-3) ∧ tzOffset (-12600) ≠ fin (-12600 / 3600) := by
  have h1 : tzOffset 19800 = fin 5 := by
    simp [tzOffset, F64.ofInt]; norm_num [Int.tdiv]
  have h2 : tzOffset (-12600) = fin (-3) := by
    simp [tzOffset, F64.ofInt]; norm_num [Int.tdiv]
  refine ⟨h1, ?_, h2, ?_⟩
  · rw [h1]; intro h; injection h with h; norm_num at h
  · rw [h2]; intro h; injection h with h; norm_num at h

/-- Claim C7: `julianDate` is the Julian Day Number of a Gregorian date:
`julianDate(2000, 1, 1) = 2451545`, and for every valid Gregorian date of year 1 or later
the day after it has the Julian date one greater (across month ends, year ends and the
end of February in leap, non-leap and century years alike). -/
theorem julianDate_day_number :
    julianDate (fin 2000) (fin 1) (fin 1) = fin 2451545 ∧
    ∀ d : GoDate, validDate d → julianDateOf (nextDate d) = julianDateOf d + fin 1 := by
  constructor
  · have h := julianDate_int 2000 1 1
    simp only [F64.ofInt] at h
    norm_num at h
    rw [h]
    norm_num [julianDay]
  · intro d hd
    unfold julianDateOf
    rw [julianDate_int, julianDate_int, julianDay_nextDate d hd]
    simp [F64.ofInt]

/-- Claim C7 at 29 February 2024, whose next day is 1 March 2024. -/
theorem julianDate_day_number_witness :
    validDate { Year := 2024, Month := 2, Day := 29 } ∧
    julianDateOf (nextDate { Year := 2024, Month := 2, Day := 29 })
      = julianDateOf { Year := 2024, Month := 2, Day := 29 } + fin 1 :=
  ⟨by norm_num [validDate, daysInMonth, isLeapYear],
   julianDate_day_number.2 _ (by norm_num [validDate, daysInMonth, isLeapYear])⟩

/-- Claim C8 fails on the code: the range reductions return their upper bound, and more
for large arguments.  `fixHour(-1e-18)` is `24.0` and `fixAngle(-1e-18)` is `360.0` (the
remainder is the argument itself, negative, and adding 24 or 360 rounds to 24 or 360);
`timeDiff(1e-18, 0)` is `24.0`; and `fixHour(2.6489891885312953e26)` is `34359738368`
(the product `24 * floor(a/24)` is rounded). -/
theorem range_reduction_reaches_bound :
    IEEE.fixHour (B64.lit (-1e-18)) = B64.fin 24 ∧
    IEEE.fixAngle (B64.lit (-1e-18)) = B64.fin 360 ∧
    IEEE.timeDiff (B64.lit 1e-18) (B64.fin 0) = B64.fin 24 ∧
    IEEE.fixHour (B64.lit 2.6489891885312953e26) = B64.fin 34359738368 := by
  refine ⟨by decide!, by decide!, by decide!, by decide!⟩

/-- Claim C9 as stated fails where Sunset has no solution: with all tuning offsets 0 and
the solved times of a polar day, Sunset and Midnight are both `NaN` and the comparison
`Sunset <= Midnight` is false. -/
theorem midnight_bound_fails_without_sunset :
    (∀ i, exampleConfig.Offsets i = fin 0) ∧
    F64.le ((computeTimes.finish exampleConfig (fin 0) polarSolved).idx TimeSunset)
      ((computeTimes.finish exampleConfig (fin 0) polarSolved).idx TimeMidnight) = false := by
  refine ⟨fun _ => rfl, ?_⟩
  rw [finish_of_adjusted _ _ _ _ _ _ _ _ _ _ _ _ polar_adjusted]
  simp [Slice.idx, TimeSunset, TimeMidnight, tuned]

/-- Claim C9, amended: for every configuration with all nine tuning offsets 0, every zone
offset and every nine solved times, the Sunset of the working array is the Sunset that
`adjustTimes` returned, the solved Sunset moved by `tzOffset - longitude/15`, and so for
the Fajr or Sunrise; Midnight is `Sunset + timeDiff(Sunset, Fajr)/2` for the Jafari
convention and `Sunset + timeDiff(Sunset, Sunrise)/2` for every other one; and whenever
that `timeDiff` is in `[0, 24]`, `Sunset <= Midnight <= Sunset + 12`. -/
theorem midnight_value (cfg : Config) (tz s0 s1 s2 s3 s4 s5 s6 s7 s8 : F64)
    (h0 : ∀ i, cfg.Offsets i = fin 0) :
    let A := adjustTimes cfg [s0, s1, s2, s3, s4, s5, s6, s7, s8] tz cfg.Longitude
    let W := computeTimes.finish cfg tz [s0, s1, s2, s3, s4, s5, s6, s7, s8]
    let X := if cfg.Convention = ConventionJafari then TimeFajr else TimeSunrise
    A.idx TimeSunset = s5 + (tz - cfg.Longitude / fin 15) ∧
    W.idx TimeSunset = A.idx TimeSunset ∧ W.idx X = A.idx X ∧
    W.idx TimeMidnight = W.idx TimeSunset + timeDiff (W.idx TimeSunset) (W.idx X) / fin 2 ∧
    (F64.le (fin 0) (timeDiff (W.idx TimeSunset) (W.idx X)) = true →
      F64.le (timeDiff (W.idx TimeSunset) (W.idx X)) (fin 24) = true →
      F64.le (W.idx TimeSunset) (W.idx TimeMidnight) = true ∧
      F64.le (W.idx TimeMidnight) (W.idx TimeSunset + fin 12) = true) := by
  intro A W X
  have hW : W = _ := finish_eq cfg tz [s0, s1, s2, s3, s4, s5, s6, s7, s8] rfl
  have hT : ∀ i, i < 9 → tuned A cfg.Offsets i = A.idx i := by
    intro i hi
    simp [tuned, offsetAt, hi, h0, F64.add_fin_zero]
  simp only [] at hW
  rw [hT 0 (by norm_num), hT 1 (by norm_num), hT 2 (by norm_num), hT 3 (by norm_num),
    hT 4 (by norm_num), hT 5 (by norm_num), hT 6 (by norm_num), hT 7 (by norm_num)] at hW
  have hA5 : A.idx TimeSunset = s5 + (tz - cfg.Longitude / fin 15) := by
    show (adjustTimes cfg _ tz cfg.Longitude).idx TimeSunset = _
    rw [adjustTimes_nine]
    rfl
  have h5 : W.idx TimeSunset = A.idx TimeSunset := by rw [hW]; rfl
  have hX : W.idx X = A.idx X := by
    rw [hW]; simp only [X]; split_ifs <;> rfl
  have h8 : W.idx TimeMidnight
      = A.idx TimeSunset + timeDiff (A.idx TimeSunset) (A.idx X) / fin 2 := by
    rw [hW]; simp only [X]; split_ifs <;> rfl
  refine ⟨hA5, h5, hX, ?_, ?_⟩
  · rw [h8, h5, hX]
  · rw [h8, h5, hX]
    intro f0 f24
    revert f0 f24
    generalize A.idx TimeSunset = x
    generalize A.idx X = y
    intro f0 f24
    cases x with
    | nan => cases y <;> simp [timeDiff, fixHour] at f0
    | fin a =>
      cases y with
      | nan => simp [timeDiff, fixHour] at f0
      | fin b =>
        rw [timeDiff_fin] at f0 f24 ⊢
        simp only [F64.le_fin, decide_eq_true_eq] at f0 f24
        simp
        constructor <;> linarith

/-- Claim C9, amended, at convention MWL with Sunrise 6h and Sunset 18h. -/
theorem midnight_value_witness :
    (∀ i, exampleConfig.Offsets i = fin 0) ∧
    F64.le ((computeTimes.finish exampleConfig (fin 0) exampleSolved).idx TimeSunset)
      ((computeTimes.finish exampleConfig (fin 0) exampleSolved).idx TimeMidnight) = true ∧
    F64.le ((computeTimes.finish exampleConfig (fin 0) exampleSolved).idx TimeMidnight)
      ((computeTimes.finish exampleConfig (fin 0) exampleSolved).idx TimeSunset + fin 12)
        = true := by
  have h := (midnight_value exampleConfig (fin 0) (fin 5) (fin 5) (fin 6) (fin 12) (fin 15)
    (fin 18) (fin 18) (fin 19) (fin 19) (fun _ => rfl)).2.2.2.2
  have hW : computeTimes.finish exampleConfig (fin 0)
      [fin 5, fin 5, fin 6, fin 12, fin 15, fin 18, fin 18, fin 19, fin 19] = _ :=
    finish_of_adjusted _ _ _ _ _ _ _ _ _ _ _ _ (example_adjusted exampleConfig.Offsets)
  have e : timeDiff
      ((computeTimes.finish exampleConfig (fin 0)
        [fin 5, fin 5, fin 6, fin 12, fin 15, fin 18, fin 18, fin 19, fin 19]).idx TimeSunset)
      ((computeTimes.finish exampleConfig (fin 0)
        [fin 5, fin 5, fin 6, fin 12, fin 15, fin 18, fin 18, fin 19, fin 19]).idx
          (if exampleConfig.Convention = ConventionJafari then TimeFajr else TimeSunrise))
      = fin 12 := by
    rw [hW]
    have : timeDiff (fin 18) (fin 6) = fin 12 :=
      fixHour_eq _ _ (-1) (by norm_num) (by norm_num) (by norm_num)
    norm_num [Slice.idx, TimeSunset, TimeSunrise, tuned, offsetAt, exampleConfig,
      ConventionMWL, ConventionJafari]
    exact this
  exact ⟨fun _ => rfl, h (by rw [e]; norm_num) (by rw [e]; norm_num)⟩

/-- Claim C10 fails on the code: tuning is applied before Midnight is computed.  Midnight
is computed from the tuned Sunset and the tuned Fajr (Jafari) or Sunrise (every other
convention), so it moves with their tuning offsets.  With convention MWL, Sunrise 6h and
Sunset 18h, Midnight is 24h when all offsets are 0 and 24.5h when only the Sunset offset
is set to 60 minutes. -/
theorem midnight_reads_tuned_times :
    (∀ (H : Host) (cfg : Config),
      (computeTimes.working H cfg).idx TimeMidnight =
        tuned (computeTimes.adjusted H cfg) cfg.Offsets TimeSunset +
          timeDiff (tuned (computeTimes.adjusted H cfg) cfg.Offsets TimeSunset)
            (if cfg.Convention = ConventionJafari
              then tuned (computeTimes.adjusted H cfg) cfg.Offsets TimeFajr
              else tuned (computeTimes.adjusted H cfg) cfg.Offsets TimeSunrise) / fin 2) ∧
    (computeTimes.finish exampleConfig (fin 0) exampleSolved).idx TimeMidnight = fin 24 ∧
    (computeTimes.finish { exampleConfig with
        Offsets := Function.update exampleConfig.Offsets 5 (fin 60) } (fin 0)
      exampleSolved).idx TimeMidnight = fin (49 / 2) := by
  refine ⟨fun H cfg => ?_, example_midnight.1, example_midnight.2⟩
  rw [working_eq]
  rfl

/-- Claim C11 fails on the code: `adjustTimes` does not follow the specified step order.
The loop of `adjustTimes` shifts entry `i` and applies the corrector to it in the same
pass, so the Fajr corrector (`i = 1`) reads the Sunrise and the Sunset before they are
shifted.  From Sunrise on, the entries agree with those of the specified order
(`adjustTimesSpec`) for every input; Fajr and Imsak need not.  For Paris on 1 June 2017
(MWL, angle-based, zone offset 2 hours, longitude 2.3522) the code returns Fajr
`405103/150000` hours, formatted 02:42, and the specified order returns
`1028657/300000` hours, formatted 03:26. -/
theorem adjustTimes_order_differs :
    (∀ (cfg : Config) (s0 s1 s2 s3 s4 s5 s6 s7 s8 tz lon : F64) (i : ℕ), 2 ≤ i →
      (adjustTimes cfg [s0, s1, s2, s3, s4, s5, s6, s7, s8] tz lon).idx i
        = (adjustTimesSpec cfg [s0, s1, s2, s3, s4, s5, s6, s7, s8] tz lon).idx i) ∧
    (adjustTimes parisConfig parisSolved (fin 2) (fin 2.3522)).idx TimeFajr
      = fin (405103 / 150000) ∧
    (adjustTimesSpec parisConfig parisSolved (fin 2) (fin 2.3522)).idx TimeFajr
      = fin (1028657 / 300000) ∧
    convertToHoursMinutes
        ((adjustTimes parisConfig parisSolved (fin 2) (fin 2.3522)).idx TimeFajr)
      = (fin 2, fin 42) ∧
    convertToHoursMinutes
        ((adjustTimesSpec parisConfig parisSolved (fin 2) (fin 2.3522)).idx TimeFajr)
      = (fin 3, fin 26) ∧
    adjustTimes parisConfig parisSolved (fin 2) (fin 2.3522)
      ≠ adjustTimesSpec parisConfig parisSolved (fin 2) (fin 2.3522) := by
  have h1 : (adjustTimes parisConfig parisSolved (fin 2) (fin 2.3522)).idx TimeFajr
      = fin (405103 / 150000) := by rw [paris_adjusted]; rfl
  have h2 : (adjustTimesSpec parisConfig parisSolved (fin 2) (fin 2.3522)).idx TimeFajr
      = fin (1028657 / 300000) := by rw [paris_adjusted_spec]; rfl
  refine ⟨adjustTimes_agree_from_sunrise, h1, h2, ?_, ?_, ?_⟩
  · rw [h1]; exact convert_paris.1
  · rw [h2]; exact convert_paris.2
  · intro h
    rw [h, h2] at h1
    injection h1 with h1
    norm_num at h1

/-- Claim C12 fails on the code: the Fajr that `adjustTimes` returns can be further from
the returned Sunrise than the night portion allows.  The Fajr corrector runs before
Sunrise and Sunset are shifted: for finite times and a mode other than none the returned
Fajr is either the shifted solved Fajr or the unshifted Sunrise minus the night portion of
the night, while the returned Sunrise and Sunset are the shifted ones.  For Paris on 1 June
2017 (MWL, angle-based, night portion `18/60`, zone offset 2 hours, longitude 2.3522), in
the returned array `timeDiff(Fajr, Sunrise) = 3941/1250` hours and
`nightPortion * timeDiff(Sunset, Sunrise) = 242463/100000` hours: the first is not at most
the second. -/
theorem fajr_night_fraction_fails :
    (∀ (cfg : Config) (tz lon s0 s1 s2 s3 s4 s5 s6 s7 s8 : ℚ),
      cfg.HighLatMethod ≠ HighlatMethodNone →
      (adjustTimes cfg [fin s0, fin s1, fin s2, fin s3, fin s4, fin s5, fin s6, fin s7,
          fin s8] (fin tz) (fin lon)).idx TimeSunrise = fin (s2 + (tz - lon / 15)) ∧
      (adjustTimes cfg [fin s0, fin s1, fin s2, fin s3, fin s4, fin s5, fin s6, fin s7,
          fin s8] (fin tz) (fin lon)).idx TimeSunset = fin (s5 + (tz - lon / 15)) ∧
      ((adjustTimes cfg [fin s0, fin s1, fin s2, fin s3, fin s4, fin s5, fin s6, fin s7,
          fin s8] (fin tz) (fin lon)).idx TimeFajr = fin (s1 + (tz - lon / 15)) ∨
        (adjustTimes cfg [fin s0, fin s1, fin s2, fin s3, fin s4, fin s5, fin s6, fin s7,
          fin s8] (fin tz) (fin lon)).idx TimeFajr
          = fin s2 - nightPortion cfg (sunAngle cfg.Convention AngleFajr)
              * timeDiff (fin s5) (fin s2))) ∧
    parisConfig.HighLatMethod ≠ HighlatMethodNone ∧
    nightPortion parisConfig (sunAngle parisConfig.Convention AngleFajr) = fin (3 / 10) ∧
    timeDiff ((adjustTimes parisConfig parisSolved (fin 2) (fin 2.3522)).idx TimeFajr)
        ((adjustTimes parisConfig parisSolved (fin 2) (fin 2.3522)).idx TimeSunrise)
      = fin (3941 / 1250) ∧
    nightPortion parisConfig (sunAngle parisConfig.Convention AngleFajr) *
        timeDiff ((adjustTimes parisConfig parisSolved (fin 2) (fin 2.3522)).idx TimeSunset)
          ((adjustTimes parisConfig parisSolved (fin 2) (fin 2.3522)).idx TimeSunrise)
      = fin (242463 / 100000) ∧
    F64.le
      (timeDiff ((adjustTimes parisConfig parisSolved (fin 2) (fin 2.3522)).idx TimeFajr)
        ((adjustTimes parisConfig parisSolved (fin 2) (fin 2.3522)).idx TimeSunrise))
      (nightPortion parisConfig (sunAngle parisConfig.Convention AngleFajr) *
        timeDiff ((adjustTimes parisConfig parisSolved (fin 2) (fin 2.3522)).idx TimeSunset)
          ((adjustTimes parisConfig parisSolved (fin 2) (fin 2.3522)).idx TimeSunrise))
      = false := by
  have hp : nightPortion parisConfig (sunAngle parisConfig.Convention AngleFajr)
      = fin (3 / 10) := by
    have hc : parisConfig.Convention = ConventionMWL := rfl
    have hh : parisConfig.HighLatMethod = HighlatMethodAngleBased := rfl
    rw [hc, sunAngle_MWL.1]
    norm_num [nightPortion, hh]
  have e1 : timeDiff (fin (405103 / 150000)) (fin (878023 / 150000)) = fin (3941 / 1250) :=
    fixHour_eq _ _ 0 (by norm_num) (by norm_num) (by norm_num)
  have e2 : timeDiff (fin (816427 / 37500)) (fin (878023 / 150000)) = fin (80821 / 10000) :=
    fixHour_eq _ _ (-1) (by norm_num) (by norm_num) (by norm_num)
  have h1 : (adjustTimes parisConfig parisSolved (fin 2) (fin 2.3522)).idx TimeFajr
      = fin (405103 / 150000) := by rw [paris_adjusted]; rfl
  have h2 : (adjustTimes parisConfig parisSolved (fin 2) (fin 2.3522)).idx TimeSunrise
      = fin (878023 / 150000) := by rw [paris_adjusted]; rfl
  have h5 : (adjustTimes parisConfig parisSolved (fin 2) (fin 2.3522)).idx TimeSunset
      = fin (816427 / 37500) := by rw [paris_adjusted]; rfl
  rw [h1, h2, h5, hp, e1, e2]
  refine ⟨adjusted_fajr, by decide, rfl, rfl, ?_, ?_⟩ <;> norm_num

/-- Claim C13 fails on the code by one rounding: with the Jafari convention and the
one-seventh method, solved Sunrise 6h, Sunset 18h and Isha 22h (zone offset and longitude
0), `adjustTimes` replaces Isha by `18 + 0.14286 * 12`, which is `19.71432`, and
`timeDiff(Sunset, Isha)` is `1.7143200000000007`, above the product
`1.7143199999999998`. -/
theorem isha_exceeds_night_fraction :
    let cfg := IEEE.plainConfig ConventionJafari HighlatMethodOneSeventh (fun _ => B64.fin 0)
    let A := IEEE.adjustTimes cfg
      [B64.fin 3, B64.fin 3, B64.fin 6, B64.fin 12, B64.fin 15, B64.fin 18, B64.fin 18,
        B64.fin 22, B64.fin 22] (B64.fin 0) (B64.fin 0)
    A.idx TimeIsha = B64.lit 19.71432 ∧
    IEEE.timeDiff (A.idx TimeSunset) (A.idx TimeIsha) = B64.lit 1.7143200000000007 ∧
    IEEE.nightPortion cfg (IEEE.sunAngle ConventionJafari AngleIsha)
        * IEEE.timeDiff (A.idx TimeSunset) (A.idx TimeSunrise) = B64.lit 1.7143199999999998 ∧
    B64.le (IEEE.timeDiff (A.idx TimeSunset) (A.idx TimeIsha))
      (IEEE.nightPortion cfg (IEEE.sunAngle ConventionJafari AngleIsha)
        * IEEE.timeDiff (A.idx TimeSunset) (A.idx TimeSunrise)) = false := by
  decide!

/-- Claim C13, amended: for every finite input, every high-latitude mode other than none
and every convention except Makkah, in the array `A` that `adjustTimes` returns the
Sunrise and the Sunset are the solved ones moved by `tzOffset - longitude/15`, the night
portion of the Isha angle is in `[0, 1)`, and Isha is either
`A[Sunset] + nightPortion * timeDiff(A[Sunset], A[Sunrise])`, or the solved Isha moved by
`tzOffset - longitude/15`, and then it is not below 1 and `timeDiff(A[Sunset], A[Isha])` is
not greater than `nightPortion * timeDiff(A[Sunset], A[Sunrise])`. -/
theorem isha_night_policy (cfg : Config) (tz lon s0 s1 s2 s3 s4 s5 s6 s7 s8 : ℚ)
    (hm : cfg.HighLatMethod ≠ HighlatMethodNone) (hc : cfg.Convention ≠ ConventionMakkah) :
    let A := adjustTimes cfg
      [fin s0, fin s1, fin s2, fin s3, fin s4, fin s5, fin s6, fin s7, fin s8] (fin tz) (fin lon)
    let limit := nightPortion cfg (sunAngle cfg.Convention AngleIsha)
      * timeDiff (A.idx TimeSunset) (A.idx TimeSunrise)
    A.idx TimeSunrise = fin s2 + (fin tz - fin lon / fin 15) ∧
    A.idx TimeSunset = fin s5 + (fin tz - fin lon / fin 15) ∧
    (∃ p : ℚ, nightPortion cfg (sunAngle cfg.Convention AngleIsha) = fin p ∧ 0 ≤ p ∧ p < 1) ∧
    (A.idx TimeIsha = A.idx TimeSunset + limit ∨
      (A.idx TimeIsha = fin s7 + (fin tz - fin lon / fin 15) ∧
        F64.lt (A.idx TimeIsha) (fin 1) = false ∧
        F64.gt (timeDiff (A.idx TimeSunset) (A.idx TimeIsha)) limit = false)) := by
  intro A limit
  obtain ⟨-, f1, hp⟩ := isha_portion cfg hc
  have hA : A = _ := adjustTimes_nine cfg _ _ _ _ _ _ _ _ _ _ _
  simp only [f1, hm, ne_eq, not_false_eq_true, decide_True, if_true, Bool.false_eq_true,
    if_false] at hA
  have h2 : A.idx TimeSunrise = fin s2 + (fin tz - fin lon / fin 15) := by rw [hA]; rfl
  have h5 : A.idx TimeSunset = fin s5 + (fin tz - fin lon / fin 15) := by rw [hA]; rfl
  refine ⟨h2, h5, hp, ?_⟩
  obtain ⟨ts, h7, t5, t2, t7⟩ : ∃ ts : Slice,
      A.idx TimeIsha = adjustHighLatTime cfg 7 (fin s7 + (fin tz - fin lon / fin 15)) ts ∧
      ts.idx TimeSunset = A.idx TimeSunset ∧ ts.idx TimeSunrise = A.idx TimeSunrise ∧
      ts.idx TimeIsha = fin s7 + (fin tz - fin lon / fin 15) := by
    rw [h2, h5, hA]
    exact ⟨_, rfl, rfl, rfl, rfl⟩
  rcases adjustHighLatTime_isha cfg hc (fin s7 + (fin tz - fin lon / fin 15)) ts with h | h
  · left
    rw [h7, h, t5, t2]
  · right
    have e7 : A.idx TimeIsha = fin s7 + (fin tz - fin lon / fin 15) := by rw [h7, h.1]
    have h3 := h.2.2
    rw [t5, t2, t7, ← e7] at h3
    refine ⟨e7, ?_, h3⟩
    rw [e7, ← t7]
    exact h.2.1

/-- Claim C13, amended, at the reference fixture (Jafari, angle-based, Sydney). -/
theorem isha_night_policy_witness :
    fixtureConfig.HighLatMethod ≠ HighlatMethodNone ∧
    fixtureConfig.Convention ≠ ConventionMakkah ∧
    (adjustTimes fixtureConfig fixtureSolved (fin 10) (fin 151.2093)).idx TimeSunset
      = fin 18.2103 + (fin 10 - fin 151.2093 / fin 15) ∧
    ((adjustTimes fixtureConfig fixtureSolved (fin 10) (fin 151.2093)).idx TimeIsha
        = (adjustTimes fixtureConfig fixtureSolved (fin 10) (fin 151.2093)).idx TimeSunset
          + nightPortion fixtureConfig (sunAngle fixtureConfig.Convention AngleIsha)
            * timeDiff
              ((adjustTimes fixtureConfig fixtureSolved (fin 10) (fin 151.2093)).idx TimeSunset)
              ((adjustTimes fixtureConfig fixtureSolved (fin 10) (fin 151.2093)).idx TimeSunrise)
      ∨ ((adjustTimes fixtureConfig fixtureSolved (fin 10) (fin 151.2093)).idx TimeIsha
          = fin 19.3081 + (fin 10 - fin 151.2093 / fin 15) ∧
        F64.lt ((adjustTimes fixtureConfig fixtureSolved (fin 10) (fin 151.2093)).idx TimeIsha)
          (fin 1) = false ∧
        F64.gt
          (timeDiff
            ((adjustTimes fixtureConfig fixtureSolved (fin 10) (fin 151.2093)).idx TimeSunset)
            ((adjustTimes fixtureConfig fixtureSolved (fin 10) (fin 151.2093)).idx TimeIsha))
          (nightPortion fixtureConfig (sunAngle fixtureConfig.Convention AngleIsha)
            * timeDiff
              ((adjustTimes fixtureConfig fixtureSolved (fin 10) (fin 151.2093)).idx TimeSunset)
              ((adjustTimes fixtureConfig fixtureSolved (fin 10) (fin 151.2093)).idx
                TimeSunrise)) = false)) :=
  ⟨by decide, by decide,
    (isha_night_policy fixtureConfig 10 151.2093 4.0645 4.0645 5.3319 11.7668 15.3840 18.2103
      18.4700 19.3081 19.3081 (by decide) (by decide)).2.1,
    (isha_night_policy fixtureConfig 10 151.2093 4.0645 4.0645 5.3319 11.7668 15.3840 18.2103
      18.4700 19.3081 19.3081 (by decide) (by decide)).2.2.2⟩

/-- Claim C14 as stated fails for the one-seventh mode: `nightPortion` returns the
constant `0.14286`, which is neither `0.142857` nor `1/7`. -/
theorem nightPortion_one_seventh_constant :
    nightPortion { exampleConfig with HighLatMethod := HighlatMethodOneSeventh } (fin 18)
        = fin 0.14286 ∧
    nightPortion { exampleConfig with HighLatMethod := HighlatMethodOneSeventh } (fin 18)
        ≠ fin 0.142857 ∧
    nightPortion { exampleConfig with HighLatMethod := HighlatMethodOneSeventh } (fin 18)
        ≠ fin (1 / 7) := by
  have h : nightPortion { exampleConfig with HighLatMethod := HighlatMethodOneSeventh } (fin 18)
      = fin 0.14286 := by
    norm_num [nightPortion, HighlatMethodOneSeventh, HighlatMethodAngleBased,
      HighlatMethodNightMiddle]
  refine ⟨h, ?_, ?_⟩ <;> rw [h] <;> intro e <;> injection e with e <;> norm_num at e

/-- Claim C14, amended to the constant of the code: for every configuration and every
angle, `nightPortion` returns `angle/60` for the angle-based mode, `0.5` for night-middle,
`0.14286` for one-seventh and `0` for none, as for every other value of the mode. -/
theorem nightPortion_values (cfg : Config) (angle : F64) :
    nightPortion { cfg with HighLatMethod := HighlatMethodAngleBased } angle = angle / fin 60 ∧
    nightPortion { cfg with HighLatMethod := HighlatMethodNightMiddle } angle = fin 0.5 ∧
    nightPortion { cfg with HighLatMethod := HighlatMethodOneSeventh } angle = fin 0.14286 ∧
    nightPortion { cfg with HighLatMethod := HighlatMethodNone } angle = fin 0 ∧
    ∀ m : ℤ, m ≠ HighlatMethodAngleBased → m ≠ HighlatMethodNightMiddle →
      m ≠ HighlatMethodOneSeventh → nightPortion { cfg with HighLatMethod := m } angle = fin 0 := by
  refine ⟨?_, ?_, ?_, ?_, fun m h1 h2 h3 => ?_⟩
  · simp [nightPortion]
  · simp [nightPortion, HighlatMethodAngleBased, HighlatMethodNightMiddle]
  · simp [nightPortion, HighlatMethodAngleBased, HighlatMethodNightMiddle,
      HighlatMethodOneSeventh]
  · simp [nightPortion, HighlatMethodAngleBased, HighlatMethodNightMiddle,
      HighlatMethodOneSeventh, HighlatMethodNone]
  · simp [nightPortion, h1, h2, h3]

/-- Claim C14, amended, at the angle 18 of convention MWL. -/
theorem nightPortion_values_witness :
    nightPortion { exampleConfig with HighLatMethod := HighlatMethodAngleBased } (fin 18)
      = fin 18 / fin 60 ∧
    nightPortion { exampleConfig with HighLatMethod := HighlatMethodNightMiddle } (fin 18)
      = fin 0.5 ∧
    nightPortion { exampleConfig with HighLatMethod := HighlatMethodOneSeventh } (fin 18)
      = fin 0.14286 ∧
    nightPortion { exampleConfig with HighLatMethod := HighlatMethodNone } (fin 18) = fin 0 :=
  ⟨(nightPortion_values exampleConfig (fin 18)).1, (nightPortion_values exampleConfig (fin 18)).2.1,
    (nightPortion_values exampleConfig (fin 18)).2.2.1,
    (nightPortion_values exampleConfig (fin 18)).2.2.2.1⟩

/-- Claim C15 fails on the code: for the reference fixture with the Imsak and the Fajr
tuning offsets both `-7.5316413844674335` minutes, on `sydneyHost`, `Custom` returns Imsak
03:41 and Fajr 03:52, 11 minutes apart; with both offsets `-5.5316413844674335` it returns
03:44 and 03:53, 9 minutes apart. -/
theorem imsak_gap_of_nine_and_eleven :
    let near := IEEE.Custom sydneyHost ConventionJafari 0 AsrFactorStandard
      HighlatMethodAngleBased (B64.lit (-33.8688)) (B64.lit 151.2093) ⟨1981, 10, 14⟩
      "Australia/Sydney" (IEEE.fajrOffsets (B64.lit (-5.5316413844674335)))
    let far := IEEE.Custom sydneyHost ConventionJafari 0 AsrFactorStandard
      HighlatMethodAngleBased (B64.lit (-33.8688)) (B64.lit 151.2093) ⟨1981, 10, 14⟩
      "Australia/Sydney" (IEEE.fajrOffsets (B64.lit (-7.5316413844674335)))
    far.Imsak = ⟨B64.fin 3, B64.fin 41⟩ ∧ far.Fajr = ⟨B64.fin 3, B64.fin 52⟩ ∧
    near.Imsak = ⟨B64.fin 3, B64.fin 44⟩ ∧ near.Fajr = ⟨B64.fin 3, B64.fin 53⟩ := by
  intro near far
  have hn : near = _ := IEEE.sydney_custom _
  have hf : far = _ := IEEE.sydney_custom _
  rw [hn, hf]
  decide!

/-- Claim C15, amended: in every call of `Custom`, whatever the convention, the latitude,
the high-latitude mode and the host, the array that `adjustTimes` returns has nine entries
and its Imsak is its Fajr less `10/60` hours; the working array that is formatted has that
Imsak plus the Imsak offset over 60 and that Fajr plus the Fajr offset over 60.  (The two
are rounded to the minute separately, which leaves them 10 minutes apart but for the
rounding.) -/
theorem imsak_is_fajr_less_ten_minutes (H : Host) (convention : Fin 8)
    (dhuhrMinutes asrFactor highLatMethod : ℤ) (latitude longitude : F64) (date : GoDate)
    (timeZone : String) (offsets : Fin 9 → F64) :
    let cfg := Custom.config convention dhuhrMinutes asrFactor highLatMethod latitude longitude
      date timeZone offsets
    let A := computeTimes.adjusted H cfg
    let W := computeTimes.working H cfg
    A.length = 9 ∧
    A.idx TimeImsak = A.idx TimeFajr - fin 10 / fin 60 ∧
    W.idx TimeImsak = A.idx TimeImsak + offsets 0 / fin 60 ∧
    W.idx TimeFajr = A.idx TimeFajr + offsets 1 / fin 60 ∧
    Custom H convention dhuhrMinutes asrFactor highLatMethod latitude longitude date timeZone
        offsets = computeTimes.format W := by
  intro cfg A W
  refine ⟨adjusted_length H cfg, ?_, ?_, ?_, Custom_eq _ _ _ _ _ _ _ _ _ _⟩
  · have h := adjusted_imsak cfg (computeTimes.solved H cfg)
      (tzOffset (H.zoneOffset cfg.Date cfg.TimeZone)) cfg.Longitude (solved_length H cfg)
    have e : F64.ofInt cfg.ImsakMinutes = fin 10 := by
      show F64.ofInt 10 = fin 10
      simp [F64.ofInt]
    rw [e] at h
    exact h
  · exact working_idx H cfg TimeImsak (by decide)
  · exact working_idx H cfg TimeFajr (by decide)

/-- Claim C16 fails on the code by one rounding: with the Makkah convention, solved Sunset
and Maghrib 15.5h and the Sunset, Maghrib and Isha tuning offsets all 5 minutes (no
high-latitude method, zone offset and longitude 0), the working Maghrib is
`15.583333333333334` and the working Isha is `17.083333333333332`, while Maghrib plus
`90/60` is `17.083333333333336`. -/
theorem tuned_isha_differs :
    let offsets : Fin 9 → B64 := fun i => if 5 ≤ i.val ∧ i.val ≤ 7 then B64.fin 5 else B64.fin 0
    let W := IEEE.computeTimes.finish
      (IEEE.plainConfig ConventionMakkah HighlatMethodNone offsets) (B64.fin 0)
      [B64.fin 5, B64.fin 5, B64.fin 7, B64.fin 12, B64.fin 14, B64.fin 15.5, B64.fin 15.5,
        B64.fin 17, B64.fin 17]
    W.idx TimeMaghrib = B64.lit 15.583333333333334 ∧
    W.idx TimeIsha = B64.lit 17.083333333333332 ∧
    W.idx TimeMaghrib + B64.fin 90 / B64.fin 60 = B64.lit 17.083333333333336 ∧
    W.idx TimeIsha ≠ W.idx TimeMaghrib + B64.fin 90 / B64.fin 60 := by
  decide!

/-- Claim C16, amended: the minute-relative conventions.  The Maghrib flag is 1 exactly
for Karachi, ISNA, MWL, Makkah, Egypt and Custom.  For every configuration whose
convention has the flag set, whatever the latitude, the high-latitude mode and the input,
the Sunset that `adjustTimes` returns is the solved Sunset moved by
`tzOffset - longitude/15` and the Maghrib it returns equals that Sunset; so do the two
values of the working array when the Sunset and Maghrib offsets are equal.  With
convention Makkah the Isha that `adjustTimes` returns is its Maghrib plus `90/60` hours;
the Isha of the working array is that sum plus the Isha offset over 60, and the Maghrib of
the working array is the returned Maghrib plus the Maghrib offset over 60. -/
theorem minute_relative_adjusted :
    (∀ c : Fin 8, F64.eq (sunAngle c AngleDhuhr) (fin 1) = true ↔
      c ∈ [ConventionKarachi, ConventionISNA, ConventionMWL, ConventionMakkah,
        ConventionEgypt, ConventionCustom]) ∧
    (∀ (cfg : Config) (tz s0 s1 s2 s3 s4 s5 s6 s7 s8 : F64),
      F64.eq (sunAngle cfg.Convention AngleDhuhr) (fin 1) = true →
      (adjustTimes cfg [s0, s1, s2, s3, s4, s5, s6, s7, s8] tz cfg.Longitude).idx TimeSunset
        = s5 + (tz - cfg.Longitude / fin 15) ∧
      (adjustTimes cfg [s0, s1, s2, s3, s4, s5, s6, s7, s8] tz cfg.Longitude).idx TimeMaghrib
        = (adjustTimes cfg [s0, s1, s2, s3, s4, s5, s6, s7, s8] tz cfg.Longitude).idx
            TimeSunset ∧
      (cfg.Offsets 5 = cfg.Offsets 6 →
        (computeTimes.finish cfg tz [s0, s1, s2, s3, s4, s5, s6, s7, s8]).idx TimeMaghrib
          = (computeTimes.finish cfg tz [s0, s1, s2, s3, s4, s5, s6, s7, s8]).idx
              TimeSunset)) ∧
    (∀ (cfg : Config) (tz s0 s1 s2 s3 s4 s5 s6 s7 s8 : F64),
      cfg.Convention = ConventionMakkah →
      (adjustTimes cfg [s0, s1, s2, s3, s4, s5, s6, s7, s8] tz cfg.Longitude).idx TimeIsha
        = (adjustTimes cfg [s0, s1, s2, s3, s4, s5, s6, s7, s8] tz cfg.Longitude).idx
            TimeMaghrib + fin 90 / fin 60 ∧
      (computeTimes.finish cfg tz [s0, s1, s2, s3, s4, s5, s6, s7, s8]).idx TimeIsha
        = ((adjustTimes cfg [s0, s1, s2, s3, s4, s5, s6, s7, s8] tz cfg.Longitude).idx
            TimeMaghrib + fin 90 / fin 60) + cfg.Offsets 7 / fin 60 ∧
      (computeTimes.finish cfg tz [s0, s1, s2, s3, s4, s5, s6, s7, s8]).idx TimeMaghrib
        = (adjustTimes cfg [s0, s1, s2, s3, s4, s5, s6, s7, s8] tz cfg.Longitude).idx
            TimeMaghrib + cfg.Offsets 6 / fin 60) := by
  refine ⟨maghrib_flag_iff, ?_, ?_⟩
  · intro cfg tz s0 s1 s2 s3 s4 s5 s6 s7 s8 h
    refine ⟨?_, adjusted_maghrib cfg tz _ _ _ _ _ _ _ _ _ _ h, fun ho => ?_⟩
    · rw [adjustTimes_nine]
      rfl
    · rw [finish_idx _ _ _ (by rfl) TimeMaghrib (by decide),
        finish_idx _ _ _ (by rfl) TimeSunset (by decide)]
      unfold tuned
      rw [adjusted_maghrib cfg tz _ _ _ _ _ _ _ _ _ _ h]
      simp only [TimeMaghrib, TimeSunset, offsetAt]
      simp [ho]
  · intro cfg tz s0 s1 s2 s3 s4 s5 s6 s7 s8 h
    refine ⟨adjusted_isha_makkah cfg tz _ _ _ _ _ _ _ _ _ _ h, ?_, ?_⟩
    · rw [finish_idx _ _ _ (by rfl) TimeIsha (by decide)]
      unfold tuned
      rw [adjusted_isha_makkah cfg tz _ _ _ _ _ _ _ _ _ _ h]
      rfl
    · rw [finish_idx _ _ _ (by rfl) TimeMaghrib (by decide)]
      rfl

/-- Claim C17 fails on the code: the sum of the morning and the evening event differs
from twice the midday by one rounding.  For Sydney on 14 October 1981 at day fraction
5/24 and depression angle 16, on `twilightHost`, `computeTime(180 - 16, ...)` is
`4.064480689741125`, `computeTime(16, ...)` is `19.471392145922085` and their sum is
`23.53587283566321`, while `computeMidday` is `11.767936417831606` and twice it is
`23.535872835663213`. -/
theorem twilight_sum_differs :
    let t := IEEE.dayPortion (B64.fin 5)
    let jDay := IEEE.julianDate (B64.fin 1981) (B64.fin 10) (B64.fin 14)
      - B64.lit 151.2093 / B64.fin 360
    let lat := B64.lit (-33.8688)
    let morning := IEEE.computeTime twilightHost (B64.fin 180 - B64.fin 16) t jDay lat
    let evening := IEEE.computeTime twilightHost (B64.fin 16) t jDay lat
    morning = B64.lit 4.064480689741125 ∧ evening = B64.lit 19.471392145922085 ∧
    IEEE.computeMidday twilightHost t jDay = B64.lit 11.767936417831606 ∧
    morning + evening = B64.lit 23.53587283566321 ∧
    B64.fin 2 * IEEE.computeMidday twilightHost t jDay = B64.lit 23.535872835663213 ∧
    morning + evening ≠ B64.fin 2 * IEEE.computeMidday twilightHost t jDay := by
  intro t jDay lat morning evening
  have hm : morning = B64.lit 4.064480689741125 := by
    simp only [morning, jDay, t, lat, IEEE.sydney_jDay]
    exact IEEE.twilight_morning
  have he : evening = B64.lit 19.471392145922085 := by
    simp only [evening, jDay, t, lat, IEEE.sydney_jDay]
    exact IEEE.twilight_evening
  have hz : IEEE.computeMidday twilightHost t jDay = B64.lit 11.767936417831606 := by
    simp only [jDay, t, IEEE.sydney_jDay]
    exact IEEE.twilight_midday
  rw [hm, he, hz]
  refine ⟨rfl, rfl, rfl, by decide!, by decide!, by decide!⟩

/-- Claim C17, amended to the order of the two events: for every host whose arccosine is
nonnegative on `[-1, 1]`, every angle `a < 90`, day fraction `t`, Julian day `jDay` and
latitude for which `computeTime(180 - a, ...)` and `computeTime(a, ...)` are both finite
(the hour angle is solvable), `computeMidday(t, jDay)` is finite and
`computeTime(180 - a, ...) ≤ computeMidday(t, jDay) ≤ computeTime(a, ...)`. -/
theorem twilight_order (H : Host) (a t jDay lat u v : ℚ)
    (hnn : H.acosNonneg) (ha : a < 90)
    (h1 : computeTime H (fin 180 - fin a) (fin t) (fin jDay) (fin lat) = fin u)
    (h2 : computeTime H (fin a) (fin t) (fin jDay) (fin lat) = fin v) :
    ∃ z : ℚ, computeMidday H (fin t) (fin jDay) = fin z ∧ u ≤ z ∧ z ≤ v := by
  obtain ⟨z, hz⟩ := computeMidday_fin H t jDay
  rw [F64.fin_sub] at h1
  exact ⟨z, hz, (computeTime_side H _ t jDay lat u z hnn hz h1).1 (by linarith),
    (computeTime_side H _ t jDay lat v z hnn hz h2).2 (by linarith)⟩

/-- Claim C17, amended, at the angle 18, the Julian date 2451545 and latitude 0, with the
taxicab functions of `linearHost`. -/
theorem twilight_order_witness :
    linearHost.acosNonneg ∧ (18 : ℚ) < 90 ∧
    ∃ u v z : ℚ,
      computeTime linearHost (fin 180 - fin 18) (fin 0) (fin 2451545) (fin 0) = fin u ∧
      computeTime linearHost (fin 18) (fin 0) (fin 2451545) (fin 0) = fin v ∧
      computeMidday linearHost (fin 0) (fin 2451545) = fin z ∧ u ≤ z ∧ z ≤ v := by
  obtain ⟨x, hx, hx1, hx2⟩ := linear_arg
  obtain ⟨u, v, -, h1, h2, -, -, -, -⟩ := computeTime_symmetric linearHost 18 0 2451545 0 x
    linear_sinSupplementary linear_acosNonneg (by norm_num) hx hx1 hx2
  obtain ⟨z, hz, hle⟩ := twilight_order linearHost 18 0 2451545 0 u v linear_acosNonneg
    (by norm_num) h1 h2
  exact ⟨linear_acosNonneg, by norm_num, u, v, z, h1, h2, hz, hle⟩

/-- Claim C18: Asr is monotone in the shadow factor and never precedes solar noon.  For
every host whose functions have the following properties of the real ones (the sine is
odd, nonnegative on `[0, π]` and monotone on `[0, π/2]`; the cosine is nonnegative on
`[-π/2, π/2]`; for `x`, `y` of `[-π/2, π/2]` the tangent of `|x - y|` is nonnegative when
`cos x * cos y + sin x * sin y` is; the arcsine has values in `[-π/2, π/2]`;
the arccosine is nonnegative and antitone on `[-1, 1]`; the arccotangent `atan2 1 x` has
values in `[0, π]` and is antitone on `[0, ∞)` with values at most `π/2` there), every day
fraction `t`, Julian day `jDay` and latitude with `|latitude| < 90`: when both Asr events
are solvable (finite),
`computeMidday(t, jDay) ≤ computeAsr(AsrFactorStandard, ...) ≤ computeAsr(AsrFactorHanafi, ...)`. -/
theorem asr_after_noon_and_monotone (H : Host) (t jDay lat u1 u2 : ℚ)
    (hodd : H.sinOdd) (hs0 : H.sinNonnegHalfTurn) (hsm : H.sinMonotone)
    (hc0 : H.cosNonneg) (htan : H.tanSign)
    (has : H.asinRange) (hac0 : H.acosNonneg) (hacm : H.acosAntitone)
    (hr : H.arccotRange) (hra : H.arccotAntitone)
    (hl0 : -90 < lat) (hl1 : lat < 90)
    (h1 : computeAsr H AsrFactorStandard (fin t) (fin jDay) (fin lat) = fin u1)
    (h2 : computeAsr H AsrFactorHanafi (fin t) (fin jDay) (fin lat) = fin u2) :
    ∃ z : ℚ, computeMidday H (fin t) (fin jDay) = fin z ∧ z ≤ u1 ∧ u1 ≤ u2 := by
  have hpi := piValue_pos
  obtain ⟨d, hd⟩ := computeAsr_declination H _ _ _ _ u1 h1
  obtain ⟨z, hz⟩ := computeMidday_fin H t jDay
  -- the declination is an arcsine, so it is within 90 degrees
  have hdr : -(piValue / 2) ≤ d * piValue / 180 ∧ d * piValue / 180 ≤ piValue / 2 := by
    obtain ⟨l, hl⟩ := sunDeclination_fin H (jDay + t)
    have hd2 : sunDeclination H (fin (jDay + t)) = fin d := hd
    rw [hl] at hd2
    unfold degreeArcsin at hd2
    rw [Host.Asin_fin] at hd2
    split_ifs at hd2 with hp
    · exact absurd hd2 (by simp [radiansToDegrees])
    · rw [radiansToDegrees_fin] at hd2
      injection hd2 with hd2
      push_neg at hp
      have := has _ hp.1 hp.2
      rw [← hd2]
      have e : H.asin (H.sin (obliquity (jDay + t) * piValue / 180) * H.sin (l * piValue / 180))
          * 180 / piValue * piValue / 180
          = H.asin (H.sin (obliquity (jDay + t) * piValue / 180) * H.sin (l * piValue / 180)) := by
        field_simp
      rw [e]
      exact this
  have hlr0 : -(piValue / 2) < lat * piValue / 180 := by
    rw [neg_lt, ← neg_div, ← neg_mul, div_lt_div_iff₀ (by norm_num) (by norm_num)]
    nlinarith
  have hlr1 : lat * piValue / 180 < piValue / 2 := by
    rw [div_lt_div_iff₀ (by norm_num) (by norm_num)]
    nlinarith
  have hcd0 := hc0 _ hdr.1 hdr.2
  have hcl0 := hc0 _ hlr0.le hlr1.le
  -- the two events
  rw [computeAsr_value H _ t jDay lat d z hodd hr hd hz] at h1 h2
  simp only [AsrFactorStandard, AsrFactorHanafi, Int.cast_one, Int.cast_ofNat] at h1 h2
  set T : ℚ := H.tan (|lat - d| * piValue / 180) with hT
  set sd : ℚ := H.sin (d * piValue / 180) with hsd
  set sl : ℚ := H.sin (lat * piValue / 180) with hsl
  set cd : ℚ := H.cos (d * piValue / 180) with hcd'
  set cl : ℚ := H.cos (lat * piValue / 180) with hcl'
  by_cases hm : cd * cl = 0
  · rw [if_pos hm] at h1
    exact absurd h1 (by simp)
  rw [if_neg hm] at h1 h2
  have hmid : 0 < cd * cl := lt_of_le_of_ne (mul_nonneg hcd0 hcl0) (Ne.symm hm)
  by_cases hx1 : (H.sin (H.atan2 1 (1 + T)) - sd * sl) / (cd * cl) < -1
      ∨ (H.sin (H.atan2 1 (1 + T)) - sd * sl) / (cd * cl) > 1
  · rw [if_pos hx1] at h1
    exact absurd h1 (by simp)
  by_cases hx2 : (H.sin (H.atan2 1 (2 + T)) - sd * sl) / (cd * cl) < -1
      ∨ (H.sin (H.atan2 1 (2 + T)) - sd * sl) / (cd * cl) > 1
  · rw [if_pos hx2] at h2
    exact absurd h2 (by simp)
  rw [if_neg hx1] at h1
  rw [if_neg hx2] at h2
  injection h1 with h1
  injection h2 with h2
  push_neg at hx1 hx2
  -- the tangent is nonnegative
  have hS1 : 0 ≤ H.sin (H.atan2 1 (1 + T)) := hs0 _ (hr _).1 (hr _).2
  have hT0 : 0 ≤ T := by
    have e : |lat - d| * piValue / 180 = |lat * piValue / 180 - d * piValue / 180| := by
      have e2 : lat * piValue / 180 - d * piValue / 180 = (lat - d) * (piValue / 180) := by ring
      rw [e2, abs_mul, abs_of_pos (by positivity : 0 < piValue / 180)]
      ring
    rw [hT, e]
    apply htan _ _ hlr0.le hlr1.le hdr.1 hdr.2
    have := hx1.2
    rw [div_le_one hmid] at this
    rw [← hsd, ← hsl, ← hcd', ← hcl']
    nlinarith
  -- the sines of the two arccotangents
  have hA := hra (1 + T) (2 + T) (by linarith) (by linarith)
  have hS : H.sin (H.atan2 1 (2 + T)) ≤ H.sin (H.atan2 1 (1 + T)) :=
    hsm _ _ (hr _).1 hA.1 hA.2
  have harg : (H.sin (H.atan2 1 (2 + T)) - sd * sl) / (cd * cl)
      ≤ (H.sin (H.atan2 1 (1 + T)) - sd * sl) / (cd * cl) := by
    apply div_le_div_of_nonneg_right _ hmid.le
    linarith
  have hV1 := hac0 _ hx1.1 hx1.2
  have hV := hacm _ _ hx2.1 harg hx1.2
  refine ⟨z, hz, ?_, ?_⟩
  · rw [← h1]
    have : 0 ≤ H.acos ((H.sin (H.atan2 1 (1 + T)) - sd * sl) / (cd * cl)) * 180 / piValue / 15 := by
      positivity
    linarith
  · rw [← h1, ← h2]
    have : H.acos ((H.sin (H.atan2 1 (1 + T)) - sd * sl) / (cd * cl)) * 180 / piValue / 15
        ≤ H.acos ((H.sin (H.atan2 1 (2 + T)) - sd * sl) / (cd * cl)) * 180 / piValue / 15 := by
      apply div_le_div_of_nonneg_right _ (by norm_num)
      apply div_le_div_of_nonneg_right _ hpi.le
      linarith
    linarith

/-- Claim C18 at the Julian date 2451545 and latitude 0, with the taxicab functions of
`linearHost`. -/
theorem asr_after_noon_and_monotone_witness :
    linearHost.sinOdd ∧ linearHost.sinNonnegHalfTurn ∧ linearHost.sinMonotone ∧
    linearHost.cosNonneg ∧ linearHost.tanSign ∧ linearHost.asinRange ∧
    linearHost.acosNonneg ∧ linearHost.acosAntitone ∧ linearHost.arccotRange ∧
    linearHost.arccotAntitone ∧ (-90 : ℚ) < 0 ∧ (0 : ℚ) < 90 ∧
    ∃ u1 u2 z : ℚ,
      computeAsr linearHost AsrFactorStandard (fin 0) (fin 2451545) (fin 0) = fin u1 ∧
      computeAsr linearHost AsrFactorHanafi (fin 0) (fin 2451545) (fin 0) = fin u2 ∧
      computeMidday linearHost (fin 0) (fin 2451545) = fin z ∧ z ≤ u1 ∧ u1 ≤ u2 := by
  obtain ⟨u1, h1⟩ := linear_asr AsrFactorStandard (by decide)
  obtain ⟨u2, h2⟩ := linear_asr AsrFactorHanafi (by decide)
  obtain ⟨z, hz, hle⟩ := asr_after_noon_and_monotone linearHost 0 2451545 0 u1 u2 linear_sinOdd
    linear_sinNonnegHalfTurn linear_sinMonotone linear_cosNonneg linear_tanSign linear_asinRange
    linear_acosNonneg linear_acosAntitone linear_arccotRange linear_arccotAntitone
    (by norm_num) (by norm_num) h1 h2
  exact ⟨linear_sinOdd, linear_sinNonnegHalfTurn, linear_sinMonotone, linear_cosNonneg,
    linear_tanSign, linear_asinRange, linear_acosNonneg, linear_acosAntitone,
    linear_arccotRange, linear_arccotAntitone, by norm_num, by norm_num, u1, u2, z, h1, h2, hz,
    hle⟩

/-- Claim C19 fails on the code by one rounding: at the Julian date 2451716.5695899674,
on `solsticeHost`, the declination is `23.438938234947614`, above the obliquity
`23.439 - 0.00000036 * (jd - 2451545)`, which is `23.43893823494761` as a `float64` and
below `23.438938234947612` as a real number. -/
theorem declination_exceeds_obliquity :
    let jd := B64.lit 2451716.5695899674
    IEEE.sunDeclination solsticeHost jd = B64.lit 23.438938234947614 ∧
    B64.lit 23.439 - B64.lit 0.00000036 * (jd - B64.fin 2451545) = B64.lit 23.43893823494761 ∧
    B64.lt (B64.lit 23.439 - B64.lit 0.00000036 * (jd - B64.fin 2451545))
      (IEEE.sunDeclination solsticeHost jd) = true ∧
    ∃ q d : ℚ, jd = B64.fin q ∧ IEEE.sunDeclination solsticeHost jd = B64.fin d ∧
      obliquity q < d := by
  refine ⟨by decide!, by decide!, by decide!, 5265021242725109 / 2147483648,
    206171081056387 / 8796093022208, by decide!, by decide!, by decide!⟩

/-- Claim C19, amended: the divisor of the hour angle is positive.  For every host whose
sine has its values in `[-1, 1]`, whose arcsine has its values in `[-p/2, p/2]` and whose
cosine is positive on `[-p/2, p/2]`, for the `float64` value `p` of `math.Pi`: at every
Julian date the declination is finite and within 90 degrees, and for every latitude with
`|latitude| < 90` the divisor `mid = cos(D) * cos(latitude)` of `computeTime`, at every `t`
and `jDay` with `jDay + t = jd`, is finite and strictly positive. -/
theorem divisor_positive (H : Host) (jd : ℚ)
    (hb : H.sinBounded) (has : H.asinRange) (hc : H.cosPositiveClosed) :
    ∃ d : ℚ, sunDeclination H (fin jd) = fin d ∧ |d| ≤ 90 ∧
      ∀ t jDay lat : ℚ, jDay + t = jd → -90 < lat → lat < 90 →
        ∃ m : ℚ, computeTime.mid H (fin t) (fin jDay) (fin lat) = fin m ∧ 0 < m := by
  obtain ⟨d, hd, hd0, hd1, hd90⟩ := declination_range H jd hb has
  refine ⟨d, hd, hd90, ?_⟩
  intro t jDay lat hj hl0 hl1
  have hpi := piValue_pos
  refine ⟨H.cos (d * piValue / 180) * H.cos (lat * piValue / 180), ?_, ?_⟩
  · unfold computeTime.mid
    simp only [F64.fin_add, hj, hd, degreeToCos_fin, F64.fin_mul]
  · apply mul_pos
    · exact hc _ hd0 hd1
    · apply hc
      · rw [neg_le, ← neg_div, ← neg_mul]
        rw [div_le_div_iff₀ (by norm_num) (by norm_num)]
        nlinarith
      · rw [div_le_div_iff₀ (by norm_num) (by norm_num)]
        nlinarith

/-- Claim C19, amended, at the Julian date 2451545, with the taxicab functions of
`taxicabHost`. -/
theorem divisor_positive_witness :
    taxicabHost.sinBounded ∧ taxicabHost.asinRange ∧ taxicabHost.cosPositiveClosed ∧
    ∃ d : ℚ, sunDeclination taxicabHost (fin 2451545) = fin d ∧ |d| ≤ 90 ∧
      ∀ t jDay lat : ℚ, jDay + t = 2451545 → -90 < lat → lat < 90 →
        ∃ m : ℚ, computeTime.mid taxicabHost (fin t) (fin jDay) (fin lat) = fin m ∧ 0 < m :=
  ⟨taxicab_sinBounded, taxicab_asinRange, taxicab_cosPositiveClosed,
    divisor_positive taxicabHost 2451545 taxicab_sinBounded taxicab_asinRange
      taxicab_cosPositiveClosed⟩

end Praytimes
